import Mathlib

/-!
The tracer core: context propagation codecs and span lifecycle.

A shallow embedding of `tracer.go` (package `tracer`).

Conventions of the embedding.

* A Go `string` or `[]byte` is a `List Nat`; every element stands for one byte
  (a value below 256).  A `uint64` is a `Nat`; the places where the code truncates
  (`byte(v >> 56)` and friends) carry an explicit `% 256`, and the places where the
  code converts to the signed `int` use `toInt64`.
* A function that can return a Go `error` or abort with a run-time panic returns an
  `Outcome`: `ok`, `error e`, or `panic`.
* A Go `map[string]string` is an association list whose order is the order in which
  `range` visits the map; a `nil` map is `none`.
* Calls into the outside world (`time.Now`, `IDGenerator.GenerateID`,
  `Sampler.Sample`, `Storer.Store`, `Logger.Printf`) are recorded in an explicit
  `World` that is threaded through the operations.
* The library routines the code calls (`encoding/binary`, `encoding/hex`, `strconv`,
  `strings`, `unicode/utf8`, `io.ReadFull`) are embedded after the Go standard
  library.  The Unicode case table behind `unicode.ToLower` is a parameter `tbl`
  for the runes above the ASCII range.
-/

namespace TracerModel

/-! ## Basic types -/

/-- A Go string (or byte slice): its bytes in order. -/
abbrev GoString := List Nat

/-- The bytes of an ASCII string literal of the source. -/
def lit (s : String) : GoString := s.data.map Char.toNat

/-- The Go `error` values that occur in the code: the four errors of the
opentracing package, the two end-of-input errors of package `io`, and any other
error, identified by a number. -/
inductive Err where
  | InvalidSpan
  | UnsupportedFormat
  | InvalidCarrier
  | TraceNotFound
  | EOF
  | UnexpectedEOF
  | other (code : Nat)
  deriving DecidableEq, Repr

/-- The result of running a piece of Go code: a value, a returned `error`, or a
run-time panic that aborts the goroutine. -/
inductive Outcome (α : Type) where
  | ok (a : α)
  | error (e : Err)
  | panic
  deriving DecidableEq, Repr

/-- Sequencing of two computations: an error or a panic of the first one ends the
run. -/
def Outcome.bind {α β : Type} (x : Outcome α) (f : α → Outcome β) : Outcome β :=
  match x with
  | Outcome.ok a => f a
  | Outcome.error e => Outcome.error e
  | Outcome.panic => Outcome.panic

/-- The value `2^64`, one more than the largest `uint64`. -/
def two64 : Nat := 18446744073709551616

/-- The value `2^63`, one more than the largest `int` on a 64-bit platform. -/
def two63 : Nat := 9223372036854775808

/-- The conversion `int(u)` of a `uint64` on a 64-bit platform: the bit pattern is
kept and read as a two's complement number. -/
def toInt64 (u : Nat) : Int :=
  if u % two64 < two63 then ((u % two64 : Nat) : Int) else ((u % two64 : Nat) : Int) - (two64 : Int)

/-! ## encoding/binary, big endian -/

/-- `binary.BigEndian.PutUint64(b, v)`: the eight bytes written to `b[0..7]`,
`b[0] = byte(v >> 56)`, ..., `b[7] = byte(v)`. -/
def PutUint64 (v : Nat) : List Nat :=
  [v / 2 ^ 56 % 256, v / 2 ^ 48 % 256, v / 2 ^ 40 % 256, v / 2 ^ 32 % 256,
   v / 2 ^ 24 % 256, v / 2 ^ 16 % 256, v / 2 ^ 8 % 256, v % 256]

/-- `binary.BigEndian.Uint64(b)`: reads `b[0..7]`; the bounds check `_ = b[7]`
panics when `b` has fewer than eight bytes.  The bitwise or of the shifted bytes is
their sum, the shifted bytes having no bit in common. -/
def Uint64 : List Nat → Outcome Nat
  | b0 :: b1 :: b2 :: b3 :: b4 :: b5 :: b6 :: b7 :: _ =>
    Outcome.ok (b7 + b6 * 2 ^ 8 + b5 * 2 ^ 16 + b4 * 2 ^ 24 + b3 * 2 ^ 32 + b2 * 2 ^ 40
      + b1 * 2 ^ 48 + b0 * 2 ^ 56)
  | _ => Outcome.panic

/-! ## encoding/hex -/

/-- The table `hextable` of package `encoding/hex`. -/
def hextable : List Nat := lit "0123456789abcdef"

/-- `hex.EncodeToString(src)`: two characters per byte, `hextable[v>>4]` and
`hextable[v&0x0f]`. -/
def EncodeToString (src : List Nat) : GoString :=
  src.flatMap (fun v => [hextable.getD (v / 16 % 16) 0, hextable.getD (v % 16) 0])

/-- The value of one hexadecimal digit (`0-9`, `a-f`, `A-F`), `none` for any other
byte. -/
def fromHexChar (c : Nat) : Option Nat :=
  if 48 ≤ c ∧ c ≤ 57 then some (c - 48)
  else if 97 ≤ c ∧ c ≤ 102 then some (c - 97 + 10)
  else if 65 ≤ c ∧ c ≤ 70 then some (c - 65 + 10)
  else none

/-- `hex.DecodeString(s)`, as in the current Go library: the bytes decoded before
the first problem, and whether an error is returned (a byte that is no hexadecimal
digit, or an odd length).  (Older releases return no bytes at all with an error; `idFromHex`
comes out the same on every string without error and on every string of which fewer
than eight bytes are decoded.) -/
def DecodeString : GoString → List Nat × Bool
  | [] => ([], false)
  | [_] => ([], true)
  | p :: q :: rest =>
    match fromHexChar p, fromHexChar q with
    | some a, some b => ((a * 16 + b) :: (DecodeString rest).1, (DecodeString rest).2)
    | _, _ => ([], true)

/-! ## strconv -/

/-- The digit loop of `strconv.FormatUint(u, 10)`: the last digit is produced first
and the digits are written from the right. -/
def formatDigits : Nat → Nat → List Nat → List Nat
  | 0, _, acc => acc
  | fuel + 1, u, acc =>
    if 10 ≤ u then formatDigits fuel (u / 10) ((48 + u % 10) :: acc) else (48 + u) :: acc

/-- `strconv.FormatUint(u, 10)`. -/
def FormatUint (u : Nat) : GoString := formatDigits (u + 1) u []

/-- The loop of `strconv.ParseUint(s, 10, 64)` over the bytes of `s`, with the
number read so far; the result is the returned number and whether an error is
returned.  A byte that is no decimal digit is a syntax error (`0`); a number that
does not fit 64 bits is a range error (`2^64 - 1`). -/
def parseDigits : List Nat → Nat → Nat × Bool
  | [], n => (n, false)
  | c :: cs, n =>
    if 48 ≤ c ∧ c ≤ 57 then
      if (two64 - 1) / 10 + 1 ≤ n then (two64 - 1, true)
      else if two64 ≤ n * 10 + (c - 48) then (two64 - 1, true)
      else parseDigits cs (n * 10 + (c - 48))
    else (0, true)

/-- `strconv.ParseUint(s, 10, 64)`. -/
def ParseUint (s : GoString) : Nat × Bool :=
  if s = [] then (0, true) else parseDigits s 0

/-! ## unicode/utf8, unicode, strings -/

/-- `utf8.RuneError`, U+FFFD. -/
def RuneError : Nat := 65533

/-- Whether `b` is a UTF-8 continuation byte, `0x80 ≤ b ≤ 0xBF`. -/
def isCont (b : Nat) : Bool := decide (128 ≤ b ∧ b ≤ 191)

/-- `utf8.DecodeRuneInString(s)` for a non-empty `s`: the rune at the start of `s`
and its width in bytes; an invalid encoding gives `(RuneError, 1)`. -/
def decodeRune : GoString → Nat × Nat
  | [] => (RuneError, 0)
  | s0 :: rest =>
    if s0 < 128 then (s0, 1)
    else if 194 ≤ s0 ∧ s0 ≤ 223 then
      match rest with
      | s1 :: _ => if isCont s1 then (s0 % 32 * 64 + s1 % 64, 2) else (RuneError, 1)
      | _ => (RuneError, 1)
    else if 224 ≤ s0 ∧ s0 ≤ 239 then
      match rest with
      | s1 :: s2 :: _ =>
        if (if s0 = 224 then decide (160 ≤ s1 ∧ s1 ≤ 191)
            else if s0 = 237 then decide (128 ≤ s1 ∧ s1 ≤ 159) else isCont s1) && isCont s2
        then (s0 % 16 * 4096 + s1 % 64 * 64 + s2 % 64, 3) else (RuneError, 1)
      | _ => (RuneError, 1)
    else if 240 ≤ s0 ∧ s0 ≤ 244 then
      match rest with
      | s1 :: s2 :: s3 :: _ =>
        if (if s0 = 240 then decide (144 ≤ s1 ∧ s1 ≤ 191)
            else if s0 = 244 then decide (128 ≤ s1 ∧ s1 ≤ 143) else isCont s1)
            && isCont s2 && isCont s3
        then (s0 % 8 * 262144 + s1 % 64 * 4096 + s2 % 64 * 64 + s3 % 64, 4)
        else (RuneError, 1)
      | _ => (RuneError, 1)
    else (RuneError, 1)

/-- `utf8.AppendRune(nil, r)`: the UTF-8 encoding of `r`; a surrogate or a value
above U+10FFFF is encoded as `RuneError`. -/
def AppendRune (r : Nat) : GoString :=
  if r < 128 then [r]
  else if r < 2048 then [192 + r / 64, 128 + r % 64]
  else if 1114111 < r ∨ (55296 ≤ r ∧ r ≤ 57343) then [239, 191, 189]
  else if r < 65536 then [224 + r / 4096, 128 + r / 64 % 64, 128 + r % 64]
  else [240 + r / 262144, 128 + r / 4096 % 64, 128 + r / 64 % 64, 128 + r % 64]

/-- The lower-case form of an ASCII byte: `c += 'a' - 'A'` when `'A' <= c <= 'Z'`. -/
def lowerASCII (c : Nat) : Nat := if 65 ≤ c ∧ c ≤ 90 then c + 32 else c

/-- `unicode.ToLower(r)`: the ASCII range is handled in the code of the function;
above it the result comes from the Unicode case table `tbl`. -/
def unicodeToLower (tbl : Nat → Nat) (r : Nat) : Nat :=
  if r < 128 then lowerASCII r else tbl r

/-- The second loop of `strings.Map`: every rune of `s` is mapped and appended. -/
def mapTail (mapping : Nat → Nat) : Nat → GoString → GoString
  | 0, _ => []
  | _ + 1, [] => []
  | fuel + 1, c0 :: rest =>
    AppendRune (mapping (decodeRune (c0 :: rest)).1)
      ++ mapTail mapping fuel ((c0 :: rest).drop (decodeRune (c0 :: rest)).2)

/-- `strings.Map(mapping, s)`: the bytes of `s` are kept up to the first rune that
the mapping changes (an invalid byte counts as changed); from there on the mapped
runes are encoded afresh. -/
def Map (mapping : Nat → Nat) : Nat → GoString → GoString
  | 0, s => s
  | _ + 1, [] => []
  | fuel + 1, c0 :: rest =>
    if mapping (decodeRune (c0 :: rest)).1 = (decodeRune (c0 :: rest)).1
        ∧ ¬ ((decodeRune (c0 :: rest)).1 = RuneError ∧ (decodeRune (c0 :: rest)).2 = 1) then
      (c0 :: rest).take (decodeRune (c0 :: rest)).2
        ++ Map mapping fuel ((c0 :: rest).drop (decodeRune (c0 :: rest)).2)
    else
      AppendRune (mapping (decodeRune (c0 :: rest)).1)
        ++ mapTail mapping fuel ((c0 :: rest).drop (decodeRune (c0 :: rest)).2)

/-- `strings.ToLower(s)`: a string of ASCII bytes only is lowered byte by byte;
any other string goes through `strings.Map(unicode.ToLower, s)`. -/
def ToLower (tbl : Nat → Nat) (s : GoString) : GoString :=
  if s.all (fun c => decide (c < 128)) then
    s.map lowerASCII
  else Map (unicodeToLower tbl) s.length s

/-- `strings.HasPrefix(s, p)`: `len(s) >= len(p) && s[:len(p)] == p`. -/
def HasPrefix (s p : GoString) : Bool :=
  decide (p.length ≤ s.length) && decide (s.take p.length = p)

/-! ## Go maps -/

/-- Reading `m[k]` in a map given by its entries: the value of the first entry with
key `k`. -/
def assocGet {κ α : Type} [DecidableEq κ] : List (κ × α) → κ → Option α
  | [], _ => none
  | (k1, v1) :: m, k => if k1 = k then some v1 else assocGet m k

/-- The assignment `m[k] = v` on the entries of a map: the value of an existing key
is replaced, a new key gets a new entry. -/
def assocSet {κ α : Type} [DecidableEq κ] : List (κ × α) → κ → α → List (κ × α)
  | [], k, v => [(k, v)]
  | (k1, v1) :: m, k, v => if k1 = k then (k, v) :: m else (k1, v1) :: assocSet m k v

/-- A Go map: `none` is the `nil` map, `some m` a map with the entries `m`, listed in
the order in which `range` visits them. -/
abbrev GoMap (α : Type) := Option (List (GoString × α))

/-- The entries a `range` loop visits (none for a `nil` map). -/
def GoMap.entries {α : Type} (m : GoMap α) : List (GoString × α) := m.getD []

/-- The lookup `v, ok := m[k]`; reading a `nil` map finds nothing. -/
def GoMap.get {α : Type} (m : GoMap α) (k : GoString) : Option α := assocGet m.entries k

/-- The assignment `m[k] = v`; it panics on a `nil` map. -/
def GoMap.set {α : Type} (m : GoMap α) (k : GoString) (v : α) : Outcome (GoMap α) :=
  match m with
  | none => Outcome.panic
  | some l => Outcome.ok (some (assocSet l k v))

/-- A map value is well formed when no key occurs twice among its entries. -/
def GoMap.WF {α : Type} (m : GoMap α) : Prop := (m.entries.map Prod.fst).Nodup

instance GoMap.decidableWF {α : Type} (m : GoMap α) : Decidable m.WF :=
  inferInstanceAs (Decidable (m.entries.map Prod.fst).Nodup)

/-! ## The data model of `tracer.go` -/

/-- The constant `FlagSampled = 1 << iota`. -/
def FlagSampled : Nat := 1

/-- The struct `Context`. -/
structure Context where
  TraceID : Nat
  ParentID : Nat
  SpanID : Nat
  Flags : Nat
  Baggage : GoMap GoString
  deriving DecidableEq, Repr

/-- The kinds of `reflect.Kind`. -/
inductive Kind where
  | Invalid | Bool | Int | Int8 | Int16 | Int32 | Int64
  | Uint | Uint8 | Uint16 | Uint32 | Uint64 | Uintptr
  | Float32 | Float64 | Complex64 | Complex128
  | Array | Chan | Func | Interface | Map | Pointer | Slice | String | Struct
  | UnsafePointer
  deriving DecidableEq, Repr

/-- A value of type `interface{}`: the `nil` interface, or a value of some kind
together with a representation of its contents. -/
inductive Value where
  | nil
  | of (kind : Kind) (repr : List Nat)
  deriving DecidableEq, Repr

/-- A `time.Time`, counted in nanoseconds from the zero time. -/
abbrev Time := Nat

/-- `t.IsZero()`. -/
def Time.IsZero (t : Time) : Bool := decide (t = 0)

/-- The struct `opentracing.LogData`. -/
structure LogData where
  Timestamp : Time
  Event : GoString
  Payload : Value
  deriving DecidableEq, Repr

/-- The struct `RawSpan`. -/
structure RawSpan where
  SpanID : Nat
  ParentID : Nat
  TraceID : Nat
  OperationName : GoString
  StartTime : Time
  FinishTime : Time
  Flags : Nat
  Tags : GoMap Value
  Baggage : GoMap GoString
  Logs : List LogData
  deriving DecidableEq, Repr

/-- The struct `Tracer`: the sampler (its answer for an id), the storer (the error
`Store` returns for a span, if any) and the id generator (the result of its `n`-th
call).  The logger is represented by the lines recorded in the `World`. -/
structure Tracer where
  Sampler : Nat → Bool
  storer : RawSpan → Option Err
  idGenerator : Nat → Nat

/-- The struct `Span`: a `RawSpan` together with the tracer that made it. -/
structure Span extends RawSpan where
  tracer : Tracer

/-- The `RawSpan{}` literal with all fields zero. -/
def RawSpan.zero : RawSpan :=
  { SpanID := 0, ParentID := 0, TraceID := 0, OperationName := [], StartTime := 0,
    FinishTime := 0, Flags := 0, Tags := none, Baggage := none, Logs := [] }

/-- A line handed to `Logger.Printf`. -/
inductive LogLine where
  | unsupportedTag (key : GoString) (value : Value)
  | unsupportedPayload (event : GoString) (payload : Value)
  | storeError (e : Err)
  deriving DecidableEq, Repr

/-- What the code observes of, and does to, its surroundings: the readings of
`time.Now` and how many were taken, the number of ids generated, the ids handed to
`Sampler.Sample`, the spans handed to `Storer.Store` and the lines printed by the
logger (oldest first). -/
structure World where
  clock : Nat → Time
  clockReads : Nat
  idCalls : Nat
  sampled : List Nat
  stored : List RawSpan
  printed : List LogLine

/-- `time.Now()`. -/
def World.now (w : World) : Time × World :=
  (w.clock w.clockReads, { w with clockReads := w.clockReads + 1 })

/-! ## Carriers -/

/-- The carriers handed to `Inject` and `Join`, by the interfaces they implement:
an `opentracing.TextMapCarrier` (a map, both `TextMapWriter` and `TextMapReader`);
a `TextMapReader` only, which presents `pairs` to the handler and then returns
`result`; a `*bytes.Buffer` (both `io.Writer` and `io.Reader`); an `io.Reader` only,
which delivers `data` and then fails with `ending` (`io.EOF` for a clean end); an
`io.Writer` only, whose `Write` returns `result`; and a value with none of these
interfaces. -/
inductive Carrier where
  | textMap (m : List (GoString × GoString))
  | textReader (pairs : List (GoString × GoString)) (result : Option Err)
  | buffer (data : List Nat)
  | reader (data : List Nat) (ending : Err)
  | writer (written : List Nat) (result : Option Err)
  | plain
  deriving DecidableEq, Repr

/-- `io.ReadFull(r, buf)` with `len(buf) = n`, on a reader that delivers `data` and
then fails with `ending`: the bytes read and the bytes left, when there are enough;
otherwise `io.EOF` when a clean end came before any byte, `io.ErrUnexpectedEOF`
when it came after some bytes, and any other failure of the reader unchanged. -/
def ReadFull (data : List Nat) (ending : Err) (n : Nat) : Outcome (List Nat × List Nat) :=
  if n ≤ data.length then Outcome.ok (data.take n, data.drop n)
  else if ending = Err.EOF then
    (if data = [] then Outcome.error Err.EOF else Outcome.error Err.UnexpectedEOF)
  else Outcome.error ending

/-! ## The text codec -/

/-- The function `idToHex`. -/
def idToHex (id : Nat) : GoString := EncodeToString (PutUint64 id)

/-- The function `idFromHex`: the error of `hex.DecodeString` is dropped and the
decoded bytes go to `binary.BigEndian.Uint64`, which panics on fewer than eight. -/
def idFromHex (s : GoString) : Outcome Nat := Uint64 (DecodeString s).1

/-- The `Set` calls of `textInjecter` on the entries of a `TextMapCarrier`. -/
def textInjecterSets (sp : RawSpan) (m : List (GoString × GoString)) :
    List (GoString × GoString) :=
  sp.Baggage.entries.foldl (fun w kv => assocSet w (lit "Tracer-Baggage-" ++ kv.1) kv.2)
    (assocSet (assocSet (assocSet (assocSet m
      (lit "Tracer-TraceId") (idToHex sp.TraceID))
      (lit "Tracer-SpanId") (idToHex sp.SpanID))
      (lit "Tracer-ParentSpanId") (idToHex sp.ParentID))
      (lit "Tracer-Flags") (FormatUint sp.Flags))

/-- The function `textInjecter`: the carrier after the call, or the returned error. -/
def textInjecter (sp : Span) (carrier : Carrier) : Outcome Carrier :=
  match carrier with
  | Carrier.textMap m => Outcome.ok (Carrier.textMap (textInjecterSets sp.toRawSpan m))
  | _ => Outcome.error Err.InvalidCarrier

/-- The handler `textJoiner` passes to `ForeachKey`, applied to one entry. -/
def textJoinerHandler (tbl : Nat → Nat) (ctx : Context) (key val : GoString) :
    Outcome Context :=
  if ToLower tbl key = lit "tracer-traceid" then
    (idFromHex val).bind (fun x => Outcome.ok { ctx with TraceID := x })
  else if ToLower tbl key = lit "tracer-spanid" then
    (idFromHex val).bind (fun x => Outcome.ok { ctx with SpanID := x })
  else if ToLower tbl key = lit "tracer-parentspanid" then
    (idFromHex val).bind (fun x => Outcome.ok { ctx with ParentID := x })
  else if ToLower tbl key = lit "tracer-flags" then
    Outcome.ok { ctx with Flags := (ParseUint val).1 }
  else if HasPrefix (ToLower tbl key) (lit "tracer-baggage-") then
    if key.length < (lit "Tracer-Baggage-").length then Outcome.panic
    else (ctx.Baggage.set (key.drop (lit "Tracer-Baggage-").length) val).bind
      (fun b => Outcome.ok { ctx with Baggage := b })
  else Outcome.ok ctx

/-- The loop of `ForeachKey`: the handler runs on every entry in turn. -/
def foreachKey (tbl : Nat → Nat) : List (GoString × GoString) → Context → Outcome Context
  | [], ctx => Outcome.ok ctx
  | (k, v) :: rest, ctx => (textJoinerHandler tbl ctx k v).bind (foreachKey tbl rest)

/-- The body of `textJoiner` on a reader that presents `pairs` and whose
`ForeachKey` then returns `result`. -/
def textJoinerRun (tbl : Nat → Nat) (pairs : List (GoString × GoString))
    (result : Option Err) : Outcome Context :=
  match foreachKey tbl pairs
      { TraceID := 0, ParentID := 0, SpanID := 0, Flags := 0, Baggage := some [] } with
  | Outcome.ok ctx =>
    if ctx.TraceID = 0 then Outcome.error Err.TraceNotFound
    else
      match result with
      | none => Outcome.ok ctx
      | some e => Outcome.error e
  | Outcome.error e => Outcome.error e
  | Outcome.panic => Outcome.panic

/-- The function `textJoiner`. -/
def textJoiner (tbl : Nat → Nat) (carrier : Carrier) : Outcome Context :=
  match carrier with
  | Carrier.textMap m => textJoinerRun tbl m none
  | Carrier.textReader pairs result => textJoinerRun tbl pairs result
  | _ => Outcome.error Err.InvalidCarrier

/-! ## The binary codec -/

/-- The slice `b2` that `binaryInjecter` builds for the baggage pair `kv`: the two
lengths, the key bytes, the value bytes.  The size `16+len(k)+len(v)` is taken not to
overflow `int`. -/
def binaryEntry (kv : GoString × GoString) : List Nat :=
  PutUint64 kv.1.length ++ PutUint64 kv.2.length ++ kv.1 ++ kv.2

/-- The bytes `binaryInjecter` assembles in `b` before the single `Write`. -/
def binaryInjecterBytes (sp : RawSpan) : List Nat :=
  PutUint64 sp.TraceID ++ PutUint64 sp.SpanID ++ PutUint64 sp.ParentID
    ++ PutUint64 sp.Flags ++ PutUint64 sp.Baggage.entries.length
    ++ sp.Baggage.entries.flatMap binaryEntry

/-- The function `binaryInjecter`: the carrier after the call, or the error returned
by `Write`. -/
def binaryInjecter (sp : Span) (carrier : Carrier) : Outcome Carrier :=
  match carrier with
  | Carrier.buffer data => Outcome.ok (Carrier.buffer (data ++ binaryInjecterBytes sp.toRawSpan))
  | Carrier.writer written result =>
    match result with
    | none => Outcome.ok (Carrier.writer (written ++ binaryInjecterBytes sp.toRawSpan) none)
    | some e => Outcome.error e
  | _ => Outcome.error Err.InvalidCarrier

/-- How `binaryJoiner` reports a failed `io.ReadFull`. -/
def readError (e : Err) : Err := if e = Err.UnexpectedEOF then Err.TraceNotFound else e

/-- The addition of two `int` values on a 64-bit platform, with wrap-around. -/
def addInt64 (a b : Int) : Int := toInt64 ((a + b) % (two64 : Int)).toNat

/-- The baggage loop of `binaryJoiner`: `n` entries are still to be read from `data`.
`make([]byte, kl+vl)` panics on a negative size; every other size is taken to be
allocated. -/
def binaryJoinerLoop (ending : Err) :
    Nat → List Nat → List (GoString × GoString) → Outcome (List (GoString × GoString))
  | 0, _, bag => Outcome.ok bag
  | n + 1, data, bag =>
    match ReadFull data ending 16 with
    | Outcome.panic => Outcome.panic
    | Outcome.error e => Outcome.error (readError e)
    | Outcome.ok (b, data1) =>
      match Uint64 b, Uint64 (b.drop 8) with
      | Outcome.ok klu, Outcome.ok vlu =>
        if toInt64 klu ≤ 0 ∨ toInt64 vlu < 0 then Outcome.error Err.TraceNotFound
        else if addInt64 (toInt64 klu) (toInt64 vlu) < 0 then Outcome.panic
        else
          match ReadFull data1 ending (addInt64 (toInt64 klu) (toInt64 vlu)).toNat with
          | Outcome.panic => Outcome.panic
          | Outcome.error e => Outcome.error (readError e)
          | Outcome.ok (b2, data2) =>
            binaryJoinerLoop ending n data2
              (assocSet bag (b2.take (toInt64 klu).toNat) (b2.drop (toInt64 klu).toNat))
      | _, _ => Outcome.panic

/-- The body of `binaryJoiner` on a reader that delivers `data` and then fails with
`ending`. -/
def binaryJoinerRun (data : List Nat) (ending : Err) : Outcome Context :=
  match ReadFull data ending 40 with
  | Outcome.panic => Outcome.panic
  | Outcome.error e => Outcome.error (readError e)
  | Outcome.ok (b, data1) =>
    match Uint64 b, Uint64 (b.drop 8), Uint64 (b.drop 16), Uint64 (b.drop 24),
        Uint64 (b.drop 32) with
    | Outcome.ok t, Outcome.ok s, Outcome.ok p, Outcome.ok f, Outcome.ok n =>
      match binaryJoinerLoop ending n data1 [] with
      | Outcome.ok bag =>
        Outcome.ok { TraceID := t, ParentID := p, SpanID := s, Flags := f, Baggage := some bag }
      | Outcome.error e => Outcome.error e
      | Outcome.panic => Outcome.panic
    | _, _, _, _, _ => Outcome.panic

/-- The function `binaryJoiner`. -/
def binaryJoiner (carrier : Carrier) : Outcome Context :=
  match carrier with
  | Carrier.buffer data => binaryJoinerRun data Err.EOF
  | Carrier.reader data ending => binaryJoinerRun data ending
  | _ => Outcome.error Err.InvalidCarrier

/-! ## Spans -/

/-- The function `valueType`: the name of the type class of a tag or payload value
and whether the value is supported. -/
def valueType (v : Value) : GoString × Bool :=
  match v with
  | Value.nil => ([], true)
  | Value.of Kind.Invalid _ => ([], false)
  | Value.of Kind.Bool _ => (lit "boolean", true)
  | Value.of Kind.Int _ => (lit "number", true)
  | Value.of Kind.Int8 _ => (lit "number", true)
  | Value.of Kind.Int16 _ => (lit "number", true)
  | Value.of Kind.Int32 _ => (lit "number", true)
  | Value.of Kind.Int64 _ => (lit "number", true)
  | Value.of Kind.Uint _ => (lit "number", true)
  | Value.of Kind.Uint8 _ => (lit "number", true)
  | Value.of Kind.Uint16 _ => (lit "number", true)
  | Value.of Kind.Uint32 _ => (lit "number", true)
  | Value.of Kind.Uint64 _ => (lit "number", true)
  | Value.of Kind.Float32 _ => (lit "number", true)
  | Value.of Kind.Float64 _ => (lit "number", true)
  | Value.of Kind.String _ => (lit "string", true)
  | Value.of _ _ => ([], false)

/-- The method `Sampled`: `(sp.Flags & FlagSampled) > 0`. -/
def Span.Sampled (sp : Span) : Bool := decide (0 < sp.Flags &&& FlagSampled)

/-- The method `SetOperationName`. -/
def Span.SetOperationName (sp : Span) (name : GoString) : Span :=
  { sp with OperationName := name }

/-- The method `SetTag`. -/
def Span.SetTag (sp : Span) (key : GoString) (value : Value) (w : World) : Span × World :=
  if !sp.Sampled then (sp, w)
  else if !(valueType value).2 then
    (sp, { w with printed := w.printed ++ [LogLine.unsupportedTag key value] })
  else ({ sp with Tags := some (assocSet sp.Tags.entries key value) }, w)

/-- The method `Log`. -/
def Span.Log (sp : Span) (data : LogData) (w : World) : Span × World :=
  if !sp.Sampled then (sp, w)
  else if !(valueType data.Payload).2 then
    (sp, { w with printed := w.printed ++ [LogLine.unsupportedPayload data.Event data.Payload] })
  else if data.Timestamp.IsZero then
    ({ sp with Logs := sp.Logs ++ [{ data with Timestamp := w.now.1 }] }, w.now.2)
  else ({ sp with Logs := sp.Logs ++ [data] }, w)

/-- The method `LogEvent`. -/
def Span.LogEvent (sp : Span) (event : GoString) (w : World) : Span × World :=
  if !sp.Sampled then (sp, w)
  else sp.Log { Timestamp := 0, Event := event, Payload := Value.nil } w

/-- The method `LogEventWithPayload`. -/
def Span.LogEventWithPayload (sp : Span) (event : GoString) (payload : Value) (w : World) :
    Span × World :=
  if !sp.Sampled then (sp, w)
  else sp.Log { Timestamp := 0, Event := event, Payload := payload } w

/-- The struct `opentracing.FinishOptions`. -/
structure FinishOptions where
  FinishTime : Time
  BulkLogData : List LogData
  deriving DecidableEq, Repr

/-- The loop `for _, log := range opts.BulkLogData { sp.Log(log) }`. -/
def Span.logAll : List LogData → Span → World → Span × World
  | [], sp, w => (sp, w)
  | d :: ds, sp, w => Span.logAll ds (sp.Log d w).1 (sp.Log d w).2

/-- The call `sp.tracer.storer.Store(sp.RawSpan)` at the end of `FinishWithOptions`,
with the log line printed when it returns an error. -/
def Span.store (sp : Span) (w : World) : World :=
  match sp.tracer.storer sp.toRawSpan with
  | none => { w with stored := w.stored ++ [sp.toRawSpan] }
  | some e =>
    { w with stored := w.stored ++ [sp.toRawSpan],
             printed := w.printed ++ [LogLine.storeError e] }

/-- The method `FinishWithOptions`. -/
def Span.FinishWithOptions (sp : Span) (opts : FinishOptions) (w : World) : Span × World :=
  if !sp.Sampled then (sp, w)
  else if opts.FinishTime.IsZero then
    ((Span.logAll opts.BulkLogData { sp with FinishTime := w.now.1 } w.now.2).1,
      Span.store (Span.logAll opts.BulkLogData { sp with FinishTime := w.now.1 } w.now.2).1
        (Span.logAll opts.BulkLogData { sp with FinishTime := w.now.1 } w.now.2).2)
  else
    ((Span.logAll opts.BulkLogData { sp with FinishTime := opts.FinishTime } w).1,
      Span.store (Span.logAll opts.BulkLogData { sp with FinishTime := opts.FinishTime } w).1
        (Span.logAll opts.BulkLogData { sp with FinishTime := opts.FinishTime } w).2)

/-- The method `Finish`. -/
def Span.Finish (sp : Span) (w : World) : Span × World :=
  if !sp.Sampled then (sp, w)
  else sp.FinishWithOptions { FinishTime := 0, BulkLogData := [] } w

/-- The method `SetBaggageItem`; the assignment panics when `Baggage` is `nil`. -/
def Span.SetBaggageItem (sp : Span) (key value : GoString) : Outcome Span :=
  if !sp.Sampled then Outcome.ok sp
  else (sp.Baggage.set key value).bind (fun b => Outcome.ok { sp with Baggage := b })

/-- The method `BaggageItem`: `sp.Baggage[key]`, the empty string for a missing key. -/
def Span.BaggageItem (sp : Span) (key : GoString) : GoString := (sp.Baggage.get key).getD []

/-! ## The tracer -/

/-- A value of the interface type `opentracing.Span`: a `*Span` of this package, or a
span of another implementation. -/
inductive SpanRef where
  | own (sp : Span)
  | foreign

/-- The struct `opentracing.StartSpanOptions`; `Parent` is `none` for a `nil`
parent. -/
structure StartSpanOptions where
  OperationName : GoString
  StartTime : Time
  Parent : Option SpanRef

/-- The function `NewConstSampler`, with the method `Sample` of its result. -/
def NewConstSampler (decision : Bool) : Nat → Bool := fun _ => decision

/-- The function `NewTracer`. -/
def NewTracer (storer : RawSpan → Option Err) (idGenerator : Nat → Nat) : Tracer :=
  { Sampler := NewConstSampler true, storer := storer, idGenerator := idGenerator }

/-- The call `tr.idGenerator.GenerateID()`. -/
def Tracer.GenerateID (tr : Tracer) (w : World) : Nat × World :=
  (tr.idGenerator w.idCalls, { w with idCalls := w.idCalls + 1 })

/-- The call `tr.Sampler.Sample(id)`. -/
def Tracer.Sample (tr : Tracer) (id : Nat) (w : World) : Bool × World :=
  (tr.Sampler id, { w with sampled := w.sampled ++ [id] })

/-- The span `StartSpanWithOptions` builds before it looks at the parent. -/
def Tracer.newSpan (tr : Tracer) (name : GoString) (id : Nat) (start : Time) : Span :=
  { RawSpan.zero with OperationName := name, SpanID := id, TraceID := id, StartTime := start,
                      tracer := tr }

/-- The part of `StartSpanWithOptions` after the start time is settled. -/
def Tracer.startAt (tr : Tracer) (opts : StartSpanOptions) (start : Time) (w : World) :
    Outcome (Span × World) :=
  match opts.Parent with
  | some (SpanRef.own parent) =>
    Outcome.ok ({ tr.newSpan opts.OperationName (tr.GenerateID w).1 start with
                  ParentID := parent.SpanID, TraceID := parent.TraceID, Flags := parent.Flags },
                (tr.GenerateID w).2)
  | some SpanRef.foreign => Outcome.panic
  | none =>
    if (tr.Sample (tr.GenerateID w).1 (tr.GenerateID w).2).1 then
      Outcome.ok ({ tr.newSpan opts.OperationName (tr.GenerateID w).1 start with
                    Flags := (tr.newSpan opts.OperationName (tr.GenerateID w).1 start).Flags
                      ||| FlagSampled },
                  (tr.Sample (tr.GenerateID w).1 (tr.GenerateID w).2).2)
    else
      Outcome.ok (tr.newSpan opts.OperationName (tr.GenerateID w).1 start,
                  (tr.Sample (tr.GenerateID w).1 (tr.GenerateID w).2).2)

/-- The method `StartSpanWithOptions`; a parent of another implementation makes it
panic. -/
def Tracer.StartSpanWithOptions (tr : Tracer) (opts : StartSpanOptions) (w : World) :
    Outcome (Span × World) :=
  if opts.StartTime.IsZero then tr.startAt opts w.now.1 w.now.2
  else tr.startAt opts opts.StartTime w

/-- The method `StartSpan`. -/
def Tracer.StartSpan (tr : Tracer) (operationName : GoString) (w : World) :
    Outcome (Span × World) :=
  tr.StartSpanWithOptions { OperationName := operationName, StartTime := 0, Parent := none } w

/-- The keys of the codec tables, values of type `interface{}`:
`opentracing.TextMap`, `opentracing.Binary`, any other value of a type that can be
hashed, and a slice such as `[]int{1}`, which stands for the values of a type that
cannot be hashed (slices, maps, functions). -/
inductive Format where
  | TextMap
  | Binary
  | other (id : Nat)
  | slice (elems : List Int)
  deriving DecidableEq, Repr

/-- Whether a map with keys of type `interface{}` can hash the value.  An index
expression or an assignment `m[k]` with a key that cannot be hashed is a run-time
panic. -/
def Format.hashable : Format → Bool
  | Format.slice _ => false
  | _ => true

/-- The type `Joiner`. -/
abbrev Joiner := Carrier → Outcome Context

/-- The type `Injecter`; the result is the carrier after the call. -/
abbrev Injecter := Span → Carrier → Outcome Carrier

/-- The initial value of the table `joiners`. -/
def joiners (tbl : Nat → Nat) : List (Format × Joiner) :=
  [(Format.TextMap, textJoiner tbl), (Format.Binary, binaryJoiner)]

/-- The initial value of the table `injecters`. -/
def injecters : List (Format × Injecter) :=
  [(Format.TextMap, textInjecter), (Format.Binary, binaryInjecter)]

/-- The function `RegisterJoiner`, on the table: `joiners[format] = joiner`. -/
def RegisterJoiner (table : List (Format × Joiner)) (format : Format) (joiner : Joiner) :
    Outcome (List (Format × Joiner)) :=
  if !format.hashable then Outcome.panic
  else Outcome.ok (assocSet table format joiner)

/-- The function `RegisterInjecter`, on the table: `injecters[format] = injecter`. -/
def RegisterInjecter (table : List (Format × Injecter)) (format : Format)
    (injecter : Injecter) : Outcome (List (Format × Injecter)) :=
  if !format.hashable then Outcome.panic
  else Outcome.ok (assocSet table format injecter)

/-- The method `Inject`, given the current table of injecters. -/
def Tracer.Inject (table : List (Format × Injecter)) (_tr : Tracer) (sp : SpanRef)
    (format : Format) (carrier : Carrier) : Outcome Carrier :=
  match sp with
  | SpanRef.foreign => Outcome.error Err.InvalidSpan
  | SpanRef.own span =>
    if !format.hashable then Outcome.panic
    else
      match assocGet table format with
      | none => Outcome.error Err.UnsupportedFormat
      | some injecter => injecter span carrier

/-- The method `Join`, given the current table of joiners. -/
def Tracer.Join (table : List (Format × Joiner)) (tr : Tracer) (_operationName : GoString)
    (format : Format) (carrier : Carrier) : Outcome Span :=
  if !format.hashable then Outcome.panic
  else
    match assocGet table format with
    | none => Outcome.error Err.UnsupportedFormat
    | some joiner =>
      match joiner carrier with
      | Outcome.ok context =>
        Outcome.ok { RawSpan.zero with TraceID := context.TraceID, SpanID := context.SpanID,
                                       ParentID := context.ParentID, Baggage := context.Baggage,
                                       Flags := context.Flags, tracer := tr }
      | Outcome.error e => Outcome.error e
      | Outcome.panic => Outcome.panic

/-- The method `Join` with its two results as the source returns them: the span, or
`nil`, and the error, or `nil`. -/
def Tracer.JoinResults (table : List (Format × Joiner)) (tr : Tracer)
    (_operationName : GoString) (format : Format) (carrier : Carrier) :
    Outcome (Option Span × Option Err) :=
  if !format.hashable then Outcome.panic
  else
    match assocGet table format with
    | none => Outcome.ok (none, some Err.UnsupportedFormat)
    | some joiner =>
      match joiner carrier with
      | Outcome.ok context =>
        Outcome.ok (some { RawSpan.zero with TraceID := context.TraceID,
                                             SpanID := context.SpanID,
                                             ParentID := context.ParentID,
                                             Baggage := context.Baggage,
                                             Flags := context.Flags, tracer := tr }, none)
      | Outcome.error e => Outcome.ok (none, some e)
      | Outcome.panic => Outcome.panic

/-- A world in which nothing has happened yet, with a clock that shows `1000 + n` at
its `n`-th reading. -/
def World.fresh : World :=
  { clock := fun n => 1000 + n, clockReads := 0, idCalls := 0, sampled := [], stored := [],
    printed := [] }

/-- A tracer whose sampler takes every id, whose storer never fails and whose id
generator counts from 1. -/
def Tracer.demo : Tracer := NewTracer (fun _ => none) (fun n => n + 1)

/-- A sampled span with trace id 7, span id 9, parent id 8 and the baggage pair
`user = 42`. -/
def Span.demo : Span :=
  { RawSpan.zero with TraceID := 7, SpanID := 9, ParentID := 8, Flags := 1,
                      Baggage := some [(lit "user", lit "42")], tracer := Tracer.demo }

/-- A sampled span with trace id 1 whose baggage holds the value `v` under the empty
key. -/
def Span.emptyKey : Span :=
  { RawSpan.zero with TraceID := 1, SpanID := 1, Flags := 1,
                      Baggage := some [([], lit "v")], tracer := Tracer.demo }

/-- A 40-byte header of the binary format with trace id 1, span id 2, parent id 0,
flags 1 and the given baggage count. -/
def headerWithCount (n : Nat) : List Nat :=
  PutUint64 1 ++ PutUint64 2 ++ PutUint64 0 ++ PutUint64 1 ++ PutUint64 n

/-- A chain of parent links: starting from `sp`, each link starts a span, with the
given tracer, operation name and start time, whose parent is the span before it; the
result is the last descendant. -/
def startChain : List (Tracer × GoString × Time) → Span → World → Outcome (Span × World)
  | [], sp, w => Outcome.ok (sp, w)
  | (tr, name, start) :: links, sp, w =>
    (tr.StartSpanWithOptions
        { OperationName := name, StartTime := start, Parent := some (SpanRef.own sp) } w).bind
      (fun r => startChain links r.1 r.2)

/-- A text carrier with trace id 1, flags 1 and one baggage entry whose key is the
bare `Tracer-Baggage-`, that is, a baggage pair with the empty key. -/
def emptyKeyCarrier : Carrier :=
  Carrier.textMap [(lit "Tracer-TraceId", lit "0000000000000001"), (lit "Tracer-Flags", lit "1"),
    (lit "Tracer-Baggage-", lit "v")]

/-- Options that name `Span.demo` as the parent. -/
def StartSpanOptions.demoChild : StartSpanOptions :=
  { OperationName := lit "child", StartTime := 5, Parent := some (SpanRef.own Span.demo) }

/-- Options without a parent. -/
def StartSpanOptions.demoRoot : StartSpanOptions :=
  { OperationName := lit "root", StartTime := 0, Parent := none }

/-- An unsampled span (flags 0) with a tag, a baggage pair and a log entry. -/
def Span.unsampled : Span :=
  { RawSpan.zero with TraceID := 7, SpanID := 9, OperationName := lit "op", StartTime := 3,
                      Tags := some [(lit "a", Value.of Kind.Int [1])],
                      Baggage := some [(lit "user", lit "42")],
                      Logs := [{ Timestamp := 4, Event := lit "e", Payload := Value.nil }],
                      tracer := Tracer.demo }

/-! ## Auxiliary descriptions used in the proofs -/

/-- The entries `textInjecter` leaves in a carrier that was empty: the four fixed
keys, then one entry for each baggage pair. -/
def textEntries (sp : RawSpan) : List (GoString × GoString) :=
  [(lit "Tracer-TraceId", idToHex sp.TraceID), (lit "Tracer-SpanId", idToHex sp.SpanID),
   (lit "Tracer-ParentSpanId", idToHex sp.ParentID), (lit "Tracer-Flags", FormatUint sp.Flags)]
    ++ sp.Baggage.entries.map (fun kv => (lit "Tracer-Baggage-" ++ kv.1, kv.2))

/-- What the handler of `textJoiner` does to the context on an entry `x` written by
`textInjecter` for the span `sp`. -/
def absorb (sp : RawSpan) (ctx : Context) (x : GoString × GoString) : Context :=
  if x.1 = lit "Tracer-TraceId" then { ctx with TraceID := sp.TraceID % two64 }
  else if x.1 = lit "Tracer-SpanId" then { ctx with SpanID := sp.SpanID % two64 }
  else if x.1 = lit "Tracer-ParentSpanId" then { ctx with ParentID := sp.ParentID % two64 }
  else if x.1 = lit "Tracer-Flags" then { ctx with Flags := sp.Flags }
  else { ctx with Baggage := some (assocSet ctx.Baggage.entries (x.1.drop 15) x.2) }

/-- The baggage pairs among carrier entries written by `textInjecter`, with the
fixed part of the key removed. -/
def bagOf (pairs : List (GoString × GoString)) : List (GoString × GoString) :=
  (pairs.filter (fun x => decide (x.1.take 15 = lit "Tracer-Baggage-"))).map
    (fun x => (x.1.drop 15, x.2))

/-! ## Descriptions taken from the words of the specification -/

/-- The kinds the specification calls boolean, numeric or string. -/
def isTagKind : Kind → Bool
  | Kind.Bool => true
  | Kind.Int => true
  | Kind.Int8 => true
  | Kind.Int16 => true
  | Kind.Int32 => true
  | Kind.Int64 => true
  | Kind.Uint => true
  | Kind.Uint8 => true
  | Kind.Uint16 => true
  | Kind.Uint32 => true
  | Kind.Uint64 => true
  | Kind.Float32 => true
  | Kind.Float64 => true
  | Kind.String => true
  | _ => false

/-- Whether a value is a boolean, a number or a string; the `nil` interface value is
none of them. -/
def Value.isTagValue : Value → Bool
  | Value.nil => false
  | Value.of kind _ => isTagKind kind

/-- One call of a mutator of a span. -/
inductive Mutation where
  | SetOperationName (name : GoString)
  | SetTag (key : GoString) (value : Value)
  | Log (data : LogData)
  | LogEvent (event : GoString)
  | LogEventWithPayload (event : GoString) (payload : Value)
  | SetBaggageItem (key value : GoString)
  | Finish
  | FinishWithOptions (opts : FinishOptions)

/-- The span and the world after one call of a mutator. -/
def Span.mutate (sp : Span) (m : Mutation) (w : World) : Outcome (Span × World) :=
  match m with
  | Mutation.SetOperationName name => Outcome.ok (sp.SetOperationName name, w)
  | Mutation.SetTag key value => Outcome.ok (sp.SetTag key value w)
  | Mutation.Log data => Outcome.ok (sp.Log data w)
  | Mutation.LogEvent event => Outcome.ok (sp.LogEvent event w)
  | Mutation.LogEventWithPayload event payload =>
    Outcome.ok (sp.LogEventWithPayload event payload w)
  | Mutation.SetBaggageItem key value =>
    (sp.SetBaggageItem key value).bind (fun s => Outcome.ok (s, w))
  | Mutation.Finish => Outcome.ok (sp.Finish w)
  | Mutation.FinishWithOptions opts => Outcome.ok (sp.FinishWithOptions opts w)

/-- The span and the world after a sequence of calls of mutators. -/
def Span.mutateAll : List Mutation → Span → World → Outcome (Span × World)
  | [], sp, w => Outcome.ok (sp, w)
  | m :: ms, sp, w => (sp.mutate m w).bind (fun r => Span.mutateAll ms r.1 r.2)

/-- The tag value `3`, an `int`. -/
def Value.three : Value := Value.of Kind.Int [3]

/-- A value of a kind that is no tag kind: a slice. -/
def Value.someSlice : Value := Value.of Kind.Slice [1, 2]

/-- Every value held in the tag map of the span is `nil`, a boolean, a number or a
string. -/
def Span.TagsOK (sp : Span) : Prop :=
  ∀ kv ∈ sp.Tags.entries, kv.2 = Value.nil ∨ kv.2.isTagValue = true

/-- A sequence of mutator calls: three `SetTag` calls (an `int`, the `nil` value, a
slice) and `Finish`. -/
def demoMutations : List Mutation :=
  [Mutation.SetTag (lit "retry") Value.three, Mutation.SetTag (lit "x") Value.nil,
   Mutation.SetTag (lit "y") Value.someSlice, Mutation.Finish]

/-- Whether the carrier implements `opentracing.TextMapWriter`. -/
def Carrier.isTextMapWriter : Carrier → Bool
  | Carrier.textMap _ => true
  | _ => false

/-- Whether the carrier implements `opentracing.TextMapReader`. -/
def Carrier.isTextMapReader : Carrier → Bool
  | Carrier.textMap _ => true
  | Carrier.textReader _ _ => true
  | _ => false

/-- Whether the carrier implements `io.Writer`. -/
def Carrier.isWriter : Carrier → Bool
  | Carrier.buffer _ => true
  | Carrier.writer _ _ => true
  | _ => false

/-- Whether the carrier implements `io.Reader`. -/
def Carrier.isReader : Carrier → Bool
  | Carrier.buffer _ => true
  | Carrier.reader _ _ => true
  | _ => false

/-- The 16 hexadecimal digits of a 64-bit number, most significant digit first, in
the characters `0-9a-f`. -/
def hexRendering (id : Nat) : GoString :=
  (List.range 16).map (fun i => hextable.getD (id / 16 ^ (15 - i) % 16) 0)

/-- The eight bytes of a 64-bit number, most significant byte first. -/
def bigEndianBytes (v : Nat) : List Nat :=
  (List.range 8).map (fun i => v / 256 ^ (7 - i) % 256)

/-- A log entry without timestamp and without payload. -/
def LogData.demo : LogData := { Timestamp := 0, Event := lit "e", Payload := Value.nil }

/-- A buffer that holds 40 zero bytes: a header of the binary format with trace id 0
and no baggage. -/
def zeroHeaderCarrier : Carrier := Carrier.buffer (List.replicate 40 0)

/-- A stream of the binary format with one announced baggage entry whose length
prefix gives the key length `2^63 - 1` and the value length 1. -/
def overflowStream : List Nat := headerWithCount 1 ++ PutUint64 (two63 - 1) ++ PutUint64 1

/-- A text carrier that holds the trace id 1 and nothing else. -/
def traceOnlyCarrier : Carrier :=
  Carrier.textMap [(lit "Tracer-TraceId", lit "0000000000000001")]

/-! ## Facts about the library routines -/

theorem Uint64_PutUint64 (v : Nat) (rest : List Nat) :
    Uint64 (PutUint64 v ++ rest) = Outcome.ok (v % two64) := by
  simp only [PutUint64, Uint64, List.cons_append, two64]
  congr 1
  norm_num
  omega

theorem PutUint64_length (v : Nat) : (PutUint64 v).length = 8 := rfl

theorem PutUint64_lt (v : Nat) : ∀ b ∈ PutUint64 v, b < 256 := by
  intro b hb
  simp only [PutUint64, List.mem_cons, List.mem_singleton, List.not_mem_nil, or_false] at hb
  rcases hb with h | h | h | h | h | h | h | h <;> subst h <;> exact Nat.mod_lt _ (by norm_num)

theorem fromHexChar_hextable : ∀ n, n < 16 → fromHexChar (hextable.getD n 0) = some n := by
  decide

theorem DecodeString_EncodeToString (bs : List Nat) (h : ∀ b ∈ bs, b < 256) :
    DecodeString (EncodeToString bs) = (bs, false) := by
  induction bs with
  | nil => rfl
  | cons b bs ih =>
    have hb : b < 256 := h b (List.mem_cons_self _ _)
    have ih1 := ih (fun x hx => h x (List.mem_cons_of_mem _ hx))
    have e1 : fromHexChar (hextable.getD (b / 16 % 16) 0) = some (b / 16 % 16) :=
      fromHexChar_hextable _ (Nat.mod_lt _ (by norm_num))
    have e2 : fromHexChar (hextable.getD (b % 16) 0) = some (b % 16) :=
      fromHexChar_hextable _ (Nat.mod_lt _ (by norm_num))
    have e3 : b / 16 % 16 * 16 + b % 16 = b := by omega
    have step : EncodeToString (b :: bs)
        = hextable.getD (b / 16 % 16) 0 :: hextable.getD (b % 16) 0 :: EncodeToString bs := by
      simp [EncodeToString]
    rw [step, DecodeString, e1, e2]
    simp only [ih1, e3]

theorem idFromHex_idToHex (v : Nat) : idFromHex (idToHex v) = Outcome.ok (v % two64) := by
  unfold idFromHex idToHex
  rw [DecodeString_EncodeToString _ (PutUint64_lt v)]
  simpa using Uint64_PutUint64 v []

theorem formatDigits_ne_nil (fuel u : Nat) (acc : List Nat) (h : u < fuel) :
    formatDigits fuel u acc ≠ [] := by
  induction fuel generalizing u acc with
  | zero => omega
  | succ n ih =>
    unfold formatDigits
    split
    · exact ih _ _ (by omega)
    · simp

theorem parseDigits_formatDigits (fuel u : Nat) (acc : List Nat) (h : u < fuel)
    (hu : u < two64) :
    parseDigits (formatDigits fuel u acc) 0 = parseDigits acc u := by
  induction fuel generalizing u acc with
  | zero => omega
  | succ n ih =>
    unfold formatDigits
    split
    · rename_i h10
      rw [ih (u / 10) _ (by omega) (by unfold two64 at *; omega)]
      unfold two64 at hu
      have e : u / 10 * 10 + (48 + u % 10 - 48) = u := by omega
      rw [parseDigits]
      simp only [two64]
      rw [if_pos (by omega), if_neg (by omega), if_neg (by omega), e]
    · rename_i h10
      unfold two64 at hu
      rw [parseDigits]
      simp only [two64]
      rw [if_pos (by omega), if_neg (by omega), if_neg (by omega)]
      congr 1
      omega

theorem ParseUint_FormatUint (f : Nat) (h : f < two64) :
    ParseUint (FormatUint f) = (f, false) := by
  unfold ParseUint FormatUint
  rw [if_neg (formatDigits_ne_nil _ _ _ (by omega)),
    parseDigits_formatDigits _ _ _ (by omega) h]
  rfl

/-! ## Facts about `strings.ToLower` -/

theorem lowerASCII_lt (c : Nat) (h : c < 128) : lowerASCII c < 128 := by
  unfold lowerASCII
  split <;> omega

theorem ToLower_of_ascii (tbl : Nat → Nat) (s : GoString)
    (h : s.all (fun c => decide (c < 128)) = true) : ToLower tbl s = s.map lowerASCII := by
  simp [ToLower, h]

theorem decodeRune_ascii (c : Nat) (rest : GoString) (h : c < 128) :
    decodeRune (c :: rest) = (c, 1) := by
  simp [decodeRune, h]

theorem mapTail_ascii (tbl : Nat → Nat) (p : List Nat) (hp : ∀ c ∈ p, c < 128) (n : Nat)
    (s : GoString) :
    mapTail (unicodeToLower tbl) (p.length + n) (p ++ s)
      = p.map lowerASCII ++ mapTail (unicodeToLower tbl) n s := by
  induction p with
  | nil => simp
  | cons c p ih =>
    have hc : c < 128 := hp c (List.mem_cons_self _ _)
    have e : (c :: p).length + n = (p.length + n) + 1 := by simp; omega
    rw [e, List.cons_append, mapTail, decodeRune_ascii c _ hc]
    have hl := lowerASCII_lt c hc
    simp only [unicodeToLower, hc, if_true, AppendRune, hl, List.drop_succ_cons, List.drop_zero,
      List.map_cons, List.cons_append, List.nil_append]
    rw [ih (fun x hx => hp x (List.mem_cons_of_mem _ hx))]

theorem Map_ascii (tbl : Nat → Nat) (p : List Nat) (hp : ∀ c ∈ p, c < 128) (n : Nat)
    (s : GoString) :
    ∃ rest, Map (unicodeToLower tbl) (p.length + n) (p ++ s) = p.map lowerASCII ++ rest := by
  induction p with
  | nil => exact ⟨Map (unicodeToLower tbl) n s, by simp⟩
  | cons c p ih =>
    have hc : c < 128 := hp c (List.mem_cons_self _ _)
    have hp1 : ∀ x ∈ p, x < 128 := fun x hx => hp x (List.mem_cons_of_mem _ hx)
    have e : (c :: p).length + n = (p.length + n) + 1 := by simp; omega
    have hl := lowerASCII_lt c hc
    rw [e, List.cons_append, Map, decodeRune_ascii c _ hc]
    by_cases hch : lowerASCII c = c
    · obtain ⟨rest, hrest⟩ := ih hp1
      refine ⟨rest, ?_⟩
      have hne : ¬ (c = RuneError ∧ True) := by
        unfold RuneError
        omega
      simp only [unicodeToLower, hc, if_true, hch, true_and]
      rw [if_pos hne]
      simp [hrest, hch]
    · refine ⟨mapTail (unicodeToLower tbl) n s, ?_⟩
      simp only [unicodeToLower, hc, if_true]
      rw [if_neg (fun h => hch h.1)]
      simp only [AppendRune, hl, if_true, List.drop_succ_cons, List.drop_zero, List.map_cons,
        List.cons_append, List.nil_append]
      rw [mapTail_ascii tbl p hp1]

theorem ToLower_ascii_append (tbl : Nat → Nat) (p : List Nat) (hp : ∀ c ∈ p, c < 128)
    (s : GoString) : ∃ rest, ToLower tbl (p ++ s) = p.map lowerASCII ++ rest := by
  unfold ToLower
  split
  · exact ⟨s.map lowerASCII, by simp⟩
  · have h := Map_ascii tbl p hp s.length s
    rwa [← List.length_append] at h

/-! ## Facts about maps -/

theorem assocSet_fresh {κ α : Type} [DecidableEq κ] (m : List (κ × α)) (k : κ) (v : α)
    (h : k ∉ m.map Prod.fst) : assocSet m k v = m ++ [(k, v)] := by
  induction m with
  | nil => rfl
  | cons e m ih =>
    obtain ⟨k1, v1⟩ := e
    simp only [List.map_cons, List.mem_cons, not_or] at h
    simp only [assocSet, List.cons_append]
    rw [if_neg (fun hk => h.1 hk.symm), ih h.2]

theorem foldl_assocSet_fresh {κ α : Type} [DecidableEq κ] (es m : List (κ × α))
    (h : (m.map Prod.fst ++ es.map Prod.fst).Nodup) :
    es.foldl (fun w kv => assocSet w kv.1 kv.2) m = m ++ es := by
  induction es generalizing m with
  | nil => simp
  | cons e es ih =>
    have hfresh : e.1 ∉ m.map Prod.fst := by
      intro hmem
      rw [List.nodup_append] at h
      exact h.2.2 hmem (by simp)
    rw [List.foldl_cons, assocSet_fresh m e.1 e.2 hfresh, ih]
    · simp
    · simpa using h

theorem assocGet_eq_some_iff {κ α : Type} [DecidableEq κ] (l : List (κ × α)) (k : κ) (v : α)
    (h : (l.map Prod.fst).Nodup) : assocGet l k = some v ↔ (k, v) ∈ l := by
  induction l with
  | nil => simp [assocGet]
  | cons e l ih =>
    obtain ⟨k1, v1⟩ := e
    simp only [List.map_cons, List.nodup_cons] at h
    simp only [assocGet, List.mem_cons, Prod.mk.injEq]
    by_cases hk : k1 = k
    · subst hk
      rw [if_pos rfl]
      constructor
      · intro hv
        exact Or.inl ⟨rfl, (Option.some.inj hv).symm⟩
      · rintro (⟨-, hv⟩ | hmem)
        · rw [hv]
        · exact absurd (List.mem_map_of_mem Prod.fst hmem) h.1
    · rw [if_neg hk, ih h.2]
      constructor
      · exact Or.inr
      · rintro (⟨hk1, -⟩ | hmem)
        · exact absurd hk1.symm hk
        · exact hmem

theorem assocGet_perm {κ α : Type} [DecidableEq κ] (l1 l2 : List (κ × α)) (k : κ)
    (hp : l1.Perm l2) (h : (l2.map Prod.fst).Nodup) : assocGet l1 k = assocGet l2 k := by
  have h1 : (l1.map Prod.fst).Nodup := ((hp.map Prod.fst).nodup_iff).2 h
  apply Option.ext
  intro v
  simp only [Option.mem_def]
  rw [assocGet_eq_some_iff l1 k v h1, assocGet_eq_some_iff l2 k v h]
  exact hp.mem_iff

theorem assocGet_assocSet_same {κ α : Type} [DecidableEq κ] (m : List (κ × α)) (k : κ) (v : α) :
    assocGet (assocSet m k v) k = some v := by
  induction m with
  | nil => simp [assocSet, assocGet]
  | cons e m ih =>
    obtain ⟨k1, v1⟩ := e
    by_cases hk : k1 = k
    · simp [assocSet, assocGet, hk]
    · simp [assocSet, assocGet, hk, ih]

theorem assocGet_assocSet_other {κ α : Type} [DecidableEq κ] (m : List (κ × α)) (k k2 : κ)
    (v : α) (h : k2 ≠ k) : assocGet (assocSet m k v) k2 = assocGet m k2 := by
  induction m with
  | nil => simp [assocSet, assocGet, h.symm]
  | cons e m ih =>
    obtain ⟨k1, v1⟩ := e
    by_cases hk : k1 = k
    · subst hk
      simp [assocSet, assocGet, h.symm]
    · by_cases hk2 : k1 = k2
      · subst hk2
        simp [assocSet, assocGet, hk]
      · simp [assocSet, assocGet, hk, hk2, ih]

/-! ## The handler of `textJoiner` on the entries written by `textInjecter` -/

theorem baggage_key_take (k : GoString) : (lit "Tracer-Baggage-" ++ k).take 15 = lit "Tracer-Baggage-" :=
  List.take_left' rfl

theorem baggage_key_drop (k : GoString) : (lit "Tracer-Baggage-" ++ k).drop 15 = k :=
  List.drop_left' rfl

theorem baggage_key_ne (k c : GoString) (hc : c.take 15 ≠ lit "Tracer-Baggage-") :
    lit "Tracer-Baggage-" ++ k ≠ c := by
  intro h
  exact hc (h ▸ baggage_key_take k)

theorem handler_traceid (tbl : Nat → Nat) (ctx : Context) (v : GoString) :
    textJoinerHandler tbl ctx (lit "Tracer-TraceId") v
      = (idFromHex v).bind (fun x => Outcome.ok { ctx with TraceID := x }) := by
  have h : ToLower tbl (lit "Tracer-TraceId") = lit "tracer-traceid" := by
    rw [ToLower_of_ascii _ _ (by decide)]; decide
  unfold textJoinerHandler
  rw [h, if_pos rfl]

theorem handler_spanid (tbl : Nat → Nat) (ctx : Context) (v : GoString) :
    textJoinerHandler tbl ctx (lit "Tracer-SpanId") v
      = (idFromHex v).bind (fun x => Outcome.ok { ctx with SpanID := x }) := by
  have h : ToLower tbl (lit "Tracer-SpanId") = lit "tracer-spanid" := by
    rw [ToLower_of_ascii _ _ (by decide)]; decide
  unfold textJoinerHandler
  rw [h, if_neg (by decide), if_pos rfl]

theorem handler_parentspanid (tbl : Nat → Nat) (ctx : Context) (v : GoString) :
    textJoinerHandler tbl ctx (lit "Tracer-ParentSpanId") v
      = (idFromHex v).bind (fun x => Outcome.ok { ctx with ParentID := x }) := by
  have h : ToLower tbl (lit "Tracer-ParentSpanId") = lit "tracer-parentspanid" := by
    rw [ToLower_of_ascii _ _ (by decide)]; decide
  unfold textJoinerHandler
  rw [h, if_neg (by decide), if_neg (by decide), if_pos rfl]

theorem handler_flags (tbl : Nat → Nat) (ctx : Context) (v : GoString) :
    textJoinerHandler tbl ctx (lit "Tracer-Flags") v
      = Outcome.ok { ctx with Flags := (ParseUint v).1 } := by
  have h : ToLower tbl (lit "Tracer-Flags") = lit "tracer-flags" := by
    rw [ToLower_of_ascii _ _ (by decide)]; decide
  unfold textJoinerHandler
  rw [h, if_neg (by decide), if_neg (by decide), if_neg (by decide), if_pos rfl]

theorem handler_baggage (tbl : Nat → Nat) (ctx : Context) (k v : GoString) :
    textJoinerHandler tbl ctx (lit "Tracer-Baggage-" ++ k) v
      = (ctx.Baggage.set k v).bind (fun b => Outcome.ok { ctx with Baggage := b }) := by
  obtain ⟨rest, h⟩ := ToLower_ascii_append tbl (lit "Tracer-Baggage-") (by decide) k
  have hl : (lit "Tracer-Baggage-").map lowerASCII = lit "tracer-baggage-" := by decide
  rw [hl] at h
  have hne : ∀ c : GoString, c.take 15 ≠ lit "tracer-baggage-" → lit "tracer-baggage-" ++ rest ≠ c := by
    intro c hc hcc
    exact hc (hcc ▸ List.take_left' rfl)
  have hpre : HasPrefix (lit "tracer-baggage-" ++ rest) (lit "tracer-baggage-") = true := by
    have e1 : (lit "tracer-baggage-").length = 15 := rfl
    have e2 : (lit "tracer-baggage-" ++ rest).take 15 = lit "tracer-baggage-" := List.take_left' rfl
    simp [HasPrefix, e1, e2]
  have hlen : ¬ (lit "Tracer-Baggage-" ++ k).length < (lit "Tracer-Baggage-").length := by
    simp
  unfold textJoinerHandler
  rw [h, if_neg (hne _ (by decide)), if_neg (hne _ (by decide)), if_neg (hne _ (by decide)),
    if_neg (hne _ (by decide)), if_pos hpre, if_neg hlen]
  have e3 : (lit "Tracer-Baggage-").length = 15 := rfl
  rw [e3, baggage_key_drop]

theorem textEntries_keys_nodup (sp : RawSpan) (hB : sp.Baggage.WF) :
    ((textEntries sp).map Prod.fst).Nodup := by
  have e : (textEntries sp).map Prod.fst
      = [lit "Tracer-TraceId", lit "Tracer-SpanId", lit "Tracer-ParentSpanId", lit "Tracer-Flags"]
        ++ (sp.Baggage.entries.map Prod.fst).map (fun k => lit "Tracer-Baggage-" ++ k) := by
    simp [textEntries, Function.comp_def]
  rw [e, List.nodup_append]
  refine ⟨by decide, ?_, ?_⟩
  · exact List.Nodup.map (List.append_right_injective _) hB
  · intro c hc hc2
    obtain ⟨k, -, hk⟩ := List.mem_map.1 hc2
    have hne : c.take 15 ≠ lit "Tracer-Baggage-" := by
      simp only [List.mem_cons, List.mem_singleton, List.not_mem_nil, or_false] at hc
      rcases hc with h | h | h | h <;> subst h <;> decide
    exact baggage_key_ne k c hne hk

theorem textInjecterSets_empty (sp : RawSpan) (hB : sp.Baggage.WF) :
    textInjecterSets sp [] = textEntries sp := by
  have n1 : lit "Tracer-TraceId" ≠ lit "Tracer-SpanId" := by decide
  have n2 : lit "Tracer-TraceId" ≠ lit "Tracer-ParentSpanId" := by decide
  have n3 : lit "Tracer-SpanId" ≠ lit "Tracer-ParentSpanId" := by decide
  have n4 : lit "Tracer-TraceId" ≠ lit "Tracer-Flags" := by decide
  have n5 : lit "Tracer-SpanId" ≠ lit "Tracer-Flags" := by decide
  have n6 : lit "Tracer-ParentSpanId" ≠ lit "Tracer-Flags" := by decide
  have four : assocSet (assocSet (assocSet (assocSet ([] : List (GoString × GoString))
      (lit "Tracer-TraceId") (idToHex sp.TraceID))
      (lit "Tracer-SpanId") (idToHex sp.SpanID))
      (lit "Tracer-ParentSpanId") (idToHex sp.ParentID))
      (lit "Tracer-Flags") (FormatUint sp.Flags)
      = [(lit "Tracer-TraceId", idToHex sp.TraceID), (lit "Tracer-SpanId", idToHex sp.SpanID),
         (lit "Tracer-ParentSpanId", idToHex sp.ParentID), (lit "Tracer-Flags", FormatUint sp.Flags)] := by
    simp [assocSet, n1, n2, n3, n4, n5, n6]
  have hfold : ∀ (l m : List (GoString × GoString)),
      l.foldl (fun w kv => assocSet w (lit "Tracer-Baggage-" ++ kv.1) kv.2) m
        = (l.map (fun kv => (lit "Tracer-Baggage-" ++ kv.1, kv.2))).foldl
            (fun w kv => assocSet w kv.1 kv.2) m := by
    intro l m
    rw [List.foldl_map]
  unfold textInjecterSets
  rw [four, hfold, foldl_assocSet_fresh]
  · rfl
  · have h := textEntries_keys_nodup sp hB
    simpa [textEntries] using h

theorem handler_absorb (tbl : Nat → Nat) (sp : RawSpan) (ctx : Context) (x : GoString × GoString)
    (hF : sp.Flags < two64) (hx : x ∈ textEntries sp) (hb : ctx.Baggage ≠ none) :
    textJoinerHandler tbl ctx x.1 x.2 = Outcome.ok (absorb sp ctx x) := by
  simp only [textEntries, List.mem_append, List.mem_cons, List.mem_singleton, List.not_mem_nil,
    or_false, List.mem_map] at hx
  rcases hx with (h | h | h | h) | ⟨kv, -, h⟩
  · subst h
    simp only [handler_traceid, idFromHex_idToHex, Outcome.bind, absorb, if_true]
  · subst h
    simp only [handler_spanid, idFromHex_idToHex, Outcome.bind, absorb]
    rw [if_neg (by decide), if_pos trivial]
  · subst h
    simp only [handler_parentspanid, idFromHex_idToHex, Outcome.bind, absorb]
    rw [if_neg (by decide), if_neg (by decide), if_pos trivial]
  · subst h
    simp only [handler_flags, ParseUint_FormatUint _ hF, absorb]
    rw [if_neg (by decide), if_neg (by decide), if_neg (by decide), if_pos trivial]
  · subst h
    simp only [handler_baggage, absorb]
    rw [if_neg (baggage_key_ne _ _ (by decide)), if_neg (baggage_key_ne _ _ (by decide)),
      if_neg (baggage_key_ne _ _ (by decide)), if_neg (baggage_key_ne _ _ (by decide)),
      baggage_key_drop]
    cases hbag : ctx.Baggage with
    | none => exact absurd hbag hb
    | some l => rfl

theorem absorb_baggage_ne_none (sp : RawSpan) (ctx : Context) (x : GoString × GoString)
    (hb : ctx.Baggage ≠ none) : (absorb sp ctx x).Baggage ≠ none := by
  unfold absorb
  split_ifs <;> simp [hb]

theorem foreachKey_absorb (tbl : Nat → Nat) (sp : RawSpan) (pairs : List (GoString × GoString))
    (ctx : Context) (hF : sp.Flags < two64) (hx : ∀ x ∈ pairs, x ∈ textEntries sp)
    (hb : ctx.Baggage ≠ none) :
    foreachKey tbl pairs ctx = Outcome.ok (pairs.foldl (absorb sp) ctx) := by
  induction pairs generalizing ctx with
  | nil => rfl
  | cons x rest ih =>
    obtain ⟨k, v⟩ := x
    have h1 := handler_absorb tbl sp ctx (k, v) hF (hx _ (List.mem_cons_self _ _)) hb
    simp only at h1
    rw [foreachKey, h1, Outcome.bind, List.foldl_cons]
    exact ih _ (fun y hy => hx y (List.mem_cons_of_mem _ hy))
      (absorb_baggage_ne_none sp ctx (k, v) hb)

theorem foldl_absorb_TraceID (sp : RawSpan) (pairs : List (GoString × GoString)) (ctx : Context) :
    (pairs.foldl (absorb sp) ctx).TraceID
      = if lit "Tracer-TraceId" ∈ pairs.map Prod.fst then sp.TraceID % two64 else ctx.TraceID := by
  induction pairs generalizing ctx with
  | nil => simp
  | cons x rest ih =>
    rw [List.foldl_cons, ih]
    by_cases hmem : lit "Tracer-TraceId" ∈ rest.map Prod.fst
    · simp [hmem]
    · by_cases hx : x.1 = lit "Tracer-TraceId"
      · simp [hmem, hx, absorb]
      · have hx2 : ¬ lit "Tracer-TraceId" = x.1 := fun h => hx h.symm
        simp only [hmem, if_false, List.map_cons, List.mem_cons, hx2, or_self, absorb, hx]
        split_ifs <;> rfl

theorem foldl_absorb_SpanID (sp : RawSpan) (pairs : List (GoString × GoString)) (ctx : Context) :
    (pairs.foldl (absorb sp) ctx).SpanID
      = if lit "Tracer-SpanId" ∈ pairs.map Prod.fst then sp.SpanID % two64 else ctx.SpanID := by
  induction pairs generalizing ctx with
  | nil => simp
  | cons x rest ih =>
    rw [List.foldl_cons, ih]
    by_cases hmem : lit "Tracer-SpanId" ∈ rest.map Prod.fst
    · simp [hmem]
    · by_cases hx : x.1 = lit "Tracer-SpanId"
      · have n1 : lit "Tracer-SpanId" ≠ lit "Tracer-TraceId" := by decide
        simp [hmem, hx, absorb, n1]
      · have hx2 : ¬ lit "Tracer-SpanId" = x.1 := fun h => hx h.symm
        simp only [hmem, if_false, List.map_cons, List.mem_cons, hx2, or_self, absorb, hx]
        split_ifs <;> rfl

theorem foldl_absorb_ParentID (sp : RawSpan) (pairs : List (GoString × GoString)) (ctx : Context) :
    (pairs.foldl (absorb sp) ctx).ParentID
      = if lit "Tracer-ParentSpanId" ∈ pairs.map Prod.fst then sp.ParentID % two64
        else ctx.ParentID := by
  induction pairs generalizing ctx with
  | nil => simp
  | cons x rest ih =>
    rw [List.foldl_cons, ih]
    by_cases hmem : lit "Tracer-ParentSpanId" ∈ rest.map Prod.fst
    · simp [hmem]
    · by_cases hx : x.1 = lit "Tracer-ParentSpanId"
      · have n1 : lit "Tracer-ParentSpanId" ≠ lit "Tracer-TraceId" := by decide
        have n2 : lit "Tracer-ParentSpanId" ≠ lit "Tracer-SpanId" := by decide
        simp [hmem, hx, absorb, n1, n2]
      · have hx2 : ¬ lit "Tracer-ParentSpanId" = x.1 := fun h => hx h.symm
        simp only [hmem, if_false, List.map_cons, List.mem_cons, hx2, or_self, absorb, hx]
        split_ifs <;> rfl

theorem foldl_absorb_Flags (sp : RawSpan) (pairs : List (GoString × GoString)) (ctx : Context) :
    (pairs.foldl (absorb sp) ctx).Flags
      = if lit "Tracer-Flags" ∈ pairs.map Prod.fst then sp.Flags else ctx.Flags := by
  induction pairs generalizing ctx with
  | nil => simp
  | cons x rest ih =>
    rw [List.foldl_cons, ih]
    by_cases hmem : lit "Tracer-Flags" ∈ rest.map Prod.fst
    · simp [hmem]
    · by_cases hx : x.1 = lit "Tracer-Flags"
      · have n1 : lit "Tracer-Flags" ≠ lit "Tracer-TraceId" := by decide
        have n2 : lit "Tracer-Flags" ≠ lit "Tracer-SpanId" := by decide
        have n3 : lit "Tracer-Flags" ≠ lit "Tracer-ParentSpanId" := by decide
        simp [hmem, hx, absorb, n1, n2, n3]
      · have hx2 : ¬ lit "Tracer-Flags" = x.1 := fun h => hx h.symm
        simp only [hmem, if_false, List.map_cons, List.mem_cons, hx2, or_self, absorb, hx]
        split_ifs <;> rfl

theorem absorb_fixed_Baggage (sp : RawSpan) (ctx : Context) (x : GoString × GoString)
    (hc : x.1 = lit "Tracer-TraceId" ∨ x.1 = lit "Tracer-SpanId"
      ∨ x.1 = lit "Tracer-ParentSpanId" ∨ x.1 = lit "Tracer-Flags") :
    (absorb sp ctx x).Baggage = ctx.Baggage := by
  unfold absorb
  split_ifs with h1 h2 h3 h4
  · rfl
  · rfl
  · rfl
  · rfl
  · exfalso
    rcases hc with h | h | h | h
    · exact h1 h
    · exact h2 h
    · exact h3 h
    · exact h4 h

theorem foldl_absorb_Baggage (sp : RawSpan) (pairs : List (GoString × GoString)) (ctx : Context)
    (hx : ∀ x ∈ pairs, x ∈ textEntries sp) (hb : ctx.Baggage ≠ none) :
    (pairs.foldl (absorb sp) ctx).Baggage
      = some ((bagOf pairs).foldl (fun m kv => assocSet m kv.1 kv.2) ctx.Baggage.entries) := by
  induction pairs generalizing ctx with
  | nil =>
    cases hbag : ctx.Baggage with
    | none => exact absurd hbag hb
    | some l => simp [hbag, GoMap.entries, bagOf]
  | cons x rest ih =>
    have hrest : ∀ y ∈ rest, y ∈ textEntries sp := fun y hy => hx y (List.mem_cons_of_mem _ hy)
    have hmem := hx x (List.mem_cons_self _ _)
    rw [List.foldl_cons, ih _ hrest (absorb_baggage_ne_none sp ctx x hb)]
    simp only [textEntries, List.mem_append, List.mem_cons, List.mem_singleton, List.not_mem_nil,
      or_false, List.mem_map] at hmem
    have fixed : ∀ c : GoString, c.take 15 ≠ lit "Tracer-Baggage-" → x.1 = c →
        (x.1 = lit "Tracer-TraceId" ∨ x.1 = lit "Tracer-SpanId"
          ∨ x.1 = lit "Tracer-ParentSpanId" ∨ x.1 = lit "Tracer-Flags") →
        some ((bagOf rest).foldl (fun m kv => assocSet m kv.1 kv.2) (absorb sp ctx x).Baggage.entries)
          = some ((bagOf (x :: rest)).foldl (fun m kv => assocSet m kv.1 kv.2) ctx.Baggage.entries) := by
      intro c hc hxc h4
      have hf : decide (x.1.take 15 = lit "Tracer-Baggage-") = false := by
        rw [hxc]; exact decide_eq_false hc
      rw [absorb_fixed_Baggage sp ctx x h4]
      simp [bagOf, List.filter_cons, hf]
    rcases hmem with (h | h | h | h) | ⟨kv, -, h⟩
    · exact fixed (lit "Tracer-TraceId") (by decide) (by rw [h]) (Or.inl (by rw [h]))
    · exact fixed (lit "Tracer-SpanId") (by decide) (by rw [h]) (Or.inr (Or.inl (by rw [h])))
    · exact fixed (lit "Tracer-ParentSpanId") (by decide) (by rw [h])
        (Or.inr (Or.inr (Or.inl (by rw [h]))))
    · exact fixed (lit "Tracer-Flags") (by decide) (by rw [h])
        (Or.inr (Or.inr (Or.inr (by rw [h]))))
    · subst h
      have hab : (absorb sp ctx (lit "Tracer-Baggage-" ++ kv.1, kv.2)).Baggage
          = some (assocSet ctx.Baggage.entries kv.1 kv.2) := by
        unfold absorb
        simp only
        rw [if_neg (baggage_key_ne _ _ (by decide)), if_neg (baggage_key_ne _ _ (by decide)),
          if_neg (baggage_key_ne _ _ (by decide)), if_neg (baggage_key_ne _ _ (by decide)),
          baggage_key_drop]
      rw [hab]
      simp [bagOf, List.filter_cons, baggage_key_take, baggage_key_drop, GoMap.entries]

theorem bagOf_textEntries (sp : RawSpan) : bagOf (textEntries sp) = sp.Baggage.entries := by
  have h1 : ∀ l : List (GoString × GoString),
      bagOf (l.map (fun kv => (lit "Tracer-Baggage-" ++ kv.1, kv.2))) = l := by
    intro l
    induction l with
    | nil => rfl
    | cons e l ih =>
      simp only [bagOf] at ih
      simp [bagOf, List.filter_cons, baggage_key_take, baggage_key_drop, ih]
  have h2 : ∀ l : List (GoString × GoString), bagOf ([(lit "Tracer-TraceId", idToHex sp.TraceID),
      (lit "Tracer-SpanId", idToHex sp.SpanID), (lit "Tracer-ParentSpanId", idToHex sp.ParentID),
      (lit "Tracer-Flags", FormatUint sp.Flags)] ++ l) = bagOf l := by
    intro l
    have d1 : decide ((lit "Tracer-TraceId").take 15 = lit "Tracer-Baggage-") = false := by decide
    have d2 : decide ((lit "Tracer-SpanId").take 15 = lit "Tracer-Baggage-") = false := by decide
    have d3 : decide ((lit "Tracer-ParentSpanId").take 15 = lit "Tracer-Baggage-") = false := by
      decide
    have d4 : decide ((lit "Tracer-Flags").take 15 = lit "Tracer-Baggage-") = false := by decide
    simp only [bagOf, List.cons_append, List.nil_append, List.filter_cons, d1, d2, d3, d4]
    simp
  unfold textEntries
  rw [h2, h1]

theorem textJoinerRun_of_perm (tbl : Nat → Nat) (sp : RawSpan)
    (pairs : List (GoString × GoString)) (hT : sp.TraceID % two64 ≠ 0) (hF : sp.Flags < two64)
    (hB : sp.Baggage.WF) (hperm : pairs.Perm (textEntries sp)) :
    ∃ bag, bag.Perm sp.Baggage.entries ∧
      textJoinerRun tbl pairs none
        = Outcome.ok { TraceID := sp.TraceID % two64, ParentID := sp.ParentID % two64,
                       SpanID := sp.SpanID % two64, Flags := sp.Flags, Baggage := some bag } := by
  have hx : ∀ x ∈ pairs, x ∈ textEntries sp := fun x hx => hperm.mem_iff.1 hx
  have hkeys : ∀ k, k ∈ pairs.map Prod.fst ↔ k ∈ (textEntries sp).map Prod.fst :=
    fun k => (hperm.map Prod.fst).mem_iff
  have hbagperm : (bagOf pairs).Perm sp.Baggage.entries := by
    rw [← bagOf_textEntries sp]
    exact (hperm.filter _).map _
  have hnd : ((bagOf pairs).map Prod.fst).Nodup := ((hbagperm.map Prod.fst).nodup_iff).2 hB
  refine ⟨bagOf pairs, hbagperm, ?_⟩
  have hrun := foreachKey_absorb tbl sp pairs
    { TraceID := 0, ParentID := 0, SpanID := 0, Flags := 0, Baggage := some [] } hF hx (by simp)
  have h1 := foldl_absorb_TraceID sp pairs
    { TraceID := 0, ParentID := 0, SpanID := 0, Flags := 0, Baggage := some [] }
  have h2 := foldl_absorb_SpanID sp pairs
    { TraceID := 0, ParentID := 0, SpanID := 0, Flags := 0, Baggage := some [] }
  have h3 := foldl_absorb_ParentID sp pairs
    { TraceID := 0, ParentID := 0, SpanID := 0, Flags := 0, Baggage := some [] }
  have h4 := foldl_absorb_Flags sp pairs
    { TraceID := 0, ParentID := 0, SpanID := 0, Flags := 0, Baggage := some [] }
  have h5 := foldl_absorb_Baggage sp pairs
    { TraceID := 0, ParentID := 0, SpanID := 0, Flags := 0, Baggage := some [] } hx (by simp)
  rw [if_pos ((hkeys _).2 (by simp [textEntries]))] at h1 h2 h3 h4
  rw [foldl_assocSet_fresh _ _ (by simpa [GoMap.entries] using hnd)] at h5
  unfold textJoinerRun
  rw [hrun]
  generalize List.foldl (absorb sp)
    { TraceID := 0, ParentID := 0, SpanID := 0, Flags := 0, Baggage := some [] } pairs = c
    at h1 h2 h3 h4 h5
  obtain ⟨t, p, s, f, b⟩ := c
  simp only at h1 h2 h3 h4 h5
  subst h1 h2 h3 h4 h5
  simp only [GoMap.entries, Option.getD_some, List.nil_append]
  rw [if_neg hT]

/-! ## The binary decoder on well-formed entries -/

theorem ReadFull_append (a rest : List Nat) (ending : Err) :
    ReadFull (a ++ rest) ending a.length = Outcome.ok (a, rest) := by
  simp [ReadFull]

theorem toInt64_of_lt (u : Nat) (h : u < two63) : toInt64 u = (u : Int) := by
  have h64 : u % two64 = u := Nat.mod_eq_of_lt (by unfold two63 at h; unfold two64; omega)
  unfold toInt64
  rw [h64, if_pos h]

theorem addInt64_of_lt (a b : Nat) (h : a + b < two63) :
    addInt64 (a : Int) (b : Int) = ((a + b : Nat) : Int) := by
  unfold addInt64
  have e : (((a : Int) + (b : Int)) % (two64 : Int)).toNat = (a + b) % two64 := by
    rw [← Int.natCast_add, ← Int.natCast_mod, Int.toNat_natCast]
  rw [e, Nat.mod_eq_of_lt (by unfold two63 at h; unfold two64; omega), toInt64_of_lt _ h]

theorem binaryJoinerLoop_entry (ending : Err) (n : Nat) (k v : GoString) (rest : List Nat)
    (acc : List (GoString × GoString)) (hk : 0 < k.length)
    (hs : k.length + v.length < two63) :
    binaryJoinerLoop ending (n + 1) (binaryEntry (k, v) ++ rest) acc
      = binaryJoinerLoop ending n rest (assocSet acc k v) := by
  have hr : ReadFull (binaryEntry (k, v) ++ rest) ending 16
      = Outcome.ok (PutUint64 k.length ++ PutUint64 v.length, k ++ v ++ rest) := by
    have h := ReadFull_append (PutUint64 k.length ++ PutUint64 v.length) (k ++ v ++ rest) ending
    simpa [binaryEntry, PutUint64_length] using h
  have hu1 : Uint64 (PutUint64 k.length ++ PutUint64 v.length) = Outcome.ok k.length := by
    rw [Uint64_PutUint64, Nat.mod_eq_of_lt (by unfold two63 at hs; unfold two64; omega)]
  have hu2 : Uint64 ((PutUint64 k.length ++ PutUint64 v.length).drop 8) = Outcome.ok v.length := by
    have e : (PutUint64 k.length ++ PutUint64 v.length).drop 8 = PutUint64 v.length ++ [] := by
      rw [List.append_nil]
      exact List.drop_left' (PutUint64_length _)
    rw [e, Uint64_PutUint64, Nat.mod_eq_of_lt (by unfold two63 at hs; unfold two64; omega)]
  have hkl : toInt64 k.length = (k.length : Int) := toInt64_of_lt _ (by omega)
  have hvl : toInt64 v.length = (v.length : Int) := toInt64_of_lt _ (by omega)
  have hsum := addInt64_of_lt k.length v.length hs
  have hr2 : ReadFull (k ++ v ++ rest) ending (k.length + v.length)
      = Outcome.ok (k ++ v, rest) := by
    have h := ReadFull_append (k ++ v) rest ending
    simpa using h
  rw [binaryJoinerLoop]
  simp only [hr, hu1, hu2, hkl, hvl, hsum]
  rw [if_neg (by omega), if_neg (by omega)]
  simp only [Int.toNat_natCast, hr2, List.take_left', List.drop_left']

theorem binaryJoinerLoop_entries (ending : Err) (es : List (GoString × GoString)) (n : Nat)
    (rest : List Nat) (acc : List (GoString × GoString))
    (h : ∀ kv ∈ es, 0 < kv.1.length ∧ kv.1.length + kv.2.length < two63) :
    binaryJoinerLoop ending (es.length + n) (es.flatMap binaryEntry ++ rest) acc
      = binaryJoinerLoop ending n rest (es.foldl (fun m kv => assocSet m kv.1 kv.2) acc) := by
  induction es generalizing acc with
  | nil => simp
  | cons e es ih =>
    obtain ⟨k, v⟩ := e
    have hkv := h (k, v) (List.mem_cons_self _ _)
    have e1 : ((k, v) :: es).length + n = (es.length + n) + 1 := by simp; omega
    have e2 : ((k, v) :: es).flatMap binaryEntry ++ rest
        = binaryEntry (k, v) ++ (es.flatMap binaryEntry ++ rest) := by simp
    rw [e1, e2, binaryJoinerLoop_entry ending _ k v _ acc hkv.1 hkv.2,
      ih _ (fun kv hkv => h kv (List.mem_cons_of_mem _ hkv)), List.foldl_cons]

theorem binaryJoinerRun_header (ending : Err) (t s p f n : Nat) (rest : List Nat) :
    binaryJoinerRun (PutUint64 t ++ PutUint64 s ++ PutUint64 p ++ PutUint64 f ++ PutUint64 n
        ++ rest) ending
      = match binaryJoinerLoop ending (n % two64) rest [] with
        | Outcome.ok bag =>
          Outcome.ok { TraceID := t % two64, ParentID := p % two64, SpanID := s % two64,
                       Flags := f % two64, Baggage := some bag }
        | Outcome.error e => Outcome.error e
        | Outcome.panic => Outcome.panic := by
  have hr : ReadFull (PutUint64 t ++ PutUint64 s ++ PutUint64 p ++ PutUint64 f ++ PutUint64 n
        ++ rest) ending 40
      = Outcome.ok (PutUint64 t ++ PutUint64 s ++ PutUint64 p ++ PutUint64 f ++ PutUint64 n,
          rest) := by
    have h := ReadFull_append
      (PutUint64 t ++ PutUint64 s ++ PutUint64 p ++ PutUint64 f ++ PutUint64 n) rest ending
    simpa [PutUint64_length] using h
  have h0 : Uint64 (PutUint64 t ++ PutUint64 s ++ PutUint64 p ++ PutUint64 f ++ PutUint64 n)
      = Outcome.ok (t % two64) := by
    simp only [List.append_assoc]
    exact Uint64_PutUint64 _ _
  have h1 : Uint64 ((PutUint64 t ++ PutUint64 s ++ PutUint64 p ++ PutUint64 f ++ PutUint64 n).drop 8)
      = Outcome.ok (s % two64) := by
    have e : (PutUint64 t ++ PutUint64 s ++ PutUint64 p ++ PutUint64 f ++ PutUint64 n).drop 8
        = PutUint64 s ++ (PutUint64 p ++ PutUint64 f ++ PutUint64 n) := by
      simp only [List.append_assoc]
      exact List.drop_left' (PutUint64_length _)
    rw [e, Uint64_PutUint64]
  have h2 : Uint64 ((PutUint64 t ++ PutUint64 s ++ PutUint64 p ++ PutUint64 f ++ PutUint64 n).drop 16)
      = Outcome.ok (p % two64) := by
    have e : (PutUint64 t ++ PutUint64 s ++ PutUint64 p ++ PutUint64 f ++ PutUint64 n).drop 16
        = PutUint64 p ++ (PutUint64 f ++ PutUint64 n) := by
      have e0 : PutUint64 t ++ PutUint64 s ++ PutUint64 p ++ PutUint64 f ++ PutUint64 n
          = (PutUint64 t ++ PutUint64 s) ++ (PutUint64 p ++ (PutUint64 f ++ PutUint64 n)) := by
        simp only [List.append_assoc]
      rw [e0]
      exact List.drop_left' (by simp [PutUint64_length])
    rw [e, Uint64_PutUint64]
  have h3 : Uint64 ((PutUint64 t ++ PutUint64 s ++ PutUint64 p ++ PutUint64 f ++ PutUint64 n).drop 24)
      = Outcome.ok (f % two64) := by
    have e : (PutUint64 t ++ PutUint64 s ++ PutUint64 p ++ PutUint64 f ++ PutUint64 n).drop 24
        = PutUint64 f ++ PutUint64 n := by
      have e0 : PutUint64 t ++ PutUint64 s ++ PutUint64 p ++ PutUint64 f ++ PutUint64 n
          = (PutUint64 t ++ PutUint64 s ++ PutUint64 p) ++ (PutUint64 f ++ PutUint64 n) := by
        simp only [List.append_assoc]
      rw [e0]
      exact List.drop_left' (by simp [PutUint64_length])
    rw [e, Uint64_PutUint64]
  have h4 : Uint64 ((PutUint64 t ++ PutUint64 s ++ PutUint64 p ++ PutUint64 f ++ PutUint64 n).drop 32)
      = Outcome.ok (n % two64) := by
    have e : (PutUint64 t ++ PutUint64 s ++ PutUint64 p ++ PutUint64 f ++ PutUint64 n).drop 32
        = PutUint64 n ++ [] := by
      rw [List.append_nil]
      exact List.drop_left' (by simp [PutUint64_length])
    rw [e, Uint64_PutUint64]
  unfold binaryJoinerRun
  simp only [hr, h0, h1, h2, h3, h4]

theorem binaryJoinerRun_injected (sp : RawSpan) (ending : Err)
    (hK : ∀ kv ∈ sp.Baggage.entries, 0 < kv.1.length ∧ kv.1.length + kv.2.length < two63)
    (hn : sp.Baggage.entries.length < two64) (hB : sp.Baggage.WF) :
    binaryJoinerRun (binaryInjecterBytes sp) ending
      = Outcome.ok { TraceID := sp.TraceID % two64, ParentID := sp.ParentID % two64,
                     SpanID := sp.SpanID % two64, Flags := sp.Flags % two64,
                     Baggage := some sp.Baggage.entries } := by
  have e : binaryInjecterBytes sp
      = PutUint64 sp.TraceID ++ PutUint64 sp.SpanID ++ PutUint64 sp.ParentID
          ++ PutUint64 sp.Flags ++ PutUint64 sp.Baggage.entries.length
          ++ (sp.Baggage.entries.flatMap binaryEntry ++ []) := by
    simp [binaryInjecterBytes]
  have hloop := binaryJoinerLoop_entries ending sp.Baggage.entries 0 [] [] hK
  rw [Nat.add_zero] at hloop
  rw [e, binaryJoinerRun_header, Nat.mod_eq_of_lt hn, hloop,
    foldl_assocSet_fresh _ _ (by simpa using hB)]
  simp [binaryJoinerLoop]

theorem Uint64_of_length (b : List Nat) (h : 8 ≤ b.length) : ∃ v, Uint64 b = Outcome.ok v := by
  match b, h with
  | b0 :: b1 :: b2 :: b3 :: b4 :: b5 :: b6 :: b7 :: _, _ => exact ⟨_, rfl⟩

theorem binaryJoinerRun_of_header (ending : Err) (hdr rest : List Nat) (n : Nat)
    (hh : hdr.length = 40) (hn : Uint64 (hdr.drop 32) = Outcome.ok n) :
    ∃ t s p f, binaryJoinerRun (hdr ++ rest) ending
      = match binaryJoinerLoop ending n rest [] with
        | Outcome.ok bag =>
          Outcome.ok { TraceID := t, ParentID := p, SpanID := s, Flags := f, Baggage := some bag }
        | Outcome.error e => Outcome.error e
        | Outcome.panic => Outcome.panic := by
  have hr : ReadFull (hdr ++ rest) ending 40 = Outcome.ok (hdr, rest) := by
    rw [← hh]
    exact ReadFull_append hdr rest ending
  obtain ⟨t, ht⟩ := Uint64_of_length hdr (by omega)
  obtain ⟨s, hs⟩ := Uint64_of_length (hdr.drop 8) (by simp; omega)
  obtain ⟨p, hp⟩ := Uint64_of_length (hdr.drop 16) (by simp; omega)
  obtain ⟨f, hf⟩ := Uint64_of_length (hdr.drop 24) (by simp; omega)
  refine ⟨t, s, p, f, ?_⟩
  unfold binaryJoinerRun
  simp only [hr, ht, hs, hp, hf, hn]

theorem binaryJoinerLoop_bad_length (ending : Err) (n : Nat) (pre rest : List Nat)
    (acc : List (GoString × GoString)) (klu vlu : Nat) (hp : pre.length = 16)
    (hk : Uint64 pre = Outcome.ok klu) (hv : Uint64 (pre.drop 8) = Outcome.ok vlu)
    (hbad : toInt64 klu ≤ 0 ∨ toInt64 vlu < 0) :
    binaryJoinerLoop ending (n + 1) (pre ++ rest) acc = Outcome.error Err.TraceNotFound := by
  have hr : ReadFull (pre ++ rest) ending 16 = Outcome.ok (pre, rest) := by
    rw [← hp]
    exact ReadFull_append pre rest ending
  rw [binaryJoinerLoop]
  simp only [hr, hk, hv]
  rw [if_pos hbad]

theorem binaryJoinerRun_short (data : List Nat) (h0 : data ≠ []) (h40 : data.length < 40) :
    binaryJoinerRun data Err.EOF = Outcome.error Err.TraceNotFound := by
  unfold binaryJoinerRun ReadFull
  rw [if_neg (by omega), if_pos rfl, if_neg h0]
  rfl

/-! ## The text decoder without a trace id -/

theorem idFromHex_ne_error (v : GoString) (e : Err) : idFromHex v ≠ Outcome.error e := by
  unfold idFromHex Uint64
  split <;> simp

theorem handler_TraceID_zero (tbl : Nat → Nat) (ctx ctx2 : Context) (key val : GoString)
    (h0 : ctx.TraceID = 0)
    (hz : ToLower tbl key = lit "tracer-traceid" → ∀ x, idFromHex val = Outcome.ok x → x = 0)
    (hok : textJoinerHandler tbl ctx key val = Outcome.ok ctx2) : ctx2.TraceID = 0 := by
  unfold textJoinerHandler at hok
  split_ifs at hok with h1 h2 h3 h4 h5 h6
  · cases hv : idFromHex val with
    | ok x =>
      rw [hv] at hok
      simp only [Outcome.bind, Outcome.ok.injEq] at hok
      rw [← hok]
      exact hz h1 x hv
    | error e => rw [hv] at hok; simp [Outcome.bind] at hok
    | panic => rw [hv] at hok; simp [Outcome.bind] at hok
  · cases hv : idFromHex val with
    | ok x =>
      rw [hv] at hok
      simp only [Outcome.bind, Outcome.ok.injEq] at hok
      rw [← hok]
      exact h0
    | error e => rw [hv] at hok; simp [Outcome.bind] at hok
    | panic => rw [hv] at hok; simp [Outcome.bind] at hok
  · cases hv : idFromHex val with
    | ok x =>
      rw [hv] at hok
      simp only [Outcome.bind, Outcome.ok.injEq] at hok
      rw [← hok]
      exact h0
    | error e => rw [hv] at hok; simp [Outcome.bind] at hok
    | panic => rw [hv] at hok; simp [Outcome.bind] at hok
  · simp only [Outcome.ok.injEq] at hok
    rw [← hok]
    exact h0
  · cases hb : ctx.Baggage with
    | none => rw [hb] at hok; simp [GoMap.set, Outcome.bind] at hok
    | some l =>
      rw [hb] at hok
      simp only [GoMap.set, Outcome.bind, Outcome.ok.injEq] at hok
      rw [← hok]
      exact h0
  · simp only [Outcome.ok.injEq] at hok
    rw [← hok]
    exact h0

theorem handler_ne_error (tbl : Nat → Nat) (ctx : Context) (key val : GoString) (e : Err) :
    textJoinerHandler tbl ctx key val ≠ Outcome.error e := by
  have hid : ∀ (f : Nat → Outcome Context), (∀ x, f x ≠ Outcome.error e) →
      (idFromHex val).bind f ≠ Outcome.error e := by
    intro f hf
    cases hv : idFromHex val with
    | ok x => exact hf x
    | error e2 => exact absurd hv (idFromHex_ne_error val e2)
    | panic => simp [Outcome.bind]
  unfold textJoinerHandler
  split_ifs
  · exact hid _ (fun x => by simp)
  · exact hid _ (fun x => by simp)
  · exact hid _ (fun x => by simp)
  · simp
  · simp
  · cases hb : ctx.Baggage <;> simp [GoMap.set, Outcome.bind]
  · simp

theorem foreachKey_TraceID_zero (tbl : Nat → Nat) (pairs : List (GoString × GoString))
    (ctx : Context) (h0 : ctx.TraceID = 0)
    (hz : ∀ kv ∈ pairs, ToLower tbl kv.1 = lit "tracer-traceid" →
      ∀ x, idFromHex kv.2 = Outcome.ok x → x = 0) :
    foreachKey tbl pairs ctx = Outcome.panic ∨
      ∃ ctx2, foreachKey tbl pairs ctx = Outcome.ok ctx2 ∧ ctx2.TraceID = 0 := by
  induction pairs generalizing ctx with
  | nil => exact Or.inr ⟨ctx, rfl, h0⟩
  | cons kv rest ih =>
    obtain ⟨k, v⟩ := kv
    rw [foreachKey]
    cases hh : textJoinerHandler tbl ctx k v with
    | ok c1 =>
      have hc1 := handler_TraceID_zero tbl ctx c1 k v h0 (hz (k, v) (List.mem_cons_self _ _)) hh
      simpa [Outcome.bind] using ih c1 hc1 (fun x hx => hz x (List.mem_cons_of_mem _ hx))
    | error e => exact absurd hh (handler_ne_error tbl ctx k v e)
    | panic => exact Or.inl rfl

theorem textJoinerRun_TraceID_zero (tbl : Nat → Nat) (pairs : List (GoString × GoString))
    (result : Option Err)
    (hz : ∀ kv ∈ pairs, ToLower tbl kv.1 = lit "tracer-traceid" →
      ∀ x, idFromHex kv.2 = Outcome.ok x → x = 0) :
    textJoinerRun tbl pairs result = Outcome.panic ∨
      textJoinerRun tbl pairs result = Outcome.error Err.TraceNotFound := by
  unfold textJoinerRun
  rcases foreachKey_TraceID_zero tbl pairs
      { TraceID := 0, ParentID := 0, SpanID := 0, Flags := 0, Baggage := some [] } rfl hz
    with h | ⟨c, h, hc⟩
  · rw [h]
    exact Or.inl rfl
  · rw [h]
    simp only
    rw [if_pos hc]
    exact Or.inr rfl

/-! ## Spans and the tracer -/

theorem Sampled_eq_of_Flags (a b : Span) (h : a.Flags = b.Flags) : a.Sampled = b.Sampled := by
  unfold Span.Sampled
  rw [h]

theorem Sampled_false_of_even (sp : Span) (h : sp.Flags % 2 = 0) : sp.Sampled = false := by
  unfold Span.Sampled FlagSampled
  rw [Nat.and_one_is_mod, h]
  rfl

theorem Join_text (tbl : Nat → Nat) (tr : Tracer) (op : GoString) (c : Carrier) (ctx : Context)
    (h : textJoiner tbl c = Outcome.ok ctx) :
    Tracer.Join (joiners tbl) tr op Format.TextMap c
      = Outcome.ok { RawSpan.zero with TraceID := ctx.TraceID, SpanID := ctx.SpanID,
                                       ParentID := ctx.ParentID, Baggage := ctx.Baggage,
                                       Flags := ctx.Flags, tracer := tr } := by
  simp [Tracer.Join, Format.hashable, joiners, assocGet, h]

theorem Join_binary (tbl : Nat → Nat) (tr : Tracer) (op : GoString) (c : Carrier) (ctx : Context)
    (h : binaryJoiner c = Outcome.ok ctx) :
    Tracer.Join (joiners tbl) tr op Format.Binary c
      = Outcome.ok { RawSpan.zero with TraceID := ctx.TraceID, SpanID := ctx.SpanID,
                                       ParentID := ctx.ParentID, Baggage := ctx.Baggage,
                                       Flags := ctx.Flags, tracer := tr } := by
  simp [Tracer.Join, Format.hashable, joiners, assocGet, h]

theorem startAt_parent (tr : Tracer) (opts : StartSpanOptions) (p : Span) (start : Time)
    (w : World) (hpar : opts.Parent = some (SpanRef.own p)) :
    tr.startAt opts start w
      = Outcome.ok ({ tr.newSpan opts.OperationName (tr.idGenerator w.idCalls) start with
                      ParentID := p.SpanID, TraceID := p.TraceID, Flags := p.Flags },
                    { w with idCalls := w.idCalls + 1 }) := by
  simp [Tracer.startAt, hpar, Tracer.GenerateID]

theorem StartSpanWithOptions_parent (tr : Tracer) (opts : StartSpanOptions) (p : Span)
    (w : World) (hpar : opts.Parent = some (SpanRef.own p)) :
    ∃ (start : Time) (w1 : World), w1.sampled = w.sampled ∧ w1.stored = w.stored ∧
      w1.idCalls = w.idCalls ∧
      tr.StartSpanWithOptions opts w
        = Outcome.ok ({ tr.newSpan opts.OperationName (tr.idGenerator w.idCalls) start with
                        ParentID := p.SpanID, TraceID := p.TraceID, Flags := p.Flags },
                      { w1 with idCalls := w1.idCalls + 1 }) := by
  unfold Tracer.StartSpanWithOptions
  split
  · refine ⟨w.now.1, w.now.2, rfl, rfl, rfl, ?_⟩
    rw [startAt_parent tr opts p _ _ hpar]
    rfl
  · exact ⟨opts.StartTime, w, rfl, rfl, rfl, startAt_parent tr opts p _ _ hpar⟩

theorem startChain_inherits (links : List (Tracer × GoString × Time)) (root : Span) (w : World) :
    ∃ d w2, startChain links root w = Outcome.ok (d, w2) ∧ d.Flags = root.Flags ∧
      d.TraceID = root.TraceID ∧ w2.sampled = w.sampled := by
  induction links generalizing root w with
  | nil => exact ⟨root, w, rfl, rfl, rfl, rfl⟩
  | cons link links ih =>
    obtain ⟨tr, name, start⟩ := link
    obtain ⟨st, w1, hs, -, -, hrun⟩ := StartSpanWithOptions_parent tr
      { OperationName := name, StartTime := start, Parent := some (SpanRef.own root) } root w rfl
    obtain ⟨d, w2, hd, hf, ht, hw⟩ := ih
      { tr.newSpan name (tr.idGenerator w.idCalls) st with
        ParentID := root.SpanID, TraceID := root.TraceID, Flags := root.Flags }
      { w1 with idCalls := w1.idCalls + 1 }
    refine ⟨d, w2, ?_, hf, ht, ?_⟩
    · rw [startChain, hrun]
      exact hd
    · rw [hw]
      exact hs

/-! ## Tags and logs -/

theorem valueType_of (kind : Kind) (repr : List Nat) :
    (valueType (Value.of kind repr)).2 = isTagKind kind := by
  cases kind <;> rfl

theorem valueType_ok_iff (v : Value) :
    (valueType v).2 = true ↔ v = Value.nil ∨ v.isTagValue = true := by
  cases v with
  | nil => simp [valueType]
  | of kind repr => simp [valueType_of, Value.isTagValue]

theorem mem_assocSet {κ α : Type} [DecidableEq κ] (m : List (κ × α)) (k : κ) (v : α)
    (x : κ × α) (hx : x ∈ assocSet m k v) : x = (k, v) ∨ x ∈ m := by
  induction m with
  | nil =>
    simp only [assocSet, List.mem_singleton] at hx
    exact Or.inl hx
  | cons e m ih =>
    obtain ⟨k1, v1⟩ := e
    simp only [assocSet] at hx
    split_ifs at hx with hk
    · rcases List.mem_cons.1 hx with h | h
      · exact Or.inl h
      · exact Or.inr (List.mem_cons_of_mem _ h)
    · rcases List.mem_cons.1 hx with h | h
      · exact Or.inr (h ▸ List.mem_cons_self _ _)
      · rcases ih h with h2 | h2
        · exact Or.inl h2
        · exact Or.inr (List.mem_cons_of_mem _ h2)

theorem SetTag_supported (sp : Span) (key : GoString) (value : Value) (w : World)
    (hs : sp.Sampled = true) (hv : (valueType value).2 = true) :
    sp.SetTag key value w
      = ({ sp with Tags := some (assocSet sp.Tags.entries key value) }, w) := by
  simp [Span.SetTag, hs, hv]

theorem SetTag_unsupported (sp : Span) (key : GoString) (value : Value) (w : World)
    (hs : sp.Sampled = true) (hv : (valueType value).2 = false) :
    sp.SetTag key value w
      = (sp, { w with printed := w.printed ++ [LogLine.unsupportedTag key value] }) := by
  simp [Span.SetTag, hs, hv]

theorem Log_fields (sp : Span) (data : LogData) (w : World) :
    ∃ (logs : List LogData) (w2 : World),
      sp.Log data w = ({ sp with Logs := logs }, w2) ∧ w2.stored = w.stored := by
  unfold Span.Log
  split_ifs
  · exact ⟨sp.Logs, w, rfl, rfl⟩
  · exact ⟨sp.Logs, _, rfl, rfl⟩
  · exact ⟨_, _, rfl, rfl⟩
  · exact ⟨_, _, rfl, rfl⟩

theorem logAll_fields (ds : List LogData) (sp : Span) (w : World) :
    ∃ (logs : List LogData) (w2 : World),
      Span.logAll ds sp w = ({ sp with Logs := logs }, w2) ∧ w2.stored = w.stored := by
  induction ds generalizing sp w with
  | nil => exact ⟨sp.Logs, w, rfl, rfl⟩
  | cons d ds ih =>
    obtain ⟨l1, w1, h1, hs1⟩ := Log_fields sp d w
    obtain ⟨l2, w2, h2, hs2⟩ := ih { sp with Logs := l1 } w1
    refine ⟨l2, w2, ?_, hs2.trans hs1⟩
    rw [Span.logAll, h1]
    exact h2

theorem FinishWithOptions_sampled (sp : Span) (opts : FinishOptions) (w : World)
    (hs : sp.Sampled = true) :
    ∃ (logs : List LogData) (w1 : World),
      sp.FinishWithOptions opts w
        = ({ sp with FinishTime := if opts.FinishTime = 0 then w.clock w.clockReads
                                   else opts.FinishTime,
                     Logs := logs },
           Span.store { sp with FinishTime := if opts.FinishTime = 0 then w.clock w.clockReads
                                              else opts.FinishTime,
                                Logs := logs } w1) ∧
      w1.stored = w.stored := by
  unfold Span.FinishWithOptions
  rw [hs]
  by_cases hz : opts.FinishTime = 0
  · have hz2 : Time.IsZero opts.FinishTime = true := by simp [Time.IsZero, hz]
    obtain ⟨logs, w1, h1, h2⟩ :=
      logAll_fields opts.BulkLogData { sp with FinishTime := w.now.1 } w.now.2
    refine ⟨logs, w1, ?_, by rw [h2]; rfl⟩
    simp only [Bool.not_true, Bool.false_eq_true, if_false, hz2, if_true, hz, h1]
    rfl
  · have hz2 : Time.IsZero opts.FinishTime = false := by simp [Time.IsZero, hz]
    obtain ⟨logs, w1, h1, h2⟩ :=
      logAll_fields opts.BulkLogData { sp with FinishTime := opts.FinishTime } w
    refine ⟨logs, w1, ?_, h2⟩
    simp only [Bool.not_true, Bool.false_eq_true, if_false, hz2, hz, h1]

theorem FinishWithOptions_Tags (sp : Span) (opts : FinishOptions) (w : World) :
    (sp.FinishWithOptions opts w).1.Tags = sp.Tags := by
  cases hs : sp.Sampled with
  | false => simp [Span.FinishWithOptions, hs]
  | true =>
    obtain ⟨logs, w1, h, -⟩ := FinishWithOptions_sampled sp opts w hs
    rw [h]

theorem Finish_Tags (sp : Span) (w : World) : (sp.Finish w).1.Tags = sp.Tags := by
  unfold Span.Finish
  split
  · rfl
  · exact FinishWithOptions_Tags sp _ w

theorem SetTag_TagsOK (sp : Span) (key : GoString) (value : Value) (w : World)
    (h : sp.TagsOK) : (sp.SetTag key value w).1.TagsOK := by
  unfold Span.SetTag
  split_ifs with h1 h2
  · exact h
  · exact h
  · intro kv hkv
    have hv : (valueType value).2 = true := by simpa using h2
    rcases mem_assocSet _ _ _ _ hkv with hh | hh
    · rw [hh]
      exact (valueType_ok_iff value).1 hv
    · exact h kv hh

theorem mutate_TagsOK (sp sp2 : Span) (m : Mutation) (w w2 : World) (h : sp.TagsOK)
    (hrun : sp.mutate m w = Outcome.ok (sp2, w2)) : sp2.TagsOK := by
  have keep : ∀ s : Span, s.Tags = sp.Tags → s.TagsOK := by
    intro s hs kv hkv
    rw [hs] at hkv
    exact h kv hkv
  cases m with
  | SetOperationName name =>
    simp only [Span.mutate, Outcome.ok.injEq, Prod.mk.injEq] at hrun
    exact keep _ (by rw [← hrun.1]; rfl)
  | SetTag key value =>
    simp only [Span.mutate, Outcome.ok.injEq] at hrun
    have h2 := SetTag_TagsOK sp key value w h
    rw [hrun] at h2
    exact h2
  | Log data =>
    simp only [Span.mutate, Outcome.ok.injEq] at hrun
    obtain ⟨logs, w3, h2, -⟩ := Log_fields sp data w
    rw [hrun] at h2
    simp only [Prod.mk.injEq] at h2
    exact keep _ (by rw [h2.1])
  | LogEvent event =>
    simp only [Span.mutate, Outcome.ok.injEq] at hrun
    refine keep _ ?_
    have e : sp2 = (sp.LogEvent event w).1 := by rw [hrun]
    rw [e]
    unfold Span.LogEvent
    split
    · rfl
    · obtain ⟨logs, w3, h2, -⟩ := Log_fields sp { Timestamp := 0, Event := event, Payload := Value.nil } w
      rw [h2]
  | LogEventWithPayload event payload =>
    simp only [Span.mutate, Outcome.ok.injEq] at hrun
    refine keep _ ?_
    have e : sp2 = (sp.LogEventWithPayload event payload w).1 := by rw [hrun]
    rw [e]
    unfold Span.LogEventWithPayload
    split
    · rfl
    · obtain ⟨logs, w3, h2, -⟩ := Log_fields sp { Timestamp := 0, Event := event, Payload := payload } w
      rw [h2]
  | SetBaggageItem key value =>
    refine keep _ ?_
    simp only [Span.mutate, Span.SetBaggageItem] at hrun
    split_ifs at hrun with hsam
    · simp only [Outcome.bind, Outcome.ok.injEq, Prod.mk.injEq] at hrun
      rw [← hrun.1]
    · cases hb : sp.Baggage with
      | none => rw [hb] at hrun; simp [GoMap.set, Outcome.bind] at hrun
      | some l =>
        rw [hb] at hrun
        simp only [GoMap.set, Outcome.bind, Outcome.ok.injEq, Prod.mk.injEq] at hrun
        rw [← hrun.1]
  | Finish =>
    simp only [Span.mutate, Outcome.ok.injEq] at hrun
    have e : sp2 = (sp.Finish w).1 := by rw [hrun]
    exact keep _ (by rw [e]; exact Finish_Tags sp w)
  | FinishWithOptions opts =>
    simp only [Span.mutate, Outcome.ok.injEq] at hrun
    have e : sp2 = (sp.FinishWithOptions opts w).1 := by rw [hrun]
    exact keep _ (by rw [e]; exact FinishWithOptions_Tags sp opts w)

theorem mutateAll_TagsOK (ms : List Mutation) (sp sp2 : Span) (w w2 : World) (h : sp.TagsOK)
    (hrun : Span.mutateAll ms sp w = Outcome.ok (sp2, w2)) : sp2.TagsOK := by
  induction ms generalizing sp w with
  | nil =>
    simp only [Span.mutateAll, Outcome.ok.injEq, Prod.mk.injEq] at hrun
    rw [← hrun.1]
    exact h
  | cons m ms ih =>
    rw [Span.mutateAll] at hrun
    cases h1 : sp.mutate m w with
    | ok r =>
      rw [h1] at hrun
      exact ih r.1 r.2 (mutate_TagsOK sp r.1 m w r.2 h h1) hrun
    | error e => rw [h1] at hrun; simp [Outcome.bind] at hrun
    | panic => rw [h1] at hrun; simp [Outcome.bind] at hrun

theorem startAt_fresh_maps (tr : Tracer) (opts : StartSpanOptions) (start : Time) (w w2 : World)
    (sp : Span) (hrun : tr.startAt opts start w = Outcome.ok (sp, w2)) :
    sp.Tags = none ∧ sp.Baggage = none ∧ sp.Logs = [] := by
  unfold Tracer.startAt at hrun
  split at hrun
  · simp only [Outcome.ok.injEq, Prod.mk.injEq] at hrun
    rw [← hrun.1]
    exact ⟨rfl, rfl, rfl⟩
  · simp at hrun
  · split_ifs at hrun
    · simp only [Outcome.ok.injEq, Prod.mk.injEq] at hrun
      rw [← hrun.1]
      exact ⟨rfl, rfl, rfl⟩
    · simp only [Outcome.ok.injEq, Prod.mk.injEq] at hrun
      rw [← hrun.1]
      exact ⟨rfl, rfl, rfl⟩

theorem StartSpanWithOptions_fresh_maps (tr : Tracer) (opts : StartSpanOptions) (w w2 : World)
    (sp : Span) (hrun : tr.StartSpanWithOptions opts w = Outcome.ok (sp, w2)) :
    sp.Tags = none ∧ sp.Baggage = none ∧ sp.Logs = [] := by
  unfold Tracer.StartSpanWithOptions at hrun
  split at hrun
  · exact startAt_fresh_maps tr opts _ _ _ sp hrun
  · exact startAt_fresh_maps tr opts _ _ _ sp hrun

theorem Join_fields (table : List (Format × Joiner)) (tr : Tracer) (op : GoString)
    (format : Format) (c : Carrier) (sp : Span)
    (hrun : Tracer.Join table tr op format c = Outcome.ok sp) :
    ∃ joiner ctx, assocGet table format = some joiner ∧ joiner c = Outcome.ok ctx ∧
      sp = { RawSpan.zero with TraceID := ctx.TraceID, SpanID := ctx.SpanID,
                               ParentID := ctx.ParentID, Baggage := ctx.Baggage,
                               Flags := ctx.Flags, tracer := tr } := by
  unfold Tracer.Join at hrun
  split_ifs at hrun
  cases hj : assocGet table format with
  | none => rw [hj] at hrun; simp at hrun
  | some joiner =>
    rw [hj] at hrun
    cases hc : joiner c with
    | ok ctx =>
      simp only [hc, Outcome.ok.injEq] at hrun
      exact ⟨joiner, ctx, rfl, hc, hrun.symm⟩
    | error e => simp [hc] at hrun
    | panic => simp [hc] at hrun

theorem store_clock (sp : Span) (w : World) :
    (Span.store sp w).clockReads = w.clockReads ∧ (Span.store sp w).sampled = w.sampled := by
  unfold Span.store
  split <;> exact ⟨rfl, rfl⟩

theorem idToHex_eq_hexRendering (id : Nat) : idToHex id = hexRendering id := by
  have hr : List.range 16 = [0, 1, 2, 3, 4, 5, 6, 7, 8, 9, 10, 11, 12, 13, 14, 15] := by decide
  unfold idToHex hexRendering EncodeToString PutUint64
  rw [hr]
  simp only [List.flatMap_cons, List.flatMap_nil, List.map_cons, List.map_nil, List.cons_append,
    List.nil_append, List.append_nil]
  have e0 : id / 2 ^ 56 % 256 / 16 % 16 = id / 16 ^ (15 - 0) % 16 := by norm_num; omega
  have e1 : id / 2 ^ 56 % 256 % 16 = id / 16 ^ (15 - 1) % 16 := by norm_num
  have e2 : id / 2 ^ 48 % 256 / 16 % 16 = id / 16 ^ (15 - 2) % 16 := by norm_num; omega
  have e3 : id / 2 ^ 48 % 256 % 16 = id / 16 ^ (15 - 3) % 16 := by norm_num
  have e4 : id / 2 ^ 40 % 256 / 16 % 16 = id / 16 ^ (15 - 4) % 16 := by norm_num; omega
  have e5 : id / 2 ^ 40 % 256 % 16 = id / 16 ^ (15 - 5) % 16 := by norm_num
  have e6 : id / 2 ^ 32 % 256 / 16 % 16 = id / 16 ^ (15 - 6) % 16 := by norm_num; omega
  have e7 : id / 2 ^ 32 % 256 % 16 = id / 16 ^ (15 - 7) % 16 := by norm_num
  have e8 : id / 2 ^ 24 % 256 / 16 % 16 = id / 16 ^ (15 - 8) % 16 := by norm_num; omega
  have e9 : id / 2 ^ 24 % 256 % 16 = id / 16 ^ (15 - 9) % 16 := by norm_num
  have e10 : id / 2 ^ 16 % 256 / 16 % 16 = id / 16 ^ (15 - 10) % 16 := by norm_num; omega
  have e11 : id / 2 ^ 16 % 256 % 16 = id / 16 ^ (15 - 11) % 16 := by norm_num
  have e12 : id / 2 ^ 8 % 256 / 16 % 16 = id / 16 ^ (15 - 12) % 16 := by norm_num; omega
  have e13 : id / 2 ^ 8 % 256 % 16 = id / 16 ^ (15 - 13) % 16 := by norm_num
  have e14 : id % 256 / 16 % 16 = id / 16 ^ (15 - 14) % 16 := by norm_num; omega
  have e15 : id % 256 % 16 = id / 16 ^ (15 - 15) % 16 := by norm_num
  rw [e0, e1, e2, e3, e4, e5, e6, e7, e8, e9, e10, e11, e12, e13, e14, e15]

theorem hexRendering_chars (id : Nat) :
    (hexRendering id).length = 16 ∧ ∀ c ∈ hexRendering id, c ∈ lit "0123456789abcdef" := by
  refine ⟨by simp [hexRendering], ?_⟩
  intro c hc
  simp only [hexRendering, List.mem_map, List.mem_range] at hc
  obtain ⟨i, -, hi⟩ := hc
  have hlt : id / 16 ^ (15 - i) % 16 < 16 := Nat.mod_lt _ (by norm_num)
  have key : ∀ n, n < 16 → hextable.getD n 0 ∈ lit "0123456789abcdef" := by decide
  rw [← hi]
  exact key _ hlt

theorem PutUint64_eq_bigEndianBytes (v : Nat) : PutUint64 v = bigEndianBytes v := by
  have hr : List.range 8 = [0, 1, 2, 3, 4, 5, 6, 7] := by decide
  unfold PutUint64 bigEndianBytes
  rw [hr]
  simp only [List.map_cons, List.map_nil]
  norm_num

theorem digitChar_toNat : ∀ d, d < 10 → (Nat.digitChar d).toNat = 48 + d := by
  decide

theorem formatDigits_eq_toDigitsCore (fuel u : Nat) (acc : List Char) (h : u < fuel) :
    formatDigits fuel u (acc.map Char.toNat)
      = (Nat.toDigitsCore 10 fuel u acc).map Char.toNat := by
  induction fuel generalizing u acc with
  | zero => omega
  | succ n ih =>
    unfold formatDigits Nat.toDigitsCore
    by_cases h10 : 10 ≤ u
    · have hq : ¬ u / 10 = 0 := by omega
      have hd := digitChar_toNat (u % 10) (Nat.mod_lt _ (by norm_num))
      simp only [h10, if_true, hq, if_false]
      rw [← ih (u / 10) (Nat.digitChar (u % 10) :: acc) (by omega)]
      simp only [List.map_cons, hd]
    · have hq : u / 10 = 0 := by omega
      have hm : u % 10 = u := by omega
      have hd := digitChar_toNat u (by omega)
      simp only [h10, if_false, hq, if_true, hm, List.map_cons, hd]

theorem FormatUint_eq_repr (f : Nat) : FormatUint f = lit (Nat.repr f) := by
  have h := formatDigits_eq_toDigitsCore (f + 1) f [] (by omega)
  simpa [FormatUint, lit, Nat.repr, Nat.toDigits, List.asString] using h

theorem assocGet_foldl_set_not_mem {κ α : Type} [DecidableEq κ] (l m : List (κ × α)) (k : κ)
    (h : k ∉ l.map Prod.fst) :
    assocGet (l.foldl (fun w kv => assocSet w kv.1 kv.2) m) k = assocGet m k := by
  induction l generalizing m with
  | nil => rfl
  | cons e l ih =>
    simp only [List.map_cons, List.mem_cons, not_or] at h
    rw [List.foldl_cons, ih _ h.2, assocGet_assocSet_other _ _ _ _ h.1]

theorem assocGet_foldl_set_mem {κ α : Type} [DecidableEq κ] (l m : List (κ × α)) (k : κ) (v : α)
    (hnd : (l.map Prod.fst).Nodup) (h : (k, v) ∈ l) :
    assocGet (l.foldl (fun w kv => assocSet w kv.1 kv.2) m) k = some v := by
  induction l generalizing m with
  | nil => simp at h
  | cons e l ih =>
    simp only [List.map_cons, List.nodup_cons] at hnd
    rw [List.foldl_cons]
    rcases List.mem_cons.1 h with he | hl
    · subst he
      rw [assocGet_foldl_set_not_mem _ _ _ hnd.1, assocGet_assocSet_same]
    · exact ih _ hnd.2 hl

theorem textInjecterSets_eq_foldl (sp : RawSpan) (m : List (GoString × GoString)) :
    textInjecterSets sp m = (textEntries sp).foldl (fun w kv => assocSet w kv.1 kv.2) m := by
  unfold textInjecterSets textEntries
  rw [List.foldl_append, List.foldl_map]
  rfl

theorem Log_supported (sp : Span) (data : LogData) (w : World) (hs : sp.Sampled = true)
    (hv : (valueType data.Payload).2 = true) :
    sp.Log data w
      = ({ sp with Logs := sp.Logs ++ [{ data with
              Timestamp := if data.Timestamp = 0 then w.clock w.clockReads
                           else data.Timestamp }] },
         if data.Timestamp = 0 then { w with clockReads := w.clockReads + 1 } else w) := by
  by_cases hz : data.Timestamp = 0
  · simp [Span.Log, hs, hv, Time.IsZero, hz, World.now]
  · simp [Span.Log, hs, hv, Time.IsZero, hz]

theorem Log_unsupported (sp : Span) (data : LogData) (w : World) (hs : sp.Sampled = true)
    (hv : (valueType data.Payload).2 = false) :
    sp.Log data w
      = (sp, { w with printed := w.printed
                 ++ [LogLine.unsupportedPayload data.Event data.Payload] }) := by
  simp [Span.Log, hs, hv]

theorem textJoinerRun_ok_TraceID (tbl : Nat → Nat) (pairs : List (GoString × GoString))
    (result : Option Err) (ctx : Context)
    (h : textJoinerRun tbl pairs result = Outcome.ok ctx) : ctx.TraceID ≠ 0 := by
  unfold textJoinerRun at h
  split at h
  · rename_i c hc
    split_ifs at h with h0
    cases result with
    | none =>
      simp only [Outcome.ok.injEq] at h
      rw [← h]
      exact h0
    | some e => simp at h
  · simp at h
  · simp at h

theorem textJoiner_ok_TraceID (tbl : Nat → Nat) (c : Carrier) (ctx : Context)
    (h : textJoiner tbl c = Outcome.ok ctx) : ctx.TraceID ≠ 0 := by
  unfold textJoiner at h
  split at h
  · exact textJoinerRun_ok_TraceID tbl _ _ ctx h
  · exact textJoinerRun_ok_TraceID tbl _ _ ctx h
  · simp at h

theorem SetBaggageItem_nil (sp : Span) (key value : GoString) (hs : sp.Sampled = true)
    (hb : sp.Baggage = none) : sp.SetBaggageItem key value = Outcome.panic := by
  simp [Span.SetBaggageItem, hs, hb, GoMap.set, Outcome.bind]

theorem SetBaggageItem_some (sp : Span) (key value : GoString) (l : List (GoString × GoString))
    (hs : sp.Sampled = true) (hb : sp.Baggage = some l) :
    sp.SetBaggageItem key value
      = Outcome.ok { sp with Baggage := some (assocSet l key value) } := by
  simp [Span.SetBaggageItem, hs, hb, GoMap.set, Outcome.bind]

/-! ## The text decoder never slices a short key -/

theorem decodeRune_width (c : Nat) (rest : GoString) : 1 ≤ (decodeRune (c :: rest)).2 := by
  unfold decodeRune
  dsimp only
  split_ifs
  all_goals first
    | (simp; done)
    | (split <;> first | (simp; done) | (split_ifs <;> simp))

theorem AppendRune_head (r : Nat) :
    (r < 128 ∧ AppendRune r = [r]) ∨ ∃ h t, AppendRune r = h :: t ∧ 128 ≤ h := by
  unfold AppendRune
  split_ifs with h1 h2 h3 h4
  · exact Or.inl ⟨h1, rfl⟩
  · exact Or.inr ⟨_, _, rfl, by omega⟩
  · exact Or.inr ⟨_, _, rfl, by omega⟩
  · exact Or.inr ⟨_, _, rfl, by omega⟩
  · exact Or.inr ⟨_, _, rfl, by omega⟩

theorem mapTail_ascii_run (mapping : Nat → Nat) (fuel : Nat) (s : GoString) (j : Nat)
    (hj : j ≤ (mapTail mapping fuel s).length)
    (ha : ∀ b ∈ (mapTail mapping fuel s).take j, b < 128) : j ≤ s.length := by
  induction fuel generalizing s j with
  | zero =>
    simp only [mapTail, List.length_nil] at hj
    omega
  | succ n ih =>
    cases s with
    | nil =>
      simp only [mapTail, List.length_nil] at hj
      omega
    | cons c0 rest =>
      cases j with
      | zero => omega
      | succ j1 =>
        rw [mapTail] at hj ha
        have hw := decodeRune_width c0 rest
        rcases AppendRune_head (mapping (decodeRune (c0 :: rest)).1) with ⟨-, h1⟩ | ⟨h, t, h1, h2⟩
        · rw [h1] at hj ha
          simp only [List.singleton_append, List.length_cons, List.take_succ_cons,
            List.mem_cons] at hj ha
          have := ih (List.drop (decodeRune (c0 :: rest)).2 (c0 :: rest)) j1 (by omega)
            (fun b hb => ha b (Or.inr hb))
          simp only [List.length_drop, List.length_cons] at this
          simp only [List.length_cons]
          omega
        · rw [h1] at ha
          simp only [List.cons_append, List.take_succ_cons, List.mem_cons] at ha
          have := ha h (Or.inl rfl)
          omega

theorem Map_ascii_run (mapping : Nat → Nat) (fuel : Nat) (s : GoString) (j : Nat)
    (hj : j ≤ (Map mapping fuel s).length)
    (ha : ∀ b ∈ (Map mapping fuel s).take j, b < 128) : j ≤ s.length := by
  induction fuel generalizing s j with
  | zero =>
    simpa [Map] using hj
  | succ n ih =>
    cases s with
    | nil =>
      simp only [Map, List.length_nil] at hj
      omega
    | cons c0 rest =>
      cases j with
      | zero => omega
      | succ j1 =>
        rw [Map] at hj ha
        have hw := decodeRune_width c0 rest
        split_ifs at hj ha with hsame
        · obtain ⟨w1, hw1⟩ : ∃ w1, (decodeRune (c0 :: rest)).2 = w1 + 1 :=
            ⟨(decodeRune (c0 :: rest)).2 - 1, by omega⟩
          rw [hw1] at hj ha
          simp only [List.take_succ_cons, List.cons_append, List.mem_cons, List.length_cons,
            List.drop_succ_cons] at hj ha
          have hc0 : c0 < 128 := ha c0 (Or.inl rfl)
          have hw0 : w1 = 0 := by
            have e := decodeRune_ascii c0 rest hc0
            rw [e] at hw1
            simp only at hw1
            omega
          rw [hw0] at hj ha
          simp only [List.take_zero, List.nil_append, List.drop_zero] at hj ha
          have := ih rest j1 (by omega) (fun b hb => ha b (Or.inr hb))
          simp only [List.length_cons]
          omega
        · rcases AppendRune_head (mapping (decodeRune (c0 :: rest)).1) with
            ⟨-, h1⟩ | ⟨h, t, h1, h2⟩
          · rw [h1] at hj ha
            simp only [List.singleton_append, List.length_cons, List.take_succ_cons,
              List.mem_cons] at hj ha
            have := mapTail_ascii_run mapping n
              (List.drop (decodeRune (c0 :: rest)).2 (c0 :: rest)) j1 (by omega)
              (fun b hb => ha b (Or.inr hb))
            simp only [List.length_drop, List.length_cons] at this
            simp only [List.length_cons]
            omega
          · rw [h1] at ha
            simp only [List.cons_append, List.take_succ_cons, List.mem_cons] at ha
            have := ha h (Or.inl rfl)
            omega

theorem ToLower_prefix_length (tbl : Nat → Nat) (key p : GoString) (hp : ∀ b ∈ p, b < 128)
    (h : HasPrefix (ToLower tbl key) p = true) : p.length ≤ key.length := by
  simp only [HasPrefix, Bool.and_eq_true, decide_eq_true_eq] at h
  obtain ⟨hlen, htake⟩ := h
  unfold ToLower at hlen htake
  split_ifs at hlen htake
  · simpa using hlen
  · exact Map_ascii_run _ _ key p.length hlen (by rw [htake]; exact hp)

theorem handler_panic (tbl : Nat → Nat) (ctx : Context) (key val : GoString)
    (hb : ctx.Baggage ≠ none) (h : textJoinerHandler tbl ctx key val = Outcome.panic) :
    (ToLower tbl key = lit "tracer-traceid" ∨ ToLower tbl key = lit "tracer-spanid"
      ∨ ToLower tbl key = lit "tracer-parentspanid") ∧ idFromHex val = Outcome.panic := by
  have hid : ∀ (f : Nat → Outcome Context), (∀ x, f x ≠ Outcome.panic) →
      (idFromHex val).bind f = Outcome.panic → idFromHex val = Outcome.panic := by
    intro f hf hbind
    cases hv : idFromHex val with
    | ok x => rw [hv] at hbind; exact absurd hbind (hf x)
    | error e => exact absurd hv (idFromHex_ne_error val e)
    | panic => rfl
  unfold textJoinerHandler at h
  split_ifs at h with h1 h2 h3 h4 h5 h6
  · exact ⟨Or.inl h1, hid _ (fun x => by simp) h⟩
  · exact ⟨Or.inr (Or.inl h2), hid _ (fun x => by simp) h⟩
  · exact ⟨Or.inr (Or.inr h3), hid _ (fun x => by simp) h⟩
  · have := ToLower_prefix_length tbl key (lit "tracer-baggage-") (by decide) h5
    have e : (lit "tracer-baggage-").length = (lit "Tracer-Baggage-").length := rfl
    omega
  · cases hbag : ctx.Baggage with
    | none => exact absurd hbag hb
    | some l => rw [hbag] at h; simp [GoMap.set, Outcome.bind] at h

theorem handler_Baggage_ne_none (tbl : Nat → Nat) (ctx ctx2 : Context) (key val : GoString)
    (hb : ctx.Baggage ≠ none) (h : textJoinerHandler tbl ctx key val = Outcome.ok ctx2) :
    ctx2.Baggage ≠ none := by
  have hid : ∀ (f : Nat → Context), (∀ x, (f x).Baggage ≠ none) →
      (idFromHex val).bind (fun x => Outcome.ok (f x)) = Outcome.ok ctx2 →
      ctx2.Baggage ≠ none := by
    intro f hf hbind
    cases hv : idFromHex val with
    | ok x =>
      rw [hv] at hbind
      simp only [Outcome.bind, Outcome.ok.injEq] at hbind
      rw [← hbind]
      exact hf x
    | error e => rw [hv] at hbind; simp [Outcome.bind] at hbind
    | panic => rw [hv] at hbind; simp [Outcome.bind] at hbind
  unfold textJoinerHandler at h
  split_ifs at h with h1 h2 h3 h4 h5 h6
  · exact hid (fun x => { ctx with TraceID := x }) (fun _ => hb) h
  · exact hid (fun x => { ctx with SpanID := x }) (fun _ => hb) h
  · exact hid (fun x => { ctx with ParentID := x }) (fun _ => hb) h
  · simp only [Outcome.ok.injEq] at h
    rw [← h]
    exact hb
  · cases hbag : ctx.Baggage with
    | none => exact absurd hbag hb
    | some l =>
      rw [hbag] at h
      simp only [GoMap.set, Outcome.bind, Outcome.ok.injEq] at h
      rw [← h]
      simp
  · simp only [Outcome.ok.injEq] at h
    rw [← h]
    exact hb

theorem foreachKey_ne_panic (tbl : Nat → Nat) (pairs : List (GoString × GoString))
    (ctx : Context) (hb : ctx.Baggage ≠ none)
    (hids : ∀ kv ∈ pairs, (ToLower tbl kv.1 = lit "tracer-traceid"
      ∨ ToLower tbl kv.1 = lit "tracer-spanid" ∨ ToLower tbl kv.1 = lit "tracer-parentspanid") →
      idFromHex kv.2 ≠ Outcome.panic) :
    foreachKey tbl pairs ctx ≠ Outcome.panic := by
  induction pairs generalizing ctx with
  | nil => simp [foreachKey]
  | cons kv rest ih =>
    obtain ⟨k, v⟩ := kv
    rw [foreachKey]
    cases hh : textJoinerHandler tbl ctx k v with
    | ok c1 =>
      simp only [Outcome.bind]
      exact ih c1 (handler_Baggage_ne_none tbl ctx c1 k v hb hh)
        (fun x hx => hids x (List.mem_cons_of_mem _ hx))
    | error e => simp [Outcome.bind]
    | panic =>
      obtain ⟨hkey, hpanic⟩ := handler_panic tbl ctx k v hb hh
      exact absurd hpanic (hids (k, v) (List.mem_cons_self _ _) hkey)

theorem idFromHex_ne_panic (v : GoString) (h : 8 ≤ (DecodeString v).1.length) :
    idFromHex v ≠ Outcome.panic := by
  obtain ⟨x, hx⟩ := Uint64_of_length _ h
  unfold idFromHex
  rw [hx]
  simp

/-! ## Where the binary decoder can panic -/

theorem toInt64_range (u : Nat) : -(two63 : Int) ≤ toInt64 u ∧ toInt64 u < (two63 : Int) := by
  have hlt : u % two64 < two64 := Nat.mod_lt _ (by unfold two64; omega)
  unfold toInt64
  unfold two64 two63 at *
  split_ifs <;> constructor <;> omega

theorem addInt64_neg_iff (a b : Int) (ha : 0 < a) (ha2 : a < (two63 : Int)) (hb : 0 ≤ b)
    (hb2 : b < (two63 : Int)) : addInt64 a b < 0 ↔ (two63 : Int) ≤ a + b := by
  have hmod : (a + b) % (two64 : Int) = a + b := by
    apply Int.emod_eq_of_lt
    · omega
    · unfold two64 two63 at *
      omega
  obtain ⟨m, hm⟩ : ∃ m : Nat, a + b = (m : Int) := ⟨(a + b).toNat, by omega⟩
  have hm64 : m < two64 := by
    unfold two64 two63 at *
    omega
  unfold addInt64
  rw [hmod, hm, Int.toNat_natCast]
  unfold toInt64
  rw [Nat.mod_eq_of_lt hm64]
  unfold two64 two63 at *
  split_ifs <;> omega

theorem binaryJoinerLoop_overflow (ending : Err) (n : Nat) (pre rest : List Nat)
    (acc : List (GoString × GoString)) (klu vlu : Nat) (hp : pre.length = 16)
    (hk : Uint64 pre = Outcome.ok klu) (hv : Uint64 (pre.drop 8) = Outcome.ok vlu)
    (hkpos : 0 < toInt64 klu) (hvpos : 0 ≤ toInt64 vlu)
    (hover : (two63 : Int) ≤ toInt64 klu + toInt64 vlu) :
    binaryJoinerLoop ending (n + 1) (pre ++ rest) acc = Outcome.panic := by
  have hr : ReadFull (pre ++ rest) ending 16 = Outcome.ok (pre, rest) := by
    rw [← hp]
    exact ReadFull_append pre rest ending
  have hneg : addInt64 (toInt64 klu) (toInt64 vlu) < 0 :=
    (addInt64_neg_iff _ _ hkpos (toInt64_range klu).2 hvpos (toInt64_range vlu).2).2 hover
  rw [binaryJoinerLoop]
  simp only [hr, hk, hv]
  rw [if_neg (by omega), if_pos hneg]

/-! ## The two results of Join -/

theorem JoinResults_eq (table : List (Format × Joiner)) (tr : Tracer) (op : GoString)
    (format : Format) (c : Carrier) :
    Tracer.JoinResults table tr op format c
      = match Tracer.Join table tr op format c with
        | Outcome.ok s => Outcome.ok (some s, none)
        | Outcome.error e => Outcome.ok (none, some e)
        | Outcome.panic => Outcome.panic := by
  unfold Tracer.JoinResults Tracer.Join
  split_ifs
  · rfl
  · cases assocGet table format with
    | none => rfl
    | some joiner => cases hc : joiner c <;> simp [hc]

/-! ## The claims -/

/-- C1. Text round trip: for every span whose ids and flags are 64-bit values, whose
trace id is not zero and whose baggage is a map, `textInjecter` on an empty
`TextMapCarrier` succeeds, and `textJoiner` on the resulting carrier, whatever the
order in which the carrier presents its entries, succeeds and returns a context
with the trace id, span id, parent id and flags of the span and with a baggage that
holds the same value as the baggage of the span under every key. -/
theorem text_round_trip (tbl : Nat → Nat) (sp : Span) (hT : sp.TraceID ≠ 0)
    (hT64 : sp.TraceID < two64) (hS : sp.SpanID < two64) (hP : sp.ParentID < two64)
    (hF : sp.Flags < two64) (hB : sp.Baggage.WF) :
    ∃ m, textInjecter sp (Carrier.textMap []) = Outcome.ok (Carrier.textMap m) ∧
      ∀ pairs, pairs.Perm m →
        ∃ ctx, textJoiner tbl (Carrier.textMap pairs) = Outcome.ok ctx ∧
          ctx.TraceID = sp.TraceID ∧ ctx.SpanID = sp.SpanID ∧ ctx.ParentID = sp.ParentID ∧
          ctx.Flags = sp.Flags ∧ ∀ k, ctx.Baggage.get k = sp.Baggage.get k := by
  refine ⟨textEntries sp.toRawSpan, ?_, ?_⟩
  · simp only [textInjecter]
    rw [textInjecterSets_empty _ hB]
  · intro pairs hperm
    have hT' : sp.TraceID % two64 ≠ 0 := by rw [Nat.mod_eq_of_lt hT64]; exact hT
    obtain ⟨bag, hbag, hrun⟩ := textJoinerRun_of_perm tbl sp.toRawSpan pairs hT' hF hB hperm
    refine ⟨_, hrun, Nat.mod_eq_of_lt hT64, Nat.mod_eq_of_lt hS, Nat.mod_eq_of_lt hP, rfl, ?_⟩
    intro k
    exact assocGet_perm bag sp.Baggage.entries k hbag hB

/-- C1, at the span `Span.demo`. -/
theorem text_round_trip_witness :
    Span.demo.TraceID ≠ 0 ∧ Span.demo.Baggage.WF ∧
    ∃ m, textInjecter Span.demo (Carrier.textMap []) = Outcome.ok (Carrier.textMap m) ∧
      ∀ pairs, pairs.Perm m →
        ∃ ctx, textJoiner (fun r => r) (Carrier.textMap pairs) = Outcome.ok ctx ∧
          ctx.TraceID = Span.demo.TraceID ∧ ctx.SpanID = Span.demo.SpanID ∧
          ctx.ParentID = Span.demo.ParentID ∧ ctx.Flags = Span.demo.Flags ∧
          ∀ k, ctx.Baggage.get k = Span.demo.Baggage.get k :=
  ⟨by decide, by decide,
    text_round_trip (fun r => r) Span.demo (by decide) (by decide) (by decide) (by decide)
      (by decide) (by decide)⟩

/-- C2, as the claim states it, fails: the span `Span.emptyKey` has a nonzero trace
id and a baggage pair with the empty key; `binaryInjecter` writes its bytes, and
`binaryJoiner` answers `ErrTraceNotFound` on them. -/
theorem binary_round_trip_empty_key :
    Span.emptyKey.TraceID ≠ 0 ∧ Span.emptyKey.Baggage.WF ∧
    binaryInjecter Span.emptyKey (Carrier.buffer [])
      = Outcome.ok (Carrier.buffer (binaryInjecterBytes Span.emptyKey.toRawSpan)) ∧
    binaryJoiner (Carrier.buffer (binaryInjecterBytes Span.emptyKey.toRawSpan))
      = Outcome.error Err.TraceNotFound := by
  decide

/-- C2, amended. Binary round trip: for every span whose ids and flags are 64-bit
values, whose trace id is not zero, whose baggage is a map with no empty key, and
whose baggage sizes are sizes of Go values (key plus value below `2^63` bytes, fewer
than `2^64` pairs), `binaryInjecter` writes a byte string into an empty buffer, and
`binaryJoiner`, reading these bytes from the buffer or from any reader that delivers
them, returns without error a context with the trace id, span id, parent id and
flags of the span and with a baggage that holds the same value as the baggage of the
span under every key. -/
theorem binary_round_trip (sp : Span) (_hT : sp.TraceID ≠ 0) (hT64 : sp.TraceID < two64)
    (hS : sp.SpanID < two64) (hP : sp.ParentID < two64) (hF : sp.Flags < two64)
    (hB : sp.Baggage.WF) (hK : ∀ kv ∈ sp.Baggage.entries, kv.1 ≠ [])
    (hsz : ∀ kv ∈ sp.Baggage.entries, kv.1.length + kv.2.length < two63)
    (hn : sp.Baggage.entries.length < two64) :
    ∃ bytes ctx, binaryInjecter sp (Carrier.buffer []) = Outcome.ok (Carrier.buffer bytes) ∧
      binaryJoiner (Carrier.buffer bytes) = Outcome.ok ctx ∧
      (∀ ending, binaryJoiner (Carrier.reader bytes ending) = Outcome.ok ctx) ∧
      ctx.TraceID = sp.TraceID ∧ ctx.SpanID = sp.SpanID ∧ ctx.ParentID = sp.ParentID ∧
      ctx.Flags = sp.Flags ∧ ∀ k, ctx.Baggage.get k = sp.Baggage.get k := by
  have hK2 : ∀ kv ∈ sp.Baggage.entries, 0 < kv.1.length ∧ kv.1.length + kv.2.length < two63 :=
    fun kv hkv => ⟨List.length_pos.2 (hK kv hkv), hsz kv hkv⟩
  refine ⟨binaryInjecterBytes sp.toRawSpan, _, by simp [binaryInjecter],
    binaryJoinerRun_injected sp.toRawSpan Err.EOF hK2 hn hB,
    fun ending => binaryJoinerRun_injected sp.toRawSpan ending hK2 hn hB,
    Nat.mod_eq_of_lt hT64, Nat.mod_eq_of_lt hS, Nat.mod_eq_of_lt hP, Nat.mod_eq_of_lt hF,
    fun k => rfl⟩

/-- C2 amended, at the span `Span.demo`. -/
theorem binary_round_trip_witness :
    Span.demo.TraceID ≠ 0 ∧ (∀ kv ∈ Span.demo.Baggage.entries, kv.1 ≠ []) ∧
    ∃ bytes ctx, binaryInjecter Span.demo (Carrier.buffer []) = Outcome.ok (Carrier.buffer bytes) ∧
      binaryJoiner (Carrier.buffer bytes) = Outcome.ok ctx ∧
      (∀ ending, binaryJoiner (Carrier.reader bytes ending) = Outcome.ok ctx) ∧
      ctx.TraceID = Span.demo.TraceID ∧ ctx.SpanID = Span.demo.SpanID ∧
      ctx.ParentID = Span.demo.ParentID ∧ ctx.Flags = Span.demo.Flags ∧
      ∀ k, ctx.Baggage.get k = Span.demo.Baggage.get k :=
  ⟨by decide, by decide,
    binary_round_trip Span.demo (by decide) (by decide) (by decide) (by decide) (by decide)
      (by decide) (by decide) (by decide) (by decide)⟩

/-- C3. On the empty byte stream `binaryJoiner` returns `io.EOF`, not
`ErrTraceNotFound`: `io.ReadFull` reports a clean end before the first byte as
`io.EOF`, and the code translates `io.ErrUnexpectedEOF` only.  On every stream of 1
to 39 bytes it returns `ErrTraceNotFound`. -/
theorem binaryJoiner_short_stream :
    binaryJoiner (Carrier.buffer []) = Outcome.error Err.EOF ∧
    binaryJoiner (Carrier.reader [] Err.EOF) = Outcome.error Err.EOF ∧
    ∀ data : List Nat, data ≠ [] → data.length < 40 →
      binaryJoiner (Carrier.buffer data) = Outcome.error Err.TraceNotFound ∧
      binaryJoiner (Carrier.reader data Err.EOF) = Outcome.error Err.TraceNotFound :=
  ⟨by decide, by decide, fun data h0 h40 =>
    ⟨binaryJoinerRun_short data h0 h40, binaryJoinerRun_short data h0 h40⟩⟩

/-- C4. A stream that ends cleanly at a read boundary after a complete header with a
positive baggage count makes `binaryJoiner` return `io.EOF`, not `ErrTraceNotFound`:
at the end of the header (for every header), at the boundary between two entries,
and after the 16-byte length prefix of an entry.  A stream that ends inside the
length prefix or inside the key and value bytes gives `ErrTraceNotFound`.  A stream
that ends after a length prefix whose two lengths add up to more than the largest
`int` makes `binaryJoiner` panic. -/
theorem binaryJoiner_truncated_entries :
    (∀ (hdr : List Nat) (n : Nat), hdr.length = 40 → Uint64 (hdr.drop 32) = Outcome.ok n →
      0 < n → binaryJoiner (Carrier.buffer hdr) = Outcome.error Err.EOF) ∧
    binaryJoiner (Carrier.buffer (headerWithCount 1)) = Outcome.error Err.EOF ∧
    binaryJoiner (Carrier.buffer (headerWithCount 2 ++ binaryEntry (lit "k", lit "v")))
      = Outcome.error Err.EOF ∧
    binaryJoiner (Carrier.buffer (headerWithCount 1 ++ PutUint64 1 ++ PutUint64 1))
      = Outcome.error Err.EOF ∧
    binaryJoiner (Carrier.buffer (headerWithCount 1 ++ PutUint64 1))
      = Outcome.error Err.TraceNotFound ∧
    binaryJoiner (Carrier.buffer (headerWithCount 1 ++ PutUint64 1 ++ PutUint64 1 ++ lit "k"))
      = Outcome.error Err.TraceNotFound ∧
    binaryJoiner (Carrier.buffer (headerWithCount 1 ++ PutUint64 (two63 - 1) ++ PutUint64 1))
      = Outcome.panic := by
  refine ⟨?_, by decide, by decide, by decide, by decide, by decide, by decide⟩
  intro hdr n hh hn hpos
  obtain ⟨t, s, p, f, hrun⟩ := binaryJoinerRun_of_header Err.EOF hdr [] n hh hn
  rw [List.append_nil] at hrun
  obtain ⟨m, rfl⟩ : ∃ m, n = m + 1 := ⟨n - 1, by omega⟩
  simp only [binaryJoiner]
  rw [hrun]
  rfl

/-- C5. When `binaryJoiner` has read a complete header that announces more baggage
entries than the well-formed entries `es` that follow it, and the next 16 bytes are a
length prefix whose key length, read as a signed 64-bit integer, is `<= 0` or whose
value length is `< 0`, the result is `ErrTraceNotFound`, whatever bytes come after
the prefix and however the reader ends.  With `es` empty and key length 0 this is the
first entry of the stream with a key of length 0. -/
theorem binaryJoiner_bad_length (ending : Err) (hdr : List Nat) (n : Nat)
    (es : List (GoString × GoString)) (pre rest : List Nat) (klu vlu : Nat)
    (hh : hdr.length = 40) (hn : Uint64 (hdr.drop 32) = Outcome.ok n) (hlt : es.length < n)
    (hes : ∀ kv ∈ es, 0 < kv.1.length ∧ kv.1.length + kv.2.length < two63)
    (hp : pre.length = 16) (hk : Uint64 pre = Outcome.ok klu)
    (hv : Uint64 (pre.drop 8) = Outcome.ok vlu) (hbad : toInt64 klu ≤ 0 ∨ toInt64 vlu < 0) :
    binaryJoiner (Carrier.reader (hdr ++ es.flatMap binaryEntry ++ pre ++ rest) ending)
      = Outcome.error Err.TraceNotFound := by
  obtain ⟨t, s, p, f, hrun⟩ :=
    binaryJoinerRun_of_header ending hdr (es.flatMap binaryEntry ++ (pre ++ rest)) n hh hn
  have hcount : n = es.length + ((n - es.length - 1) + 1) := by omega
  have hloop : binaryJoinerLoop ending n (es.flatMap binaryEntry ++ (pre ++ rest)) []
      = Outcome.error Err.TraceNotFound := by
    rw [hcount, binaryJoinerLoop_entries ending es _ _ _ hes,
      binaryJoinerLoop_bad_length ending _ pre rest _ klu vlu hp hk hv hbad]
  simp only [binaryJoiner, List.append_assoc]
  rw [hrun, hloop]

/-- C5, at a stream whose first entry has key length 0 and value length 5. -/
theorem binaryJoiner_bad_length_witness :
    toInt64 0 ≤ 0 ∧
    binaryJoiner (Carrier.reader
        (headerWithCount 1 ++ ([] : List (GoString × GoString)).flatMap binaryEntry
          ++ (PutUint64 0 ++ PutUint64 5) ++ lit "hello") Err.EOF)
      = Outcome.error Err.TraceNotFound :=
  ⟨by decide,
    binaryJoiner_bad_length Err.EOF (headerWithCount 1) 1 [] (PutUint64 0 ++ PutUint64 5)
      (lit "hello") 0 5 (by decide) (by decide) (by decide) (by decide) (by decide) (by decide)
      (by decide) (by decide)⟩

/-- C6. A text carrier without a `Tracer-TraceId` entry, or with one whose value
decodes to zero, makes `textJoiner` panic, instead of returning
`ErrTraceNotFound`, when another entry holds an id that is no hexadecimal string of
16 digits: `idFromHex` drops the error of `hex.DecodeString` and reads eight bytes
that are not there.  Whenever no `Tracer-TraceId` entry decodes to a nonzero id, the
only result other than the panic is `ErrTraceNotFound`. -/
theorem textJoiner_without_trace_id :
    textJoiner (fun r => r) (Carrier.textMap [(lit "Tracer-SpanId", [])]) = Outcome.panic ∧
    textJoiner (fun r => r) (Carrier.textMap
        [(lit "Tracer-TraceId", lit "0000000000000000"), (lit "Tracer-ParentSpanId", lit "xyz")])
      = Outcome.panic ∧
    textJoiner (fun r => r) (Carrier.textMap
        [(lit "Tracer-TraceId", lit "0000000000000000"), (lit "Tracer-SpanId", lit "0000000000000002")])
      = Outcome.error Err.TraceNotFound ∧
    ∀ (tbl : Nat → Nat) (pairs : List (GoString × GoString)),
      (∀ kv ∈ pairs, ToLower tbl kv.1 = lit "tracer-traceid" →
        ∀ x, idFromHex kv.2 = Outcome.ok x → x = 0) →
      textJoiner tbl (Carrier.textMap pairs) = Outcome.panic ∨
        textJoiner tbl (Carrier.textMap pairs) = Outcome.error Err.TraceNotFound :=
  ⟨by decide, by decide, by decide,
    fun tbl pairs hz => textJoinerRun_TraceID_zero tbl pairs none hz⟩

/-- C7, as the claim states it, fails for the binary format: joining the text carrier
`emptyKeyCarrier` gives a sampled span of the tracer with trace id 1 and a baggage
pair with the empty key; `Inject` writes it to a fresh buffer in the binary format,
and `Join` on that buffer fails with `ErrTraceNotFound`. -/
theorem sampling_propagation_empty_key :
    ∃ sp c, Tracer.Join (joiners (fun r => r)) Tracer.demo (lit "op") Format.TextMap emptyKeyCarrier
        = Outcome.ok sp ∧
      sp.TraceID ≠ 0 ∧ sp.Sampled = true ∧
      Tracer.Inject injecters Tracer.demo (SpanRef.own sp) Format.Binary (Carrier.buffer [])
        = Outcome.ok c ∧
      Tracer.Join (joiners (fun r => r)) Tracer.demo (lit "op") Format.Binary c
        = Outcome.error Err.TraceNotFound :=
  ⟨_, _, rfl, by decide, by decide, rfl, rfl⟩

/-- C7, amended. Sampling propagation: for every span with a nonzero 64-bit trace id,
64-bit flags and a baggage that is a map of Go strings, `Inject` into a fresh carrier
followed by `Join` on that carrier succeeds and returns a span with the flags of the
injected span, hence with the same `Sampled()`: for the text format always (in
whatever order the carrier presents its entries), for the binary format when no
baggage key of the span is the empty string. -/
theorem sampling_propagation (tbl : Nat → Nat) (tr tr2 : Tracer) (sp : Span) (op : GoString)
    (hT : sp.TraceID ≠ 0) (hT64 : sp.TraceID < two64) (hF : sp.Flags < two64)
    (hB : sp.Baggage.WF)
    (hsz : ∀ kv ∈ sp.Baggage.entries, kv.1.length + kv.2.length < two63)
    (hn : sp.Baggage.entries.length < two64) :
    (∃ m, Tracer.Inject injecters tr (SpanRef.own sp) Format.TextMap (Carrier.textMap [])
          = Outcome.ok (Carrier.textMap m) ∧
        ∀ pairs, pairs.Perm m →
          ∃ sp2, Tracer.Join (joiners tbl) tr2 op Format.TextMap (Carrier.textMap pairs)
              = Outcome.ok sp2 ∧
            sp2.Flags = sp.Flags ∧ sp2.Sampled = sp.Sampled) ∧
    ((∀ kv ∈ sp.Baggage.entries, kv.1 ≠ []) →
      ∃ bytes sp2, Tracer.Inject injecters tr (SpanRef.own sp) Format.Binary (Carrier.buffer [])
          = Outcome.ok (Carrier.buffer bytes) ∧
        Tracer.Join (joiners tbl) tr2 op Format.Binary (Carrier.buffer bytes) = Outcome.ok sp2 ∧
        sp2.Flags = sp.Flags ∧ sp2.Sampled = sp.Sampled) := by
  constructor
  · refine ⟨textEntries sp.toRawSpan, ?_, ?_⟩
    · simp only [Tracer.Inject, Format.hashable, injecters, assocGet, if_true, textInjecter]
      simp only [Bool.not_true, Bool.false_eq_true, if_false]
      rw [textInjecterSets_empty _ hB]
    · intro pairs hperm
      have hT2 : sp.TraceID % two64 ≠ 0 := by rw [Nat.mod_eq_of_lt hT64]; exact hT
      obtain ⟨bag, -, hrun⟩ := textJoinerRun_of_perm tbl sp.toRawSpan pairs hT2 hF hB hperm
      exact ⟨_, Join_text tbl tr2 op _ _ hrun, rfl, Sampled_eq_of_Flags _ _ rfl⟩
  · intro hK
    have hK2 : ∀ kv ∈ sp.Baggage.entries, 0 < kv.1.length ∧ kv.1.length + kv.2.length < two63 :=
      fun kv hkv => ⟨List.length_pos.2 (hK kv hkv), hsz kv hkv⟩
    have hrun := binaryJoinerRun_injected sp.toRawSpan Err.EOF hK2 hn hB
    refine ⟨binaryInjecterBytes sp.toRawSpan, _, ?_, Join_binary tbl tr2 op _ _ hrun, ?_, ?_⟩
    · simp [Tracer.Inject, Format.hashable, injecters, assocGet, binaryInjecter]
    · exact Nat.mod_eq_of_lt hF
    · exact Sampled_eq_of_Flags _ _ (Nat.mod_eq_of_lt hF)

/-- C7 amended, at the span `Span.demo`, injected and joined by the tracer
`Tracer.demo`. -/
theorem sampling_propagation_witness :
    Span.demo.TraceID ≠ 0 ∧ Span.demo.Sampled = true ∧
    (∃ m, Tracer.Inject injecters Tracer.demo (SpanRef.own Span.demo) Format.TextMap
            (Carrier.textMap []) = Outcome.ok (Carrier.textMap m) ∧
        ∀ pairs, pairs.Perm m →
          ∃ sp2, Tracer.Join (joiners (fun r => r)) Tracer.demo (lit "op") Format.TextMap
              (Carrier.textMap pairs) = Outcome.ok sp2 ∧
            sp2.Flags = Span.demo.Flags ∧ sp2.Sampled = Span.demo.Sampled) ∧
    ((∀ kv ∈ Span.demo.Baggage.entries, kv.1 ≠ []) →
      ∃ bytes sp2, Tracer.Inject injecters Tracer.demo (SpanRef.own Span.demo) Format.Binary
          (Carrier.buffer []) = Outcome.ok (Carrier.buffer bytes) ∧
        Tracer.Join (joiners (fun r => r)) Tracer.demo (lit "op") Format.Binary
          (Carrier.buffer bytes) = Outcome.ok sp2 ∧
        sp2.Flags = Span.demo.Flags ∧ sp2.Sampled = Span.demo.Sampled) :=
  ⟨by decide, by decide,
    sampling_propagation (fun r => r) Tracer.demo Tracer.demo Span.demo (lit "op") (by decide)
      (by decide) (by decide) (by decide) (by decide) (by decide)⟩

/-- C8. With `Parent = p`, a span of this implementation, `StartSpanWithOptions`
returns a span with `ParentID = p.SpanID`, `TraceID = p.TraceID`, `Flags = p.Flags`
and `SpanID` the id the generator returns at this call; `Sampler.Sample` is not
called, and with any other sampler in the tracer the call returns the same `RawSpan`
and leaves the same world.  Hence the last descendant of any chain of parent links
that starts at `p` has the flags, the trace id and the `Sampled()` value of `p`, and
no link of the chain calls a sampler. -/
theorem start_span_with_parent (tr : Tracer) (opts : StartSpanOptions) (p : Span) (w : World)
    (hpar : opts.Parent = some (SpanRef.own p)) :
    (∃ sp w2, tr.StartSpanWithOptions opts w = Outcome.ok (sp, w2) ∧
      sp.ParentID = p.SpanID ∧ sp.TraceID = p.TraceID ∧ sp.Flags = p.Flags ∧
      sp.SpanID = tr.idGenerator w.idCalls ∧ sp.Sampled = p.Sampled ∧
      w2.sampled = w.sampled ∧ w2.idCalls = w.idCalls + 1 ∧
      ∀ sampler : Nat → Bool, ∃ sp3,
        Tracer.StartSpanWithOptions { tr with Sampler := sampler } opts w = Outcome.ok (sp3, w2) ∧
        sp3.toRawSpan = sp.toRawSpan) ∧
    (∀ (links : List (Tracer × GoString × Time)) (w0 : World),
      ∃ d w3, startChain links p w0 = Outcome.ok (d, w3) ∧ d.Sampled = p.Sampled ∧
        d.Flags = p.Flags ∧ d.TraceID = p.TraceID ∧ w3.sampled = w0.sampled) := by
  constructor
  · obtain ⟨start, w1, hs, -, hi, hrun⟩ := StartSpanWithOptions_parent tr opts p w hpar
    refine ⟨_, _, hrun, rfl, rfl, rfl, rfl, Sampled_eq_of_Flags _ _ rfl, hs, ?_, ?_⟩
    · simp [hi]
    · intro sampler
      unfold Tracer.StartSpanWithOptions at hrun ⊢
      split at hrun
      · rename_i hz
        rw [if_pos hz, startAt_parent _ opts p _ _ hpar]
        rw [startAt_parent tr opts p _ _ hpar] at hrun
        simp only [Outcome.ok.injEq, Prod.mk.injEq] at hrun
        exact ⟨_, by rw [← hrun.2], by rw [← hrun.1]; rfl⟩
      · rename_i hz
        rw [if_neg hz, startAt_parent _ opts p _ _ hpar]
        rw [startAt_parent tr opts p _ _ hpar] at hrun
        simp only [Outcome.ok.injEq, Prod.mk.injEq] at hrun
        exact ⟨_, by rw [← hrun.2], by rw [← hrun.1]; rfl⟩
  · intro links w0
    obtain ⟨d, w3, hd, hf, ht, hw⟩ := startChain_inherits links p w0
    exact ⟨d, w3, hd, Sampled_eq_of_Flags _ _ hf, hf, ht, hw⟩

/-- C8, for a child of `Span.demo` started by `Tracer.demo` in a fresh world. -/
theorem start_span_with_parent_witness :
    StartSpanOptions.demoChild.Parent = some (SpanRef.own Span.demo) ∧
    ∃ sp w2, Tracer.demo.StartSpanWithOptions StartSpanOptions.demoChild World.fresh
        = Outcome.ok (sp, w2) ∧
      sp.ParentID = 9 ∧ sp.TraceID = 7 ∧ sp.Flags = 1 ∧ sp.SpanID = 1 ∧ sp.Sampled = true ∧
      w2.sampled = [] := by
  refine ⟨rfl, ?_⟩
  obtain ⟨sp, w2, hrun, h1, h2, h3, h4, h5, h6, -, -⟩ :=
    (start_span_with_parent Tracer.demo StartSpanOptions.demoChild Span.demo World.fresh rfl).1
  exact ⟨sp, w2, hrun, h1, h2, h3, h4, h5, h6⟩

/-- C9. Without a parent, `StartSpanWithOptions` returns a span with
`TraceID = SpanID = id`, `ParentID = 0` and `OperationName = opts.OperationName`,
where `id` is the value the id generator returns at this call; `Sampler.Sample` is
called once, with `id`; `Flags` is `FlagSampled` (1) when the sampler answers true and
0 otherwise, so that `Sampled()` is the answer of the sampler; and when `id` is not
zero, neither are `TraceID` and `SpanID`. -/
theorem start_span_root (tr : Tracer) (opts : StartSpanOptions) (w : World)
    (hpar : opts.Parent = none) :
    ∃ sp w2, tr.StartSpanWithOptions opts w = Outcome.ok (sp, w2) ∧
      sp.TraceID = tr.idGenerator w.idCalls ∧ sp.SpanID = tr.idGenerator w.idCalls ∧
      sp.ParentID = 0 ∧ sp.OperationName = opts.OperationName ∧
      sp.Flags = (if tr.Sampler (tr.idGenerator w.idCalls) = true then FlagSampled else 0) ∧
      FlagSampled = 1 ∧
      sp.Sampled = tr.Sampler (tr.idGenerator w.idCalls) ∧
      w2.sampled = w.sampled ++ [tr.idGenerator w.idCalls] ∧
      (tr.idGenerator w.idCalls ≠ 0 → sp.TraceID ≠ 0 ∧ sp.SpanID ≠ 0) := by
  have key : ∀ (start : Time) (w1 : World), w1.idCalls = w.idCalls → w1.sampled = w.sampled →
      ∃ sp w2, tr.startAt opts start w1 = Outcome.ok (sp, w2) ∧
        sp.TraceID = tr.idGenerator w.idCalls ∧ sp.SpanID = tr.idGenerator w.idCalls ∧
        sp.ParentID = 0 ∧ sp.OperationName = opts.OperationName ∧
        sp.Flags = (if tr.Sampler (tr.idGenerator w.idCalls) = true then FlagSampled else 0) ∧
        FlagSampled = 1 ∧
        sp.Sampled = tr.Sampler (tr.idGenerator w.idCalls) ∧
        w2.sampled = w.sampled ++ [tr.idGenerator w.idCalls] ∧
        (tr.idGenerator w.idCalls ≠ 0 → sp.TraceID ≠ 0 ∧ sp.SpanID ≠ 0) := by
    intro start w1 hi hs
    unfold Tracer.startAt
    rw [hpar]
    simp only [Tracer.GenerateID, Tracer.Sample, hi, hs]
    cases hsam : tr.Sampler (tr.idGenerator w.idCalls) with
    | true =>
      refine ⟨_, _, by rw [if_pos rfl], rfl, rfl, rfl, rfl, ?_, rfl, ?_, rfl, fun h => ⟨h, h⟩⟩
      · simp [Tracer.newSpan, RawSpan.zero, FlagSampled]
      · simp [Span.Sampled, Tracer.newSpan, RawSpan.zero, FlagSampled]
    | false =>
      refine ⟨_, _, by rw [if_neg (by simp)], rfl, rfl, rfl, rfl, ?_, rfl, ?_, rfl,
        fun h => ⟨h, h⟩⟩
      · simp [Tracer.newSpan, RawSpan.zero]
      · simp [Span.Sampled, Tracer.newSpan, RawSpan.zero, FlagSampled]
  unfold Tracer.StartSpanWithOptions
  split
  · exact key w.now.1 w.now.2 rfl rfl
  · exact key opts.StartTime w rfl rfl

/-- C9, for a root span started by `Tracer.demo` in a fresh world: the id is 1 and
the sampler takes it. -/
theorem start_span_root_witness :
    StartSpanOptions.demoRoot.Parent = none ∧
    ∃ sp w2, Tracer.demo.StartSpanWithOptions StartSpanOptions.demoRoot World.fresh
        = Outcome.ok (sp, w2) ∧
      sp.TraceID = 1 ∧ sp.SpanID = 1 ∧ sp.ParentID = 0 ∧ sp.OperationName = lit "root" ∧
      sp.Flags = 1 ∧ sp.Sampled = true ∧ w2.sampled = [1] := by
  refine ⟨rfl, ?_⟩
  obtain ⟨sp, w2, hrun, h1, h2, h3, h4, h5, -, h6, h7, -⟩ :=
    start_span_root Tracer.demo StartSpanOptions.demoRoot World.fresh rfl
  exact ⟨sp, w2, hrun, h1, h2, h3, h4, h5, h6, h7⟩

/-- C10. Sampling gate: on a span whose bit 0 of `Flags` is clear, each of `SetTag`,
`Log`, `LogEvent`, `LogEventWithPayload`, `SetBaggageItem`, `Finish` and
`FinishWithOptions`, with any arguments, returns the span with every field as it was
and leaves the world as it was: nothing is handed to `Storer.Store`, nothing is
printed, the clock is not read.  `SetOperationName`, on any span, sampled or not,
sets `OperationName` to its argument and keeps every other field. -/
theorem sampling_gate (sp : Span) (w : World) (h : sp.Flags % 2 = 0) :
    (∀ key value, sp.SetTag key value w = (sp, w)) ∧
    (∀ data, sp.Log data w = (sp, w)) ∧
    (∀ event, sp.LogEvent event w = (sp, w)) ∧
    (∀ event payload, sp.LogEventWithPayload event payload w = (sp, w)) ∧
    (∀ key value, sp.SetBaggageItem key value = Outcome.ok sp) ∧
    sp.Finish w = (sp, w) ∧
    (∀ opts, sp.FinishWithOptions opts w = (sp, w)) ∧
    (∀ (s : Span) (name : GoString),
      (s.SetOperationName name).OperationName = name ∧
      (s.SetOperationName name).SpanID = s.SpanID ∧
      (s.SetOperationName name).ParentID = s.ParentID ∧
      (s.SetOperationName name).TraceID = s.TraceID ∧
      (s.SetOperationName name).StartTime = s.StartTime ∧
      (s.SetOperationName name).FinishTime = s.FinishTime ∧
      (s.SetOperationName name).Flags = s.Flags ∧
      (s.SetOperationName name).Tags = s.Tags ∧
      (s.SetOperationName name).Baggage = s.Baggage ∧
      (s.SetOperationName name).Logs = s.Logs) := by
  have hs : sp.Sampled = false := Sampled_false_of_even sp h
  refine ⟨?_, ?_, ?_, ?_, ?_, ?_, ?_, ?_⟩
  · intro key value
    simp [Span.SetTag, hs]
  · intro data
    simp [Span.Log, hs]
  · intro event
    simp [Span.LogEvent, hs]
  · intro event payload
    simp [Span.LogEventWithPayload, hs]
  · intro key value
    simp [Span.SetBaggageItem, hs]
  · simp [Span.Finish, hs]
  · intro opts
    simp [Span.FinishWithOptions, hs]
  · intro s name
    exact ⟨rfl, rfl, rfl, rfl, rfl, rfl, rfl, rfl, rfl, rfl⟩

/-- C10, at the unsampled span `Span.unsampled` in a fresh world: `Finish` stores
nothing and `SetTag` leaves the tags alone. -/
theorem sampling_gate_witness :
    Span.unsampled.Flags % 2 = 0 ∧
    (Span.unsampled.Finish World.fresh).2.stored = [] ∧
    (Span.unsampled.Finish World.fresh).1.FinishTime = 0 ∧
    (Span.unsampled.SetTag (lit "b") (Value.of Kind.Bool [1]) World.fresh).1.Tags
      = some [(lit "a", Value.of Kind.Int [1])] ∧
    Span.unsampled.SetBaggageItem (lit "k") (lit "v") = Outcome.ok Span.unsampled := by
  have hg := sampling_gate Span.unsampled World.fresh (by decide)
  refine ⟨by decide, ?_, ?_, ?_, hg.2.2.2.2.1 _ _⟩
  · rw [hg.2.2.2.2.2.1]
    rfl
  · rw [hg.2.2.2.2.2.1]
    rfl
  · rw [hg.1]
    rfl

/-- C11, as the claim states it, fails: the `nil` value is no boolean, number or
string, yet `SetTag("retry", nil)` on the sampled span `Span.demo`, which holds no
tag, does not leave the tag map as it was: afterwards the map holds `nil` under
`retry`. -/
theorem set_tag_by_type_nil :
    Span.demo.Sampled = true ∧ Value.nil.isTagValue = false ∧
    Span.demo.Tags.get (lit "retry") = none ∧
    (Span.demo.SetTag (lit "retry") Value.nil World.fresh).1.Tags.get (lit "retry")
      = some Value.nil ∧
    (Span.demo.SetTag (lit "retry") Value.nil World.fresh).1.Tags ≠ Span.demo.Tags := by
  decide

/-- C11, amended. On a sampled span, `SetTag(key, value)` with a value other than
`nil` that is no boolean, number or string returns the span with every field as it
was, the tag map included (a value stored under `key` is kept, nothing is added or
deleted); the method has no error result, and the only effect is one line handed to
the logger.  With `nil` or with a boolean, a number or a string the tag map afterwards
holds `value` under `key` and holds under every other key what it held before, and
nothing else of the span or of the world changes. -/
theorem set_tag_by_type (sp : Span) (key : GoString) (value : Value) (w : World)
    (hs : sp.Sampled = true) :
    (value ≠ Value.nil → value.isTagValue = false →
      (sp.SetTag key value w).1 = sp ∧
      (sp.SetTag key value w).1.Tags = sp.Tags ∧
      (sp.SetTag key value w).2.stored = w.stored ∧
      (sp.SetTag key value w).2.printed = w.printed ++ [LogLine.unsupportedTag key value]) ∧
    (value = Value.nil ∨ value.isTagValue = true →
      (sp.SetTag key value w).1.Tags.get key = some value ∧
      (∀ k2, k2 ≠ key → (sp.SetTag key value w).1.Tags.get k2 = sp.Tags.get k2) ∧
      (sp.SetTag key value w).1 = { sp with Tags := (sp.SetTag key value w).1.Tags } ∧
      (sp.SetTag key value w).2 = w) := by
  constructor
  · intro hnil hk
    have hv : (valueType value).2 = false := by
      cases hvt : (valueType value).2 with
      | false => rfl
      | true =>
        rcases (valueType_ok_iff value).1 hvt with h | h
        · exact absurd h hnil
        · rw [hk] at h
          exact absurd h (by decide)
    rw [SetTag_unsupported sp key value w hs hv]
    exact ⟨rfl, rfl, rfl, rfl⟩
  · intro hk
    have hv : (valueType value).2 = true := (valueType_ok_iff value).2 hk
    rw [SetTag_supported sp key value w hs hv]
    exact ⟨assocGet_assocSet_same _ _ _, fun k2 h2 => assocGet_assocSet_other _ _ _ _ h2,
      rfl, rfl⟩

/-- C11, amended, at the sampled span `Span.demo` in a fresh world: a slice is
dropped, the `int` 3 and `nil` are stored. -/
theorem set_tag_by_type_witness :
    Span.demo.Sampled = true ∧
    (Span.demo.SetTag (lit "retry") Value.someSlice World.fresh).1.Tags = Span.demo.Tags ∧
    (Span.demo.SetTag (lit "retry") Value.three World.fresh).1.Tags.get (lit "retry")
      = some Value.three ∧
    (Span.demo.SetTag (lit "retry") Value.nil World.fresh).1.Tags.get (lit "retry")
      = some Value.nil :=
  ⟨by decide,
    ((set_tag_by_type Span.demo (lit "retry") Value.someSlice World.fresh (by decide)).1
      (by decide) (by decide)).2.1,
    ((set_tag_by_type Span.demo (lit "retry") Value.three World.fresh (by decide)).2
      (Or.inr (by decide))).1,
    ((set_tag_by_type Span.demo (lit "retry") Value.nil World.fresh (by decide)).2
      (Or.inl rfl)).1⟩

/-- C12, as the claim states it, fails: `StartSpan` of the tracer `Tracer.demo` gives a
sampled span, and after `SetTag("x", nil)` its tag map holds the `nil` value, which is
no boolean, number or string. -/
theorem tag_invariant_nil :
    ∃ sp w1, Tracer.demo.StartSpan (lit "op") World.fresh = Outcome.ok (sp, w1) ∧
      Span.mutateAll [Mutation.SetTag (lit "x") Value.nil] sp w1
        = Outcome.ok ((sp.SetTag (lit "x") Value.nil w1).1, w1) ∧
      (sp.SetTag (lit "x") Value.nil w1).1.Tags = some [(lit "x", Value.nil)] ∧
      Value.nil.isTagValue = false :=
  ⟨_, _, rfl, rfl, rfl, rfl⟩

/-- C12, amended. Tag-type invariant: for every span created by
`StartSpanWithOptions` or by `Join` (with any table of joiners) and every sequence of
calls of its mutators that runs to its end, every value held in the tag map of the
span afterwards is `nil`, a boolean, a number or a string. -/
theorem tag_invariant (sp sp2 : Span) (ms : List Mutation) (w w2 : World)
    (hcreated : (∃ tr opts w0 w1, Tracer.StartSpanWithOptions tr opts w0 = Outcome.ok (sp, w1)) ∨
      (∃ table tr op format c, Tracer.Join table tr op format c = Outcome.ok sp))
    (hrun : Span.mutateAll ms sp w = Outcome.ok (sp2, w2)) :
    ∀ key value, sp2.Tags.get key = some value →
      value = Value.nil ∨ value.isTagValue = true := by
  have h0 : sp.TagsOK := by
    have hnone : sp.Tags = none := by
      rcases hcreated with ⟨tr, opts, w0, w1, h⟩ | ⟨table, tr, op, format, c, h⟩
      · exact (StartSpanWithOptions_fresh_maps tr opts w0 w1 sp h).1
      · obtain ⟨joiner, ctx, -, -, hsp⟩ := Join_fields table tr op format c sp h
        rw [hsp]
        rfl
    intro kv hkv
    rw [hnone] at hkv
    simp [GoMap.entries] at hkv
  have h2 := mutateAll_TagsOK ms sp sp2 w w2 h0 hrun
  intro key value hget
  have hmem : (key, value) ∈ sp2.Tags.entries := by
    have : ∀ (l : List (GoString × Value)), assocGet l key = some value → (key, value) ∈ l := by
      intro l
      induction l with
      | nil => simp [assocGet]
      | cons e l ih =>
        obtain ⟨k1, v1⟩ := e
        simp only [assocGet]
        split_ifs with hk
        · intro hv
          simp only [Option.some.injEq] at hv
          rw [hk, hv]
          exact List.mem_cons_self _ _
        · intro hv
          exact List.mem_cons_of_mem _ (ih hv)
    exact this _ hget
  exact h2 (key, value) hmem

/-- C12 amended, for a span started by `Tracer.demo` on which `demoMutations` runs:
an `int`, the `nil` value and a slice are set as tags before `Finish`. -/
theorem tag_invariant_witness :
    ∃ sp sp2 w1 w2,
      Tracer.demo.StartSpanWithOptions StartSpanOptions.demoRoot World.fresh
        = Outcome.ok (sp, w1) ∧
      Span.mutateAll demoMutations sp w1 = Outcome.ok (sp2, w2) ∧
      ∀ key value, sp2.Tags.get key = some value →
        value = Value.nil ∨ value.isTagValue = true := by
  refine ⟨_, _, _, _, rfl, rfl, ?_⟩
  exact tag_invariant _ _ demoMutations _ _
    (Or.inl ⟨Tracer.demo, StartSpanOptions.demoRoot, World.fresh, _, rfl⟩) rfl

/-- C14, as the claim states it, fails: the slice `[]int{1}` is no registered format,
and with it as the format the index expressions `joiners[format]` and
`injecters[format]` panic, since a slice cannot be hashed; neither `Join` nor `Inject`
fails with `ErrUnsupportedFormat`. -/
theorem codec_lookup_errors_unhashable :
    assocGet (joiners (fun r => r)) (Format.slice [1]) = none ∧
    assocGet injecters (Format.slice [1]) = none ∧
    Tracer.Join (joiners (fun r => r)) Tracer.demo (lit "op") (Format.slice [1]) Carrier.plain
      = Outcome.panic ∧
    Tracer.Join (joiners (fun r => r)) Tracer.demo (lit "op") (Format.slice [1]) Carrier.plain
      ≠ Outcome.error Err.UnsupportedFormat ∧
    Tracer.Inject injecters Tracer.demo (SpanRef.own Span.demo) (Format.slice [1])
        Carrier.plain = Outcome.panic ∧
    Tracer.Inject injecters Tracer.demo (SpanRef.own Span.demo) (Format.slice [1])
        Carrier.plain ≠ Outcome.error Err.UnsupportedFormat :=
  ⟨rfl, rfl, rfl, fun h => Outcome.noConfusion h, rfl, fun h => Outcome.noConfusion h⟩

/-- C14, amended. Codec lookup errors: with a format of a type that can be hashed and
that has no entry in the table of injecters, `Inject` of a span of this
implementation fails with `ErrUnsupportedFormat`, and with such a format that has no
entry in the table of joiners so does `Join`, whatever the carrier; this is the case
of every format `Format.other n` with the initial tables.  With the initial tables,
the text format fails with `ErrInvalidCarrier` on a carrier that is no
`TextMapWriter` (`Inject`) or no `TextMapReader` (`Join`), and the binary format on a
carrier that is no `io.Writer` (`Inject`) or no `io.Reader` (`Join`).  Whenever
`Join` returns an error, the span it returns with it is `nil`; `Tracer.Join` is
`Tracer.JoinResults` with the two results taken as one. -/
theorem codec_lookup_errors (tbl : Nat → Nat) (tr : Tracer) (sp : Span) (op : GoString)
    (carrier : Carrier) :
    (∀ (table : List (Format × Injecter)) (format : Format),
      format.hashable = true → assocGet table format = none →
      Tracer.Inject table tr (SpanRef.own sp) format carrier
        = Outcome.error Err.UnsupportedFormat) ∧
    (∀ (table : List (Format × Joiner)) (format : Format),
      format.hashable = true → assocGet table format = none →
      Tracer.Join table tr op format carrier = Outcome.error Err.UnsupportedFormat) ∧
    (∀ n, (Format.other n).hashable = true ∧ assocGet injecters (Format.other n) = none ∧
      assocGet (joiners tbl) (Format.other n) = none) ∧
    (carrier.isTextMapWriter = false →
      Tracer.Inject injecters tr (SpanRef.own sp) Format.TextMap carrier
        = Outcome.error Err.InvalidCarrier) ∧
    (carrier.isTextMapReader = false →
      Tracer.Join (joiners tbl) tr op Format.TextMap carrier
        = Outcome.error Err.InvalidCarrier) ∧
    (carrier.isWriter = false →
      Tracer.Inject injecters tr (SpanRef.own sp) Format.Binary carrier
        = Outcome.error Err.InvalidCarrier) ∧
    (carrier.isReader = false →
      Tracer.Join (joiners tbl) tr op Format.Binary carrier
        = Outcome.error Err.InvalidCarrier) ∧
    (∀ (table : List (Format × Joiner)) (format : Format) (s : Option Span) (e : Err),
      Tracer.JoinResults table tr op format carrier = Outcome.ok (s, some e) → s = none) ∧
    (∀ (table : List (Format × Joiner)) (format : Format),
      Tracer.JoinResults table tr op format carrier
        = match Tracer.Join table tr op format carrier with
          | Outcome.ok s => Outcome.ok (some s, none)
          | Outcome.error e => Outcome.ok (none, some e)
          | Outcome.panic => Outcome.panic) := by
  refine ⟨?_, ?_, ?_, ?_, ?_, ?_, ?_, ?_, ?_⟩
  · intro table format hh h
    simp [Tracer.Inject, hh, h]
  · intro table format hh h
    simp [Tracer.Join, hh, h]
  · intro n
    exact ⟨rfl, by simp [injecters, assocGet], by simp [joiners, assocGet]⟩
  · intro h
    cases carrier <;> simp_all [Carrier.isTextMapWriter, Tracer.Inject, Format.hashable,
      injecters, assocGet, textInjecter]
  · intro h
    cases carrier <;> simp_all [Carrier.isTextMapReader, Tracer.Join, Format.hashable, joiners,
      assocGet, textJoiner]
  · intro h
    cases carrier <;> simp_all [Carrier.isWriter, Tracer.Inject, Format.hashable, injecters,
      assocGet, binaryInjecter]
  · intro h
    cases carrier <;> simp_all [Carrier.isReader, Tracer.Join, Format.hashable, joiners,
      assocGet, binaryJoiner]
  · intro table format s e h
    unfold Tracer.JoinResults at h
    split_ifs at h
    cases hj : assocGet table format with
    | none =>
      rw [hj] at h
      simp only [Outcome.ok.injEq, Prod.mk.injEq] at h
      exact h.1.symm
    | some joiner =>
      rw [hj] at h
      cases hc : joiner carrier with
      | ok ctx => simp [hc] at h
      | error e2 =>
        simp only [hc, Outcome.ok.injEq, Prod.mk.injEq] at h
        exact h.1.symm
      | panic => simp [hc] at h
  · intro table format
    exact JoinResults_eq table tr op format carrier

/-- C14, amended, for the tracer `Tracer.demo`, the span `Span.demo`, a format that is
not registered and carriers without the needed interface. -/
theorem codec_lookup_errors_witness :
    Tracer.Join (joiners (fun r => r)) Tracer.demo (lit "op") (Format.other 7) Carrier.plain
      = Outcome.error Err.UnsupportedFormat ∧
    Tracer.Inject injecters Tracer.demo (SpanRef.own Span.demo) (Format.other 7) Carrier.plain
      = Outcome.error Err.UnsupportedFormat ∧
    Tracer.Inject injecters Tracer.demo (SpanRef.own Span.demo) Format.TextMap Carrier.plain
      = Outcome.error Err.InvalidCarrier ∧
    Tracer.Join (joiners (fun r => r)) Tracer.demo (lit "op") Format.Binary Carrier.plain
      = Outcome.error Err.InvalidCarrier ∧
    Tracer.JoinResults (joiners (fun r => r)) Tracer.demo (lit "op") Format.Binary Carrier.plain
      = Outcome.ok (none, some Err.InvalidCarrier) := by
  have h := codec_lookup_errors (fun r => r) Tracer.demo Span.demo (lit "op") Carrier.plain
  exact ⟨h.2.1 _ _ rfl (h.2.2.1 7).2.2, h.1 _ _ rfl (h.2.2.1 7).2.1, h.2.2.2.1 rfl,
    h.2.2.2.2.2.2.1 rfl, rfl⟩

/-- C15. Text wire format: for every span whose baggage is a map, `textInjecter` on a
`TextMapCarrier` succeeds, and in the carrier afterwards `Tracer-TraceId`,
`Tracer-SpanId` and `Tracer-ParentSpanId` hold the 16 hexadecimal digits of the id,
most significant first, `Tracer-Flags` holds the decimal digits of `Flags`, the key
`Tracer-Baggage-` followed by `k` holds `v` for every baggage pair `(k, v)`, and every
other key holds what it held before; a carrier that was empty holds exactly these
entries.  The rendering of an id has exactly 16 characters, all among `0-9a-f`, it is
what `idToHex` returns, and `idFromHex` reads a 64-bit id back from it. -/
theorem text_wire_format (sp : Span) (m : List (GoString × GoString)) (hB : sp.Baggage.WF) :
    (∃ m2, textInjecter sp (Carrier.textMap m) = Outcome.ok (Carrier.textMap m2) ∧
      assocGet m2 (lit "Tracer-TraceId") = some (hexRendering sp.TraceID) ∧
      assocGet m2 (lit "Tracer-SpanId") = some (hexRendering sp.SpanID) ∧
      assocGet m2 (lit "Tracer-ParentSpanId") = some (hexRendering sp.ParentID) ∧
      assocGet m2 (lit "Tracer-Flags") = some (lit (Nat.repr sp.Flags)) ∧
      (∀ k v, (k, v) ∈ sp.Baggage.entries →
        assocGet m2 (lit "Tracer-Baggage-" ++ k) = some v) ∧
      (∀ key, key ≠ lit "Tracer-TraceId" → key ≠ lit "Tracer-SpanId" →
        key ≠ lit "Tracer-ParentSpanId" → key ≠ lit "Tracer-Flags" →
        (∀ k v, (k, v) ∈ sp.Baggage.entries → key ≠ lit "Tracer-Baggage-" ++ k) →
        assocGet m2 key = assocGet m key) ∧
      (m = [] → m2 =
        [(lit "Tracer-TraceId", hexRendering sp.TraceID),
         (lit "Tracer-SpanId", hexRendering sp.SpanID),
         (lit "Tracer-ParentSpanId", hexRendering sp.ParentID),
         (lit "Tracer-Flags", lit (Nat.repr sp.Flags))]
          ++ sp.Baggage.entries.map (fun kv => (lit "Tracer-Baggage-" ++ kv.1, kv.2)))) ∧
    (∀ id, (hexRendering id).length = 16 ∧
      (∀ c ∈ hexRendering id, c ∈ lit "0123456789abcdef") ∧
      idToHex id = hexRendering id ∧
      (id < two64 → idFromHex (idToHex id) = Outcome.ok id)) := by
  have hnd := textEntries_keys_nodup sp.toRawSpan hB
  have hmem : ∀ x, x ∈ textEntries sp.toRawSpan →
      assocGet (textInjecterSets sp.toRawSpan m) x.1 = some x.2 := by
    intro x hx
    rw [textInjecterSets_eq_foldl]
    exact assocGet_foldl_set_mem _ _ _ _ hnd hx
  constructor
  · refine ⟨textInjecterSets sp.toRawSpan m, rfl, ?_, ?_, ?_, ?_, ?_, ?_, ?_⟩
    · rw [← idToHex_eq_hexRendering]
      exact hmem (lit "Tracer-TraceId", idToHex sp.TraceID) (by simp [textEntries])
    · rw [← idToHex_eq_hexRendering]
      exact hmem (lit "Tracer-SpanId", idToHex sp.SpanID) (by simp [textEntries])
    · rw [← idToHex_eq_hexRendering]
      exact hmem (lit "Tracer-ParentSpanId", idToHex sp.ParentID) (by simp [textEntries])
    · rw [← FormatUint_eq_repr]
      exact hmem (lit "Tracer-Flags", FormatUint sp.Flags) (by simp [textEntries])
    · intro k v hkv
      refine hmem (lit "Tracer-Baggage-" ++ k, v) ?_
      simp only [textEntries, List.mem_append, List.mem_map]
      exact Or.inr ⟨(k, v), hkv, rfl⟩
    · intro key h1 h2 h3 h4 h5
      rw [textInjecterSets_eq_foldl]
      apply assocGet_foldl_set_not_mem
      intro hk
      obtain ⟨x, hx, hxk⟩ := List.mem_map.1 hk
      simp only [textEntries, List.mem_append, List.mem_cons, List.mem_singleton,
        List.not_mem_nil, or_false, List.mem_map] at hx
      rcases hx with (h | h | h | h) | ⟨kv, hkv, h⟩
      · exact h1 (by rw [← hxk, h])
      · exact h2 (by rw [← hxk, h])
      · exact h3 (by rw [← hxk, h])
      · exact h4 (by rw [← hxk, h])
      · exact h5 kv.1 kv.2 hkv (by rw [← hxk, ← h])
    · intro hm
      rw [hm, textInjecterSets_empty _ hB, ← idToHex_eq_hexRendering, ← idToHex_eq_hexRendering,
        ← idToHex_eq_hexRendering, ← FormatUint_eq_repr]
      rfl
  · intro id
    refine ⟨(hexRendering_chars id).1, (hexRendering_chars id).2, idToHex_eq_hexRendering id, ?_⟩
    intro hid
    rw [idFromHex_idToHex, Nat.mod_eq_of_lt hid]

/-- C15, for the span `Span.demo` and an empty carrier: the six entries written. -/
theorem text_wire_format_witness :
    Span.demo.Baggage.WF ∧
    textInjecter Span.demo (Carrier.textMap [])
      = Outcome.ok (Carrier.textMap
          [(lit "Tracer-TraceId", lit "0000000000000007"),
           (lit "Tracer-SpanId", lit "0000000000000009"),
           (lit "Tracer-ParentSpanId", lit "0000000000000008"),
           (lit "Tracer-Flags", lit "1"),
           (lit "Tracer-Baggage-user", lit "42")]) := by
  refine ⟨by decide, ?_⟩
  obtain ⟨m2, h, -, -, -, -, -, -, hm⟩ := (text_wire_format Span.demo [] (by decide)).1
  rw [h, hm rfl]
  decide

/-- C16. Binary wire format: `binaryInjecter` hands one byte string to the writer (it
is appended to what a buffer or a writer held); the byte string is the big-endian
eight bytes of `TraceID`, `SpanID`, `ParentID`, `Flags` and of the number of baggage
pairs, in this order, followed for each baggage pair by the big-endian eight bytes of
the key length, those of the value length, the key bytes and the value bytes; its
length is 40 plus the sum over the pairs of `16 + len(key) + len(value)`.  The
big-endian eight bytes of a 64-bit number are read back by
`binary.BigEndian.Uint64`. -/
theorem binary_wire_format (sp : Span) :
    (∀ data, binaryInjecter sp (Carrier.buffer data)
      = Outcome.ok (Carrier.buffer (data ++ binaryInjecterBytes sp.toRawSpan))) ∧
    (∀ written, binaryInjecter sp (Carrier.writer written none)
      = Outcome.ok (Carrier.writer (written ++ binaryInjecterBytes sp.toRawSpan) none)) ∧
    binaryInjecterBytes sp.toRawSpan
      = bigEndianBytes sp.TraceID ++ bigEndianBytes sp.SpanID ++ bigEndianBytes sp.ParentID
          ++ bigEndianBytes sp.Flags ++ bigEndianBytes sp.Baggage.entries.length
          ++ sp.Baggage.entries.flatMap (fun kv =>
              bigEndianBytes kv.1.length ++ bigEndianBytes kv.2.length ++ kv.1 ++ kv.2) ∧
    (binaryInjecterBytes sp.toRawSpan).length
      = 40 + (sp.Baggage.entries.map (fun kv => 16 + kv.1.length + kv.2.length)).sum ∧
    (∀ v, (bigEndianBytes v).length = 8 ∧
      (v < two64 → Uint64 (bigEndianBytes v) = Outcome.ok v)) := by
  have hlen : ∀ l : List (GoString × GoString),
      (l.flatMap binaryEntry).length
        = (l.map (fun kv => 16 + kv.1.length + kv.2.length)).sum := by
    intro l
    induction l with
    | nil => rfl
    | cons e l ih =>
      simp only [List.flatMap_cons, List.length_append, ih, List.map_cons, List.sum_cons,
        binaryEntry, PutUint64_length]
  refine ⟨fun data => rfl, fun written => rfl, ?_, ?_, ?_⟩
  · simp only [← PutUint64_eq_bigEndianBytes]
    rfl
  · simp only [binaryInjecterBytes, List.length_append, PutUint64_length, hlen]
  · intro v
    rw [← PutUint64_eq_bigEndianBytes]
    refine ⟨rfl, fun hv => ?_⟩
    have h := Uint64_PutUint64 v []
    rw [List.append_nil, Nat.mod_eq_of_lt hv] at h
    exact h

/-- C16, for the span `Span.demo`: 40 header bytes and one entry of 16 + 4 + 2
bytes. -/
theorem binary_wire_format_witness :
    (binaryInjecterBytes Span.demo.toRawSpan).length = 62 ∧
    binaryInjecterBytes Span.demo.toRawSpan
      = List.replicate 7 0 ++ [7] ++ List.replicate 7 0 ++ [9] ++ List.replicate 7 0 ++ [8]
          ++ List.replicate 7 0 ++ [1] ++ List.replicate 7 0 ++ [1]
          ++ List.replicate 7 0 ++ [4] ++ List.replicate 7 0 ++ [2]
          ++ lit "user" ++ lit "42" := by
  have h := (binary_wire_format Span.demo).2.2.2.1
  exact ⟨by rw [h]; decide, by decide⟩

/-- C17. On a sampled span, `Log` of an entry whose payload is absent (`nil`) or a
boolean, a number or a string returns the span with one entry appended at the end of
`Logs`, the earlier entries kept in their order and every other field as it was; the
appended entry is the given one, with its timestamp kept when it is set and replaced
by the current time (one reading of the clock) when it is not.  With a payload of any
other type the span is returned as it was.  `LogEvent(e)` is `Log` of the entry with
event `e`, no timestamp and no payload, and `LogEventWithPayload(e, p)` is `Log` of
the entry with event `e`, payload `p` and no timestamp. -/
theorem log_appends (sp : Span) (data : LogData) (w : World) (hs : sp.Sampled = true) :
    ((data.Payload = Value.nil ∨ data.Payload.isTagValue = true) →
      sp.Log data w
        = ({ sp with Logs := sp.Logs ++ [{ data with
                Timestamp := if data.Timestamp = 0 then w.clock w.clockReads
                             else data.Timestamp }] },
           if data.Timestamp = 0 then { w with clockReads := w.clockReads + 1 } else w)) ∧
    (¬ (data.Payload = Value.nil ∨ data.Payload.isTagValue = true) →
      (sp.Log data w).1 = sp ∧ (sp.Log data w).1.Logs = sp.Logs) ∧
    (∀ e, sp.LogEvent e w = sp.Log { Timestamp := 0, Event := e, Payload := Value.nil } w) ∧
    (∀ e p, sp.LogEventWithPayload e p w
      = sp.Log { Timestamp := 0, Event := e, Payload := p } w) := by
  refine ⟨?_, ?_, ?_, ?_⟩
  · intro hp
    exact Log_supported sp data w hs ((valueType_ok_iff _).2 hp)
  · intro hp
    have hv : (valueType data.Payload).2 = false := by
      cases h : (valueType data.Payload).2 with
      | false => rfl
      | true => exact absurd ((valueType_ok_iff _).1 h) hp
    rw [Log_unsupported sp data w hs hv]
    exact ⟨rfl, rfl⟩
  · intro e
    simp [Span.LogEvent, hs]
  · intro e p
    simp [Span.LogEventWithPayload, hs]

/-- C17, for the span `Span.demo` in a fresh world: `LogEvent("e")` appends the entry
with the clock reading 1000, and a slice as payload is dropped. -/
theorem log_appends_witness :
    Span.demo.Sampled = true ∧
    (Span.demo.LogEvent (lit "e") World.fresh).1.Logs
      = [{ Timestamp := 1000, Event := lit "e", Payload := Value.nil }] ∧
    (Span.demo.LogEventWithPayload (lit "e") Value.someSlice World.fresh).1.Logs = [] := by
  have h := log_appends Span.demo LogData.demo World.fresh (by decide)
  have h2 := log_appends Span.demo
    { Timestamp := 0, Event := lit "e", Payload := Value.someSlice } World.fresh (by decide)
  refine ⟨by decide, ?_, ?_⟩
  · rw [h.2.2.1 (lit "e")]
    have e := h.1 (Or.inl rfl)
    unfold LogData.demo at e
    rw [e]
    rfl
  · rw [h2.2.2.2 (lit "e") Value.someSlice, (h2.2.1 (by decide)).2]
    rfl

/-- C18. `Join` in the binary format returns a span with `TraceID = 0`, without
error, on a carrier whose header has eight zero bytes as trace id: `binaryJoiner` has
no check of the trace id, where `textJoiner` answers `ErrTraceNotFound`.  This holds
for every such header with no baggage, whatever the other ids and the flags.  In the
text format every span `Join` returns has a nonzero `TraceID`. -/
theorem joined_trace_id :
    (∃ sp, Tracer.Join (joiners (fun r => r)) Tracer.demo (lit "op") Format.Binary
        zeroHeaderCarrier = Outcome.ok sp ∧ sp.TraceID = 0) ∧
    (∀ (tbl : Nat → Nat) (tr : Tracer) (op : GoString) (s p f : Nat),
      ∃ sp, Tracer.Join (joiners tbl) tr op Format.Binary
          (Carrier.buffer (PutUint64 0 ++ PutUint64 s ++ PutUint64 p ++ PutUint64 f
            ++ PutUint64 0)) = Outcome.ok sp ∧ sp.TraceID = 0) ∧
    Tracer.Join (joiners (fun r => r)) Tracer.demo (lit "op") Format.TextMap
        (Carrier.textMap [(lit "Tracer-TraceId", lit "0000000000000000")])
      = Outcome.error Err.TraceNotFound ∧
    (∀ (tbl : Nat → Nat) (tr : Tracer) (op : GoString) (c : Carrier) (sp : Span),
      Tracer.Join (joiners tbl) tr op Format.TextMap c = Outcome.ok sp → sp.TraceID ≠ 0) := by
  refine ⟨⟨_, rfl, rfl⟩, ?_, rfl, ?_⟩
  · intro tbl tr op s p f
    have h := binaryJoinerRun_header Err.EOF 0 s p f 0 []
    rw [List.append_nil] at h
    have hrun : binaryJoiner (Carrier.buffer (PutUint64 0 ++ PutUint64 s ++ PutUint64 p
        ++ PutUint64 f ++ PutUint64 0))
        = Outcome.ok { TraceID := 0, ParentID := p % two64, SpanID := s % two64,
                       Flags := f % two64, Baggage := some [] } := by
      simp only [binaryJoiner]
      rw [h]
      rfl
    exact ⟨_, Join_binary tbl tr op _ _ hrun, rfl⟩
  · intro tbl tr op c sp h
    obtain ⟨joiner, ctx, hj, hc, hsp⟩ := Join_fields _ tr op _ c sp h
    have hj2 : joiner = textJoiner tbl := by
      simp only [joiners, assocGet, if_true, Option.some.injEq] at hj
      exact hj.symm
    rw [hj2] at hc
    rw [hsp]
    exact textJoiner_ok_TraceID tbl c ctx hc

/-- C20. A sampled span returned by `StartSpan` has a `nil` baggage map, and
`SetBaggageItem` on it panics (assignment to an entry of a `nil` map); the same holds
for every sampled span returned by `StartSpanWithOptions`, with or without a parent.
The sibling `SetTag` creates the tag map when it is `nil`.  On a sampled span whose
baggage map is not `nil` (a span returned by `Join`), `SetBaggageItem(k, v)` returns
normally, afterwards `BaggageItem(k)` is `v`, and `BaggageItem` of every other key is
what it was. -/
theorem set_baggage_item_after_start :
    (∃ sp w1, Tracer.demo.StartSpan (lit "op") World.fresh = Outcome.ok (sp, w1) ∧
      sp.Sampled = true ∧ sp.Baggage = none ∧
      sp.SetBaggageItem (lit "k") (lit "v") = Outcome.panic) ∧
    (∀ (tr : Tracer) (opts : StartSpanOptions) (w w1 : World) (sp : Span),
      tr.StartSpanWithOptions opts w = Outcome.ok (sp, w1) → sp.Sampled = true →
      ∀ k v, sp.SetBaggageItem k v = Outcome.panic) ∧
    (∀ (sp : Span) (l : List (GoString × GoString)) (k v : GoString),
      sp.Sampled = true → sp.Baggage = some l →
      ∃ sp2, sp.SetBaggageItem k v = Outcome.ok sp2 ∧ sp2.BaggageItem k = v ∧
        ∀ k2, k2 ≠ k → sp2.BaggageItem k2 = sp.BaggageItem k2) := by
  refine ⟨⟨_, _, rfl, by decide, rfl, rfl⟩, ?_, ?_⟩
  · intro tr opts w w1 sp hrun hs k v
    exact SetBaggageItem_nil sp k v hs (StartSpanWithOptions_fresh_maps tr opts w w1 sp hrun).2.1
  · intro sp l k v hs hb
    refine ⟨_, SetBaggageItem_some sp k v l hs hb, ?_, ?_⟩
    · simp [Span.BaggageItem, GoMap.get, GoMap.entries, assocGet_assocSet_same]
    · intro k2 hk2
      simp [Span.BaggageItem, GoMap.get, GoMap.entries, assocGet_assocSet_other _ _ _ _ hk2, hb]

/-- C19. `textJoiner` panics on a carrier whose `Tracer-TraceId`, `Tracer-SpanId` or
`Tracer-ParentSpanId` value is the empty string, has fewer than 16 hexadecimal
digits, or starts with a character that is no hexadecimal digit: `idFromHex` drops the
error of `hex.DecodeString` and reads eight bytes from a shorter slice.  No other step
of `textJoiner` panics: when every value under these three keys decodes to at least
eight bytes, `textJoiner` returns a context or an error, whatever the other entries
are. -/
theorem textJoiner_malformed_id :
    textJoiner (fun r => r) (Carrier.textMap [(lit "Tracer-TraceId", [])]) = Outcome.panic ∧
    textJoiner (fun r => r) (Carrier.textMap [(lit "Tracer-TraceId", lit "12345")])
      = Outcome.panic ∧
    textJoiner (fun r => r) (Carrier.textMap [(lit "Tracer-TraceId", lit "zzzzzzzzzzzzzzzz")])
      = Outcome.panic ∧
    textJoiner (fun r => r) (Carrier.textMap
        [(lit "Tracer-TraceId", lit "0000000000000001"), (lit "Tracer-SpanId", lit "12")])
      = Outcome.panic ∧
    textJoiner (fun r => r) (Carrier.textMap
        [(lit "Tracer-TraceId", lit "0000000000000001"), (lit "tracer-parentspanid", [])])
      = Outcome.panic ∧
    (∀ (tbl : Nat → Nat) (pairs : List (GoString × GoString)) (result : Option Err),
      (∀ kv ∈ pairs, (ToLower tbl kv.1 = lit "tracer-traceid"
          ∨ ToLower tbl kv.1 = lit "tracer-spanid"
          ∨ ToLower tbl kv.1 = lit "tracer-parentspanid") →
        8 ≤ (DecodeString kv.2).1.length) →
      textJoiner tbl (Carrier.textMap pairs) ≠ Outcome.panic ∧
      textJoiner tbl (Carrier.textReader pairs result) ≠ Outcome.panic) := by
  refine ⟨by decide, by decide, by decide, by decide, by decide, ?_⟩
  intro tbl pairs result hids
  have hrun : ∀ res : Option Err, textJoinerRun tbl pairs res ≠ Outcome.panic := by
    intro res
    have h := foreachKey_ne_panic tbl pairs
      { TraceID := 0, ParentID := 0, SpanID := 0, Flags := 0, Baggage := some [] } (by simp)
      (fun kv hkv hkey => idFromHex_ne_panic kv.2 (hids kv hkv hkey))
    unfold textJoinerRun
    split
    · split_ifs
      · simp
      · cases res <;> simp
    · simp
    · rename_i hp
      exact absurd hp h
  exact ⟨hrun none, hrun result⟩

/-- C21. `binaryJoiner` panics on the stream `overflowStream`: the length prefix of
its entry gives the key length `2^63 - 1` and the value length 1, both pass the check
`kl <= 0 || vl < 0`, their sum wraps to `-2^63`, and `make([]byte, kl+vl)` aborts on
the negative size; so it does with any bytes after the prefix.  The same holds of
every stream with a complete header that announces more baggage entries than the
well-formed entries `es` that follow it, when the next 16 bytes are a length prefix
with a positive key length and a non-negative value length whose sum is above the
largest `int`: the result is a panic, whatever bytes come after the prefix and
however the reader ends. -/
theorem binaryJoiner_overflow :
    binaryJoiner (Carrier.buffer overflowStream) = Outcome.panic ∧
    binaryJoiner (Carrier.buffer (overflowStream ++ lit "key")) = Outcome.panic ∧
    toInt64 (two63 - 1) = 9223372036854775807 ∧
    addInt64 (toInt64 (two63 - 1)) (toInt64 1) = -9223372036854775808 ∧
    (∀ (ending : Err) (hdr : List Nat) (n : Nat) (es : List (GoString × GoString))
        (pre rest : List Nat) (klu vlu : Nat),
      hdr.length = 40 → Uint64 (hdr.drop 32) = Outcome.ok n → es.length < n →
      (∀ kv ∈ es, 0 < kv.1.length ∧ kv.1.length + kv.2.length < two63) →
      pre.length = 16 → Uint64 pre = Outcome.ok klu → Uint64 (pre.drop 8) = Outcome.ok vlu →
      0 < toInt64 klu → 0 ≤ toInt64 vlu → (two63 : Int) ≤ toInt64 klu + toInt64 vlu →
      binaryJoiner (Carrier.reader (hdr ++ es.flatMap binaryEntry ++ pre ++ rest) ending)
        = Outcome.panic) := by
  refine ⟨by decide, by decide, by decide, by decide, ?_⟩
  intro ending hdr n es pre rest klu vlu hh hn hlt hes hp hk hv hkpos hvpos hover
  obtain ⟨t, s, p, f, hrun⟩ :=
    binaryJoinerRun_of_header ending hdr (es.flatMap binaryEntry ++ (pre ++ rest)) n hh hn
  have hcount : n = es.length + ((n - es.length - 1) + 1) := by omega
  have hloop : binaryJoinerLoop ending n (es.flatMap binaryEntry ++ (pre ++ rest)) []
      = Outcome.panic := by
    rw [hcount, binaryJoinerLoop_entries ending es _ _ _ hes,
      binaryJoinerLoop_overflow ending _ pre rest _ klu vlu hp hk hv hkpos hvpos hover]
  simp only [binaryJoiner, List.append_assoc]
  rw [hrun, hloop]

/-- C22. `Join` does not use its `operationName` argument: the span it returns for
the operation name `op` on the carrier `traceOnlyCarrier` has the empty operation
name, and so has every span `Join` returns, with any table of joiners, format and
carrier.  The `TraceID`, `SpanID`, `ParentID`, `Flags` and `Baggage` of the returned
span are those of the context the joiner of the format decoded from the carrier. -/
theorem join_operation_name :
    (∃ sp, Tracer.Join (joiners (fun r => r)) Tracer.demo (lit "op") Format.TextMap
        traceOnlyCarrier = Outcome.ok sp ∧
      sp.OperationName = [] ∧ lit "op" ≠ [] ∧ sp.TraceID = 1) ∧
    (∀ (table : List (Format × Joiner)) (tr : Tracer) (op : GoString) (format : Format)
        (c : Carrier) (sp : Span),
      Tracer.Join table tr op format c = Outcome.ok sp →
      sp.OperationName = [] ∧
      ∃ joiner ctx, assocGet table format = some joiner ∧ joiner c = Outcome.ok ctx ∧
        sp.TraceID = ctx.TraceID ∧ sp.SpanID = ctx.SpanID ∧ sp.ParentID = ctx.ParentID ∧
        sp.Flags = ctx.Flags ∧ sp.Baggage = ctx.Baggage) := by
  refine ⟨⟨_, rfl, rfl, by decide, rfl⟩, ?_⟩
  intro table tr op format c sp h
  obtain ⟨joiner, ctx, hj, hc, hsp⟩ := Join_fields table tr op format c sp h
  rw [hsp]
  exact ⟨rfl, joiner, ctx, hj, hc, rfl, rfl, rfl, rfl, rfl⟩

end TracerModel
